import Mathlib

/-!
# GPlugin manager: dependency resolution and the load/unload driver

A shallow embedding of `gplugin/gplugin-manager.c` (with the parts of
`gplugin-plugin.c` and `gplugin-plugin-info.c` it relies on): dependency
resolution, the load and unload driver, the loader registry, discovery
(`gplugin_manager_refresh`), the search paths and the normalized id.

* C strings are lists of characters; a `gchar *` that may be `NULL` is an
  `Option`.
* Plugins are GObjects that the manager only holds references to: a plugin is
  a handle (`Nat`) and its mutable fields live in a `World` (the object heap).
* Hash tables are association lists searched from the front.
* Every function that emits signals or calls into a loader returns, besides
  its C results, the list of events it produced, in chronological order.
* Behaviour that lives outside the manager (the version comparison, the
  loaders' virtual functions, the signal handlers connected by the
  application) is collected in `Env`.
-/

namespace GPlugin

/-- A C string. -/
abbrev Str := List Char

/-- A `GError`; only its message is modelled (the manager always uses
`GPLUGIN_DOMAIN` and code `0`). -/
abbrev GError := List Char

/-- The enum `GPluginPluginState`, the states named by `gplugin_plugin_state_to_string`. -/
inductive GPluginPluginState where
  | UNKNOWN
  | QUERIED
  | REQUERY
  | LOADED
  | LOAD_FAILED
  | UNLOAD_FAILED
  deriving DecidableEq, Repr

/-- The fields of `GPluginPluginInfoPrivate` that the manager reads. -/
structure GPluginPluginInfo where
  id : Option Str
  priority : Int
  version : Option Str
  dependencies : Option (List Str)
  load_on_query : Bool
  deriving DecidableEq, Repr

/-- The properties of the `GPluginPlugin` interface: `filename`, `loader`
(a loader handle, `none` for `NULL`), `info`, `state` and `error`. -/
structure GPluginPlugin where
  filename : Option Str
  loader : Option Nat
  info : Option GPluginPluginInfo
  state : GPluginPluginState
  error : Option GError
  deriving DecidableEq, Repr

/-- The object heap: the current fields of every plugin handle. -/
abbrev World := Nat → GPluginPlugin

/-- What a call makes observable: the six manager signals, the plugin's
`state-changed` signal (emitted by `gplugin_plugin_set_state`) and the
invocations of the loaders' `load` and `unload` virtual functions. -/
inductive Event where
  | loading_plugin (plugin : Nat)
  | loaded_plugin (plugin : Nat)
  | load_plugin_failed (plugin : Nat)
  | unloading_plugin (plugin : Nat)
  | unloaded_plugin (plugin : Nat)
  | unload_plugin_failed (plugin : Nat)
  | state_changed (plugin : Nat) (oldstate newstate : GPluginPluginState)
  | loader_load (loader plugin : Nat)
  | loader_unload (loader plugin : Nat)
  deriving DecidableEq, Repr

/-- The struct `GPluginManagerPrivate`. `plugins` maps an id to the handles of the
plugins with that id, `plugins_filename_view` a filename to a plugin handle,
`loaders` a loader id to a loader handle and `loaders_by_extension` an
extension to loader handles. -/
structure GPluginManager where
  paths : List Str
  plugins : List (Str × List Nat)
  plugins_filename_view : List (Str × Nat)
  loaders : List (Str × Nat)
  loaders_by_extension : List (Str × List Nat)
  refresh_needed : Bool
  deriving DecidableEq, Repr

/-- Everything the manager calls but does not define.

* `gplugin_version_compare` is declared in `gplugin-version.h`.
* `load` and `unload` are the virtual functions of a loader class
  (`load(plugin) → ok | error`): `none` is success, `some e` the error.
  They may inspect the heap and are assumed not to change it.
* `loading_plugin` and `unloading_plugin` are the outcome of emitting the
  vetoable signals: the accumulated boolean of all handlers and the content
  of the error slot handed to them. -/
structure Env where
  gplugin_version_compare : Option Str → Option Str → Int
  load : World → Nat → Nat → Option GError
  unload : World → Nat → Nat → Option GError
  loading_plugin : World → Nat → Bool × Option GError
  unloading_plugin : World → Nat → Bool × Option GError

/-- The C results of a call (`ret`, `*error`), the heap it leaves and the
events it produced. -/
structure Outcome where
  ret : Bool
  error : Option GError
  world : World
  events : List Event

/-! ## The dependency pattern -/

/-- The characters that end a line for the regular expression library when
no newline option is given (any Unicode newline): `.` does not match them. -/
def isNewline (c : Char) : Bool :=
  c = '\n' || c = '\x0b' || c = '\x0c' || c = '\r' || c = '\u0085' ||
    c = '\u2028' || c = '\u2029'

/-- The assertion `$` at a position with `rest` still to read: the end of the
subject, or just before a newline that ends the subject. -/
def atDollar (rest : Str) : Bool :=
  match rest with
  | [] => true
  | [c] => isNewline c
  | ['\r', '\n'] => true
  | _ => false

/-- The alternatives of the group `op` in `dependency_pattern`, in the order
in which they are written (and therefore tried). -/
def dependency_ops : List Str :=
  [['<', '='], ['<'], ['=', '='], ['='], ['>', '='], ['>']]

/-- The part `(?P<version>.+)$` at `rest`. The greedy `.+` takes the longest
run of non-newline characters; giving characters back cannot help, since `$`
fails in front of a non-newline character. -/
def matchVersion (rest : Str) : Option Str :=
  let run := rest.takeWhile (fun c => !isNewline c)
  if run ≠ [] ∧ atDollar (rest.dropWhile (fun c => !isNewline c)) = true then some run
  else none

/-- The part `(?P<op>\<=|\<|==|=|\>=|\>)(?P<version>.+)` followed by `$`,
tried on `rest` for the operator alternatives `ops` in order. -/
def matchOpVersion (rest : Str) : List Str → Option (Str × Str)
  | [] => none
  | op :: ops =>
    if op.isPrefixOf rest = true then
      match matchVersion (rest.drop op.length) with
      | some version => some (op, version)
      | none => matchOpVersion rest ops
    else matchOpVersion rest ops

/-- The pattern after the lazy `id` group has consumed `id` (given reversed):
first the optional group, then a bare `$`, and only then one more character
for `id`. -/
def matchAfterId : Str → Str → Option (Str × Str × Str)
  | idRev, [] =>
    match matchOpVersion [] dependency_ops with
    | some (op, version) => some (idRev.reverse, op, version)
    | none => if atDollar [] = true then some (idRev.reverse, [], []) else none
  | idRev, c :: cs =>
    match matchOpVersion (c :: cs) dependency_ops with
    | some (op, version) => some (idRev.reverse, op, version)
    | none =>
      if atDollar (c :: cs) = true then some (idRev.reverse, [], [])
      else if isNewline c = true then none
      else matchAfterId (c :: idRev) cs

/-- The call `g_regex_match(dependency_regex, s, 0, &match)` followed by
`g_match_info_fetch_named` for `id`, `op` and `version`, for
`dependency_pattern = "^(?P<id>.+?)((?P<op>\\<=|\\<|==|=|\\>=|\\>)(?P<version>.+))?$"`.
`none` when the pattern does not match; a group that took no part in the
match is fetched as the empty string. -/
def dependency_regex_match (s : Str) : Option (Str × Str × Str) :=
  match s with
  | [] => none
  | c :: cs => if isNewline c = true then none else matchAfterId [c] cs

/-! ## Lookup -/

/-- The call `g_strsplit(string, "|", 0)` continued after the characters `acc` (given
reversed) of the current piece. -/
def g_strsplit_from : Str → Str → List Str
  | acc, [] => [acc.reverse]
  | acc, c :: cs =>
    if c = '|' then acc.reverse :: g_strsplit_from [] cs
    else g_strsplit_from (c :: acc) cs

/-- The call `g_strsplit(string, "|", 0)`: the pieces between the delimiters, empty
pieces included; the empty string gives the empty vector. -/
def g_strsplit (string : Str) : List Str :=
  match string with
  | [] => []
  | c :: cs => g_strsplit_from [] (c :: cs)

/-- The call `g_hash_table_lookup` on a table from strings to lists, where a missing
key gives `NULL`, the empty list. -/
def lookup_list (table : List (Str × List Nat)) (key : Str) : List Nat :=
  match table with
  | [] => []
  | (k, v) :: rest => if k = key then v else lookup_list rest key

/-- The function `gplugin_manager_find_plugins`: a copy of the list stored under `id`. -/
def gplugin_manager_find_plugins (manager : GPluginManager) (id : Str) : List Nat :=
  lookup_list manager.plugins id

/-- The value of `gplugin_plugin_info_get_version(gplugin_plugin_get_info(plugin))`. -/
def found_version (w : World) (plugin : Nat) : Option Str :=
  match (w plugin).info with
  | none => none
  | some info => info.version

/-- The value of `keep` in `gplugin_manager_find_plugins_with_version` for a
comparison result and an operator (`g_strcmp0` accepts `NULL`). -/
def keep_plugin (result : Int) (op : Option Str) : Bool :=
  if result < 0 then
    decide (op = some ['<']) || decide (op = some ['<', '='])
  else if result = 0 then
    decide (op = some ['=']) || decide (op = some ['=', '=']) ||
      decide (op = some ['<', '=']) || decide (op = some ['>', '='])
  else if result > 0 then
    decide (op = some ['>']) || decide (op = some ['>', '='])
  else false

/-- The loop of `gplugin_manager_find_plugins_with_version`: every kept plugin
is prepended to `filtered`. -/
def filter_loop (env : Env) (w : World) (op version : Option Str) :
    List Nat → List Nat → List Nat
  | [], filtered => filtered
  | plugin :: l, filtered =>
    if keep_plugin (env.gplugin_version_compare (found_version w plugin) version) op = true then
      filter_loop env w op version l (plugin :: filtered)
    else filter_loop env w op version l filtered

/-- The function `gplugin_manager_find_plugins_with_version`. -/
def gplugin_manager_find_plugins_with_version (env : Env) (manager : GPluginManager)
    (w : World) (id : Str) (op version : Option Str) : List Nat :=
  let plugins := gplugin_manager_find_plugins manager id
  if (op = none ∨ op = some []) ∧ (version = none ∨ version = some []) then plugins
  else (filter_loop env w op version plugins []).reverse

/-- The function `gplugin_manager_find_plugin`: the first plugin of `find_plugins`. -/
def gplugin_manager_find_plugin (manager : GPluginManager) (id : Str) : Option Nat :=
  match gplugin_manager_find_plugins manager id with
  | [] => none
  | plugin :: _ => some plugin

/-! ## Dependency resolution -/

/-- The loop over `ors[o]` in `gplugin_manager_get_plugin_dependencies`: the
plugin `matches->data` of the alternative at which the loop breaks, or `none`
when it ends with `found == FALSE`. -/
def resolve_ors (env : Env) (manager : GPluginManager) (w : World) : List Str → Option Nat
  | [] => none
  | o :: ors =>
    match dependency_regex_match o with
    | none => resolve_ors env manager w ors
    | some (oid, oop, over) =>
      match gplugin_manager_find_plugins_with_version env manager w oid (some oop) (some over) with
      | [] => resolve_ors env manager w ors
      | first :: _ => some first

/-- The rendering by `printf` of a `%s` argument. -/
def fmt_s (s : Option Str) : Str :=
  match s with
  | some s => s
  | none => "(null)".toList

/-- The message `"failed to find dependency %s for %s"`. -/
def dependency_error (dependency : Str) (id : Option Str) : GError :=
  "failed to find dependency ".toList ++ dependency ++ " for ".toList ++ fmt_s id

/-- The loop over `dependencies[i]` in
`gplugin_manager_get_plugin_dependencies`, with the list `ret` built so far:
the returned list and the error. -/
def dependencies_loop (env : Env) (manager : GPluginManager) (w : World) (id : Option Str) :
    List Str → List Nat → List Nat × Option GError
  | [], ret => (ret, none)
  | dependency :: rest, ret =>
    match resolve_ors env manager w (g_strsplit dependency) with
    | none => ([], some (dependency_error dependency id))
    | some first => dependencies_loop env manager w id rest (first :: ret)

/-- The function `gplugin_manager_get_plugin_dependencies`: the returned list (`NULL` is
the empty list) and the content of `*error`. -/
def gplugin_manager_get_plugin_dependencies (env : Env) (manager : GPluginManager)
    (w : World) (plugin : Nat) : List Nat × Option GError :=
  match (w plugin).info with
  | none => ([], none)
  | some info =>
    match info.dependencies with
    | none => ([], none)
    | some dependencies => dependencies_loop env manager w info.id dependencies []

/-! ## Plugin objects -/

/-- The function `gplugin_plugin_set_state`: stores the state and emits `state-changed`
with the old and the new state. -/
def gplugin_plugin_set_state (w : World) (plugin : Nat) (state : GPluginPluginState) :
    World × List Event :=
  (fun q => if q = plugin then { w q with state := state } else w q,
    [Event.state_changed plugin (w plugin).state state])

/-- The call `g_object_set(G_OBJECT(plugin), "error", error, NULL)`. -/
def set_plugin_error (w : World) (plugin : Nat) (error : Option GError) : World :=
  fun q => if q = plugin then { w q with error := error } else w q

/-- The call `g_propagate_error(dest, src)`: `src` is stored in `*dest`, unless `*dest`
already holds an error, which is then kept. -/
def g_propagate_error (dest src : Option GError) : Option GError :=
  match dest with
  | some d => some d
  | none => src

/-- Modelled from the spec: `gplugin_loader_load_plugin`, defined in
`gplugin-loader.c`, which is not among the sources. It invokes the loader's
`load`; on success the plugin transitions to `loaded`; on failure the error
is recorded on the plugin, the plugin enters `load_failed` and the error is
propagated (§4.2, §4.8 step 6, §7 LoaderRefused). -/
def gplugin_loader_load_plugin (env : Env) (w : World) (loader plugin : Nat) : Outcome :=
  match env.load w loader plugin with
  | none =>
    let s := gplugin_plugin_set_state w plugin GPluginPluginState.LOADED
    ⟨true, none, s.1, Event.loader_load loader plugin :: s.2⟩
  | some e =>
    let s := gplugin_plugin_set_state (set_plugin_error w plugin (some e)) plugin
      GPluginPluginState.LOAD_FAILED
    ⟨false, some e, s.1, Event.loader_load loader plugin :: s.2⟩

/-- Modelled from the spec: `gplugin_loader_unload_plugin`, defined in
`gplugin-loader.c`, which is not among the sources. It invokes the loader's
`unload`; on success the plugin transitions to `queried`; on failure the
error is recorded on the plugin, the plugin enters `unload_failed` and the
error is propagated (§4.2, §4.8 step 4, §7 LoaderRefused). -/
def gplugin_loader_unload_plugin (env : Env) (w : World) (loader plugin : Nat) : Outcome :=
  match env.unload w loader plugin with
  | none =>
    let s := gplugin_plugin_set_state w plugin GPluginPluginState.QUERIED
    ⟨true, none, s.1, Event.loader_unload loader plugin :: s.2⟩
  | some e =>
    let s := gplugin_plugin_set_state (set_plugin_error w plugin (some e)) plugin
      GPluginPluginState.UNLOAD_FAILED
    ⟨false, some e, s.1, Event.loader_unload loader plugin :: s.2⟩

/-! ## The load and unload driver -/

/-- The `for` loop of `gplugin_manager_load_dependencies` over the resolved
dependencies; `load_plugin` is the recursive call of
`gplugin_manager_load_plugin`. The loop breaks at the first dependency whose
call returns `FALSE` or sets an error. `none` when a recursive call does not
return. -/
def load_dependencies_loop (load_plugin : World → Nat → Option Outcome) :
    World → List Nat → Option Outcome
  | w, [] => some ⟨true, none, w, []⟩
  | w, dependency :: l =>
    match load_plugin w dependency with
    | none => none
    | some o =>
      if o.ret = false ∨ o.error ≠ none then some ⟨false, o.error, o.world, o.events⟩
      else
        match load_dependencies_loop load_plugin o.world l with
        | none => none
        | some r => some ⟨r.ret, r.error, r.world, o.events ++ r.events⟩

/-- The function `gplugin_manager_load_dependencies`. -/
def gplugin_manager_load_dependencies (env : Env) (manager : GPluginManager)
    (load_plugin : World → Nat → Option Outcome) (w : World) (plugin : Nat) : Option Outcome :=
  match gplugin_manager_get_plugin_dependencies env manager w plugin with
  | (_, some ourerror) => some ⟨false, some ourerror, w, []⟩
  | (dependencies, none) => load_dependencies_loop load_plugin w dependencies

/-- The message `"Plugin %s did not return value plugin info"`. -/
def missing_info_error (filename : Option Str) : GError :=
  "Plugin ".toList ++ fmt_s filename ++ " did not return value plugin info".toList

/-- The message of the error set when the plugin's loader is not a loader. -/
def not_a_loader_error (filename : Option Str) : GError :=
  "The loader for ".toList ++ fmt_s filename ++
    " is not a loader.  This should not happened!".toList

/-- The part of `gplugin_manager_load_plugin` that follows the loading of the
dependencies (`/* now load the actual plugin */`): the check of the plugin's
loader, the emission of `loading-plugin`, the call of
`gplugin_loader_load_plugin` and the emission of `loaded-plugin` or
`load-plugin-failed`. -/
def gplugin_manager_load_plugin_actual (env : Env) (w : World) (plugin : Nat) : Outcome :=
  match (w plugin).loader with
  | none =>
    let s := gplugin_plugin_set_state w plugin GPluginPluginState.LOAD_FAILED
    ⟨false, some (not_a_loader_error (w plugin).filename), s.1, s.2⟩
  | some loader =>
    let sig := env.loading_plugin w plugin
    if sig.1 = false then
      let s := gplugin_plugin_set_state (set_plugin_error w plugin sig.2) plugin
        GPluginPluginState.LOAD_FAILED
      ⟨false, sig.2, s.1, Event.loading_plugin plugin :: s.2⟩
    else
      let l := gplugin_loader_load_plugin env w loader plugin
      if l.ret = true then
        ⟨true, none, l.world, Event.loading_plugin plugin :: (l.events ++ [Event.loaded_plugin plugin])⟩
      else
        ⟨false, g_propagate_error sig.2 l.error, l.world,
          Event.loading_plugin plugin :: (l.events ++ [Event.load_plugin_failed plugin])⟩

/-- The function `gplugin_manager_load_plugin`. The first argument bounds the depth of the
recursion through `gplugin_manager_load_dependencies`; the result is `none`
when that depth does not suffice. -/
def gplugin_manager_load_plugin (env : Env) (manager : GPluginManager) :
    Nat → World → Nat → Option Outcome
  | 0, _, _ => none
  | fuel + 1, w, plugin =>
    if (w plugin).state = GPluginPluginState.LOADED then some ⟨true, none, w, []⟩
    else
      match (w plugin).info with
      | none =>
        let s := gplugin_plugin_set_state w plugin GPluginPluginState.LOAD_FAILED
        some ⟨false, some (missing_info_error (w plugin).filename), s.1, s.2⟩
      | some _ =>
        match gplugin_manager_load_dependencies env manager
            (gplugin_manager_load_plugin env manager fuel) w plugin with
        | none => none
        | some d =>
          if d.ret = false then some ⟨false, d.error, d.world, d.events⟩
          else
            let a := gplugin_manager_load_plugin_actual env d.world plugin
            some ⟨a.ret, a.error, a.world, d.events ++ a.events⟩

/-- The function `gplugin_manager_unload_plugin`. -/
def gplugin_manager_unload_plugin (env : Env) (w : World) (plugin : Nat) : Outcome :=
  if (w plugin).state ≠ GPluginPluginState.LOADED then ⟨true, none, w, []⟩
  else
    match (w plugin).loader with
    | none => ⟨false, some "Plugin loader is not a loader".toList, w, []⟩
    | some loader =>
      let sig := env.unloading_plugin w plugin
      if sig.1 = false then
        let s := gplugin_plugin_set_state (set_plugin_error w plugin sig.2) plugin
          GPluginPluginState.LOAD_FAILED
        ⟨false, sig.2, s.1, Event.unloading_plugin plugin :: s.2⟩
      else
        let u := gplugin_loader_unload_plugin env w loader plugin
        if u.ret = true then
          ⟨true, none, u.world,
            Event.unloading_plugin plugin :: (u.events ++ [Event.unloaded_plugin plugin])⟩
        else
          ⟨false, g_propagate_error sig.2 u.error, u.world,
            Event.unloading_plugin plugin :: (u.events ++ [Event.unload_plugin_failed plugin])⟩

/-! ## Definitions used to state the properties -/

/-- The operator characters of the dependency grammar. -/
def isOperatorChar (c : Char) : Bool :=
  c = '<' || c = '=' || c = '>'

/-- The comparator table of the dependency grammar: whether a comparison
result is consistent with an operator (`<`: negative; `<=`: negative or zero;
`=` and `==`: zero; `>=`: zero or positive; `>`: positive). -/
def op_consistent (op : Str) (result : Int) : Bool :=
  if op = ['<'] then decide (result < 0)
  else if op = ['<', '='] then decide (result < 0) || decide (result = 0)
  else if op = ['='] then decide (result = 0)
  else if op = ['=', '='] then decide (result = 0)
  else if op = ['>', '='] then decide (result = 0) || decide (result > 0)
  else if op = ['>'] then decide (result > 0)
  else false

/-- The plugins that one alternative of a dependency entry selects: the
result of `gplugin_manager_find_plugins_with_version` for the groups of the
pattern, nothing when the pattern does not match. -/
def atom_matches (env : Env) (manager : GPluginManager) (w : World) (atom : Str) : List Nat :=
  match dependency_regex_match atom with
  | none => []
  | some (oid, oop, over) =>
    gplugin_manager_find_plugins_with_version env manager w oid (some oop) (some over)

/-- The dependency entries of a plugin (`NULL` read as no entries). -/
def dependencies_of (w : World) (plugin : Nat) : List Str :=
  match (w plugin).info with
  | none => []
  | some info => info.dependencies.getD []

/-- The id in a plugin's info. -/
def id_of (w : World) (plugin : Nat) : Option Str :=
  match (w plugin).info with
  | none => none
  | some info => info.id

/-! ## Fixtures for the concrete scenarios -/

/-- The components of a dotted version, read as decimal numbers. -/
def version_numbers : Nat → Str → List Nat
  | n, [] => [n]
  | n, c :: cs =>
    if c = '.' then n :: version_numbers 0 cs
    else version_numbers (10 * n + (c.toNat - '0'.toNat)) cs

/-- Lexicographic comparison of version components; a missing component
counts as zero. -/
def compare_numbers : List Nat → List Nat → Int
  | [], bs => if bs.all (fun b => b = 0) then 0 else -1
  | a :: as, [] => if (a :: as).all (fun b => b = 0) then 0 else 1
  | a :: as, b :: bs => if a < b then -1 else if b < a then 1 else compare_numbers as bs

/-- Modelled from the spec: `gplugin_version_compare`, defined in
`gplugin-version.c`, which is not among the sources, on versions that are
dot-separated decimal numbers: digit runs are compared numerically (§4.5).
Only the concrete scenarios use it. -/
def version_compare_dotted (v1 v2 : Option Str) : Int :=
  compare_numbers (version_numbers 0 (v1.getD [])) (version_numbers 0 (v2.getD []))

/-- An environment in which every loader succeeds and no handler vetoes. -/
def demo_env : Env :=
  ⟨version_compare_dotted, fun _ _ _ => none, fun _ _ _ => none,
    fun _ _ => (true, none), fun _ _ => (true, none)⟩

/-- A plugin info with the given id, version and dependency entries. -/
def demo_info (id version : String) (dependencies : List String) : GPluginPluginInfo :=
  ⟨some id.toList, 0, some version.toList, some (dependencies.map String.toList), false⟩

/-- A queried plugin of loader `0` with the given file name and info. -/
def demo_plugin (filename : String) (info : GPluginPluginInfo) : GPluginPlugin :=
  ⟨some filename.toList, some 0, some info, GPluginPluginState.QUERIED, none⟩

/-- A manager whose identifier index is `plugins` and that holds nothing else. -/
def demo_manager (plugins : List (String × List Nat)) : GPluginManager :=
  ⟨[], plugins.map (fun e => (e.1.toList, e.2)), [], [], [], false⟩

/-- The heap holding the plugins `ps` at the handles `0, 1, ...`. -/
def demo_world (ps : List GPluginPlugin) : World :=
  fun q => ps.getD q ⟨none, none, none, GPluginPluginState.UNKNOWN, none⟩

/-- Scenario D: plugin `0` (`demo/y`) depends on `demo/a>=3|demo/b`; only
`demo/b` (plugin `1`) is indexed besides it. -/
def scenario_d_world : World :=
  demo_world [demo_plugin "/p/y.so" (demo_info "demo/y" "1.0" ["demo/a>=3|demo/b"]),
    demo_plugin "/p/b.so" (demo_info "demo/b" "1.0" [])]

/-- The index of scenario D. -/
def scenario_d_manager : GPluginManager :=
  demo_manager [("demo/y", [0]), ("demo/b", [1])]

/-- Scenario C: `demo/lib` is indexed at version `1.5` (plugin `1`) and at
version `2.1` (plugin `2`). -/
def scenario_c_world : World :=
  demo_world [demo_plugin "/p/x.so" (demo_info "demo/x" "1.0" ["demo/lib>=2.0"]),
    demo_plugin "/p/lib15.so" (demo_info "demo/lib" "1.5" []),
    demo_plugin "/p/lib21.so" (demo_info "demo/lib" "2.1" [])]

/-- The index of scenario C. -/
def scenario_c_manager : GPluginManager :=
  demo_manager [("demo/x", [0]), ("demo/lib", [1, 2])]

/-- What a run of the load driver from heap `w` with outcome `o` leaves
alone: a plugin that was loaded is still loaded, a plugin that a
`state-changed` signal reported as loaded is loaded, every state change
starts from a state other than `loaded` and ends in `loaded` or
`load_failed`, no loader's `unload` is invoked, `info`, `loader` and
`filename` of every plugin are the same, and a plugin whose state differs was
reported by a `state-changed` signal with its new state. -/
def load_frame (w : World) (o : Outcome) : Prop :=
  (∀ q, (w q).state = GPluginPluginState.LOADED →
      (o.world q).state = GPluginPluginState.LOADED) ∧
    (∀ q old, Event.state_changed q old GPluginPluginState.LOADED ∈ o.events →
      (o.world q).state = GPluginPluginState.LOADED) ∧
    (∀ q old new, Event.state_changed q old new ∈ o.events →
      old ≠ GPluginPluginState.LOADED ∧
        (new = GPluginPluginState.LOADED ∨ new = GPluginPluginState.LOAD_FAILED)) ∧
    (∀ l q, Event.loader_unload l q ∉ o.events) ∧
    (∀ q, (o.world q).info = (w q).info ∧ (o.world q).loader = (w q).loader ∧
      (o.world q).filename = (w q).filename) ∧
    (∀ q, (o.world q).state = (w q).state ∨
      ∃ old, Event.state_changed q old (o.world q).state ∈ o.events)

/-- The plugin that an event is about. -/
def event_plugin (e : Event) : Nat :=
  match e with
  | Event.loading_plugin p => p
  | Event.loaded_plugin p => p
  | Event.load_plugin_failed p => p
  | Event.unloading_plugin p => p
  | Event.unloaded_plugin p => p
  | Event.unload_plugin_failed p => p
  | Event.state_changed p _ _ => p
  | Event.loader_load _ p => p
  | Event.loader_unload _ p => p

/-- Plugin `q` is in the middle of `gplugin_manager_load_dependencies`: it is
not loaded, its dependencies resolve, the resolved dependencies before `nxt`
are loaded and the call for `nxt`, a plugin in `S`, is pending. -/
def waiting (env : Env) (manager : GPluginManager) (w : World) (S : Nat → Prop) (q : Nat) :
    Prop :=
  (w q).state ≠ GPluginPluginState.LOADED ∧
    ∃ pre nxt post,
      gplugin_manager_get_plugin_dependencies env manager w q = (pre ++ nxt :: post, none) ∧
      (∀ x ∈ pre, (w x).state = GPluginPluginState.LOADED) ∧ S nxt

/-- A run from heap `w` with outcome `o` does not touch the plugins in `S`:
their state is the same and no event of the run is about them. -/
def undisturbed (S : Nat → Prop) (w : World) (o : Outcome) : Prop :=
  ∀ q, S q → (o.world q).state = (w q).state ∧ ∀ e ∈ o.events, event_plugin e ≠ q

/-- Whether an event is the invocation of a loader's `load`. -/
def is_loader_load (e : Event) : Bool :=
  match e with
  | Event.loader_load _ _ => true
  | _ => false

/-- An environment in which every loader succeeds and the handlers of both
vetoable signals return `FALSE` after writing `forbidden` into the error
slot. -/
def veto_env : Env :=
  ⟨version_compare_dotted, fun _ _ _ => none, fun _ _ _ => none,
    fun _ _ => (false, some "forbidden".toList), fun _ _ => (false, some "forbidden".toList)⟩

/-- An environment in which the loader fails to load plugin `1` with the error
`boom`, every other load succeeds and no handler vetoes. -/
def fail_env : Env :=
  ⟨version_compare_dotted, fun _ _ p => if p = 1 then some "boom".toList else none,
    fun _ _ _ => none, fun _ _ => (true, none), fun _ _ => (true, none)⟩

/-- Plugin `0` (`demo/p`) declares the dependencies `demo/a` and `demo/b`, in
this order; `demo/a` is plugin `1` and `demo/b` is plugin `2`. -/
def two_dependencies_world : World :=
  demo_world [demo_plugin "/p/p.so" (demo_info "demo/p" "1.0" ["demo/a", "demo/b"]),
    demo_plugin "/p/a.so" (demo_info "demo/a" "1.0" []),
    demo_plugin "/p/b.so" (demo_info "demo/b" "1.0" [])]

/-- The index of `two_dependencies_world`. -/
def two_dependencies_manager : GPluginManager :=
  demo_manager [("demo/p", [0]), ("demo/a", [1]), ("demo/b", [2])]

/-- Plugin `0` (`demo/p`, queried) depends on `demo/missing`, which is not
indexed. -/
def missing_dependency_world : World :=
  demo_world [demo_plugin "/p/p.so" (demo_info "demo/p" "1.0" ["demo/missing"])]

/-- The index of `missing_dependency_world`. -/
def missing_dependency_manager : GPluginManager :=
  demo_manager [("demo/p", [0])]

/-- A heap whose only plugin, `0`, has no dependencies and is in `state`. -/
def single_plugin_world (state : GPluginPluginState) : World :=
  demo_world [⟨some "/p/p.so".toList, some 0, some (demo_info "demo/p" "1.0" []), state, none⟩]

/-! ## Hash tables -/

/-- The call `g_hash_table_lookup` on a table from strings to object handles. -/
def lookup_handle (table : List (Str × Nat)) (key : Str) : Option Nat :=
  match table with
  | [] => none
  | (k, v) :: rest => if k = key then some v else lookup_handle rest key

/-- The calls `g_hash_table_insert` and `g_hash_table_replace`: the value
stored under `key` is replaced, or a new entry is added. -/
def hash_table_insert {β : Type} (table : List (Str × β)) (key : Str) (value : β) :
    List (Str × β) :=
  match table with
  | [] => [(key, value)]
  | (k, v) :: rest =>
    if k = key then (k, value) :: rest else (k, v) :: hash_table_insert rest key value

/-- The call `g_hash_table_remove`. -/
def hash_table_remove {β : Type} (table : List (Str × β)) (key : Str) : List (Str × β) :=
  table.filter (fun e => decide (e.1 ≠ key))

/-! ## The loader registry -/

/-- What the manager reads from a `GPluginLoader`: `gplugin_loader_get_id` and
`gplugin_loader_get_supported_extensions`. -/
structure GPluginLoader where
  id : Str
  supported_extensions : List Str
  deriving DecidableEq, Repr

/-- The loader objects behind the loader handles. -/
abbrev LoaderHeap := Nat → GPluginLoader

/-- The loop over `ll` in `gplugin_manager_register_loader`: the first loader
of `existing` whose id is `id` is removed with `g_slist_remove`. -/
def remove_old_copy (loaders : LoaderHeap) (id : Str) (existing : List Nat) : List Nat :=
  match existing.find? (fun iter => decide ((loaders iter).id = id)) with
  | none => existing
  | some iter => existing.erase iter

/-- The loop over `exts` in `gplugin_manager_register_loader` on the table
`loaders_by_extension`. -/
def register_extensions (loaders : LoaderHeap) (loader : Nat) (id : Str) :
    List Str → List (Str × List Nat) → List (Str × List Nat)
  | [], table => table
  | ext :: l, table =>
    register_extensions loaders loader id l
      (hash_table_insert table ext
        (loader :: remove_old_copy loaders id (lookup_list table ext)))

/-- The function `gplugin_manager_register_loader`: the return value, the
error and the manager afterwards. -/
def gplugin_manager_register_loader (loaders : LoaderHeap) (manager : GPluginManager)
    (loader : Nat) : Bool × Option GError × GPluginManager :=
  let id := (loaders loader).id
  match lookup_handle manager.loaders id with
  | some _ => (false, some ("loader ".toList ++ id ++ " was already registered".toList), manager)
  | none =>
    (true, none,
      { manager with
        loaders := hash_table_insert manager.loaders id loader
        loaders_by_extension :=
          register_extensions loaders loader id (loaders loader).supported_extensions
            manager.loaders_by_extension
        refresh_needed := true })

/-- One round of the loop over `exts` in `gplugin_manager_unregister_loader`
for the extension `ext`: the first loader with the id `id` in the list stored
under `ext` is removed, and the entry with it when the list becomes empty. -/
def unregister_extension (loaders : LoaderHeap) (id : Str) (ext : Str)
    (table : List (Str × List Nat)) : List (Str × List Nat) :=
  match (lookup_list table ext).find? (fun lo => decide ((loaders lo).id = id)) with
  | none => table
  | some lo =>
    match (lookup_list table ext).erase lo with
    | [] => hash_table_remove table ext
    | los => hash_table_insert table ext los

/-- The loop `for(l = exts; l; l = l->next)` in
`gplugin_manager_unregister_loader`, with `l` the extensions still to visit:
every round reads `ext = exts->data`, the first extension of the loader. -/
def unregister_extensions (loaders : LoaderHeap) (id : Str) (exts : List Str) :
    List Str → List (Str × List Nat) → List (Str × List Nat)
  | [], table => table
  | _ :: l, table =>
    match exts with
    | [] => unregister_extensions loaders id exts l table
    | ext :: _ =>
      unregister_extensions loaders id exts l (unregister_extension loaders id ext table)

/-- The function `gplugin_manager_unregister_loader`: the return value, the
error and the manager afterwards. -/
def gplugin_manager_unregister_loader (loaders : LoaderHeap) (manager : GPluginManager)
    (loader : Nat) : Bool × Option GError × GPluginManager :=
  let id := (loaders loader).id
  match lookup_handle manager.loaders id with
  | none => (false, some ("loader ".toList ++ id ++ " is not registered".toList), manager)
  | some registered =>
    let exts := (loaders registered).supported_extensions
    (true, none,
      { manager with
        loaders_by_extension :=
          unregister_extensions loaders id exts exts manager.loaders_by_extension
        loaders := hash_table_remove manager.loaders id })

/-! ## The newest version -/

/-- The loop of `gplugin_manager_find_plugin_with_newest_version` over the
plugins still to visit, with the current `plugin_a` (`none` before the first
plugin). -/
def newest_version_loop (env : Env) (w : World) : List Nat → Option Nat → Option Nat
  | [], plugin_a => plugin_a
  | plugin_b :: l, none => newest_version_loop env w l (some plugin_b)
  | plugin_b :: l, some plugin_a =>
    if env.gplugin_version_compare (found_version w plugin_a) (found_version w plugin_b) < 0 then
      newest_version_loop env w l (some plugin_b)
    else newest_version_loop env w l (some plugin_a)

/-- The function `gplugin_manager_find_plugin_with_newest_version`. -/
def gplugin_manager_find_plugin_with_newest_version (env : Env) (manager : GPluginManager)
    (w : World) (id : Str) : Option Nat :=
  newest_version_loop env w (gplugin_manager_find_plugins manager id) none

/-- The function `gplugin_manager_list_plugins`: the keys of the identifier
index, in the order in which the table is iterated. -/
def gplugin_manager_list_plugins (manager : GPluginManager) : List Str :=
  manager.plugins.map (fun e => e.1)

/-! ## Discovery -/

/-- A `GPluginFileTreeEntry`: a name and, for a file, its extension. -/
structure GPluginFileTreeEntry where
  filename : Str
  extension : Str
  deriving DecidableEq, Repr

/-- The tree built by `gplugin_file_tree_new`: the directories of the search
paths, each with the files it holds. -/
abbrev GPluginFileTree := List (GPluginFileTreeEntry × List GPluginFileTreeEntry)

/-- What the `query` virtual function of a loader class gives for a file: an
error, the info of a plugin, or neither. -/
inductive QueryResult where
  | error (e : GError)
  | plugin (info : GPluginPluginInfo)
  | nothing
  deriving DecidableEq, Repr

/-- What discovery calls but the manager does not define: `g_build_filename`
and the `query` virtual function of the loaders (which may inspect the heap
and is assumed not to change it). -/
structure RefreshEnv where
  g_build_filename : Str → Str → Str
  query : World → Nat → Str → QueryResult

/-- The messages that `gplugin_manager_refresh` collects in `error_messages`:
`failed to query '%s' with loader '%s': %s`, `Plugin %s has a NULL id.` and
`failed to load %s during query: %s`, by their arguments. -/
inductive Diagnostic where
  | query_failed (filename : Str) (loader : Nat) (error : GError)
  | null_id (real_filename : Option Str)
  | load_failed (filename : Str) (error : Option GError)
  deriving DecidableEq, Repr

/-- The manager, the heap of plugin objects with the next free handle, and
the local variables `errors` and `error_messages` of
`gplugin_manager_refresh`, together with the events of the current pass. -/
structure RefreshState where
  manager : GPluginManager
  world : World
  next : Nat
  errors : Nat
  error_messages : List Diagnostic
  events : List Event

/-- Modelled from the spec: `gplugin_loader_query_plugin`, defined in
`gplugin-loader.c`, which is not among the sources. It invokes the loader's
`query` on the file; on success it returns a new plugin whose state is
`queried`, whose filename is the path that was queried and whose loader is
the querying loader (§3, §4.1); the new object takes the next free handle. -/
def gplugin_loader_query_plugin (renv : RefreshEnv) (w : World) (next : Nat) (loader : Nat)
    (filename : Str) : Option Nat × Option GError × World × Nat :=
  match renv.query w loader filename with
  | QueryResult.error e => (none, some e, w, next)
  | QueryResult.nothing => (none, none, w, next)
  | QueryResult.plugin info =>
    (some next, none,
      fun q => if q = next then
        ⟨some filename, some loader, some info, GPluginPluginState.QUERIED, none⟩ else w q,
      next + 1)

/-- The loop over the loaders registered for the extension of a file in
`gplugin_manager_refresh`, with the current values of the variables `plugin`
and `loader`: these values when the loop ends, and the state. -/
def query_loop (renv : RefreshEnv) (filename : Str) :
    List Nat → RefreshState → Option Nat → Option Nat → Option Nat × Option Nat × RefreshState
  | [], s, plugin, loader => (plugin, loader, s)
  | l :: rest, s, _, _ =>
    match gplugin_loader_query_plugin renv s.world s.next l filename with
    | (_, some error, world, next) =>
      query_loop renv filename rest
        { s with
          world := world
          next := next
          errors := s.errors + 1
          error_messages := Diagnostic.query_failed filename l error :: s.error_messages }
        none none
    | (some plugin, none, world, next) =>
      (some plugin, some l, { s with world := world, next := next })
    | (none, none, world, next) =>
      query_loop renv filename rest { s with world := world, next := next } none none

/-- The key under which a plugin is stored in the filename view; a `NULL`
filename, which no loader produces, is read as the empty string. -/
def view_key (real_filename : Option Str) : Str :=
  real_filename.getD []

/-- The value of `gplugin_plugin_info_get_load_on_query(info)` for the info of
a plugin (`FALSE` for `NULL`). -/
def load_on_query_of (w : World) (plugin : Nat) : Bool :=
  match (w plugin).info with
  | none => false
  | some info => info.load_on_query

/-- The insertion of a good plugin into the two indexes in
`gplugin_manager_refresh`: it replaces the entry of the filename view for its
filename and, unless a plugin with its filename is already in the sequence of
`id` (`seen`), it is prepended to that sequence. -/
def index_good_plugin (manager : GPluginManager) (w : World) (plugin : Nat) (id : Str) :
    GPluginManager :=
  let real_filename := (w plugin).filename
  let l := lookup_list manager.plugins id
  let seen := l.any (fun splugin => decide ((w splugin).filename = real_filename))
  { manager with
    plugins_filename_view :=
      hash_table_insert manager.plugins_filename_view (view_key real_filename) plugin
    plugins :=
      if seen = true then manager.plugins
      else hash_table_insert manager.plugins id (plugin :: l) }

/-- The part of the loop body of `gplugin_manager_refresh` for a plugin
instance that is good (`we have a good plugin, huzzah!`): a plugin without id
is only reported; otherwise the plugin goes into the indexes and is loaded
when its info says so, or else a positive error count is reset and
`refresh_needed` is set. Without a loader (`loader == NULL`) the call of
`gplugin_loader_load_plugin` is taken to fail without any effect, as a failed
precondition check does. -/
def refresh_good_plugin (env : Env) (filename : Str) (plugin : Nat) (loader : Option Nat)
    (s : RefreshState) : RefreshState :=
  match id_of s.world plugin with
  | none =>
    { s with
      error_messages := Diagnostic.null_id (s.world plugin).filename :: s.error_messages }
  | some id =>
    let manager := index_good_plugin s.manager s.world plugin id
    if load_on_query_of s.world plugin = true then
      match loader with
      | none =>
        { s with
          manager := manager
          errors := s.errors + 1
          error_messages := Diagnostic.load_failed filename none :: s.error_messages }
      | some loader =>
        let o := gplugin_loader_load_plugin env s.world loader plugin
        if o.ret = true then
          { s with manager := manager, world := o.world, events := s.events ++ o.events }
        else
          { s with
            manager := manager
            world := o.world
            events := s.events ++ o.events
            errors := s.errors + 1
            error_messages := Diagnostic.load_failed filename o.error :: s.error_messages }
    else if 0 < s.errors then
      { s with manager := { manager with refresh_needed := true }, errors := 0 }
    else { s with manager := manager }

/-- Whether the file is skipped: a plugin is in the filename view for it and
its state is `queried` or `loaded`. -/
def refresh_skips (s : RefreshState) (filename : Str) : Bool :=
  match lookup_handle s.manager.plugins_filename_view filename with
  | none => false
  | some plugin =>
    decide ((s.world plugin).state = GPluginPluginState.QUERIED) ||
      decide ((s.world plugin).state = GPluginPluginState.LOADED)

/-- The body of the loop over the files of a directory in
`gplugin_manager_refresh`. -/
def refresh_file (env : Env) (renv : RefreshEnv) (path : Str) (e : GPluginFileTreeEntry)
    (s : RefreshState) : RefreshState :=
  let filename := renv.g_build_filename path e.filename
  if refresh_skips s filename = true then s
  else
    match query_loop renv filename (lookup_list s.manager.loaders_by_extension e.extension) s
        (lookup_handle s.manager.plugins_filename_view filename) none with
    | (none, _, s1) => s1
    | (some plugin, loader, s1) => refresh_good_plugin env filename plugin loader s1

/-- The loop over the files of one directory. -/
def refresh_files (env : Env) (renv : RefreshEnv) (path : Str) :
    List GPluginFileTreeEntry → RefreshState → RefreshState
  | [], s => s
  | e :: files, s => refresh_files env renv path files (refresh_file env renv path e s)

/-- The loop over the directories of the tree: one pass. -/
def refresh_pass (env : Env) (renv : RefreshEnv) : GPluginFileTree → RefreshState → RefreshState
  | [], s => s
  | (dir, files) :: dirs, s =>
    refresh_pass env renv dirs (refresh_files env renv dir.filename files s)

/-- One round of the loop `while(priv->refresh_needed)`: the messages are
dropped, the flag is cleared and the tree is walked. -/
def refresh_round (env : Env) (renv : RefreshEnv) (root : GPluginFileTree) (s : RefreshState) :
    RefreshState :=
  refresh_pass env renv root
    { s with
      manager := { s.manager with refresh_needed := false }
      error_messages := []
      events := [] }

/-- The loop `while(priv->refresh_needed)` entered with the flag set; the
first argument bounds the number of rounds, and the result is `none` when
that many rounds do not end the loop. The events are collected per pass. -/
def refresh_loop (env : Env) (renv : RefreshEnv) (root : GPluginFileTree) :
    Nat → RefreshState → Option (RefreshState × List (List Event))
  | 0, _ => none
  | fuel + 1, s =>
    let s1 := refresh_round env renv root s
    if s1.manager.refresh_needed = true then
      match refresh_loop env renv root fuel s1 with
      | none => none
      | some (s2, passes) => some (s2, s1.events :: passes)
    else some (s1, [s1.events])

/-- What `gplugin_manager_refresh` leaves: the manager, the heap with its
next free handle, the events of every pass and the warnings it prints. -/
structure RefreshResult where
  manager : GPluginManager
  world : World
  next : Nat
  passes : List (List Event)
  warnings : List Diagnostic

/-- The function `gplugin_manager_refresh` on the tree `root` that
`gplugin_file_tree_new` builds from the search paths; the first argument
bounds the number of passes. -/
def gplugin_manager_refresh (env : Env) (renv : RefreshEnv) (root : GPluginFileTree)
    (fuel : Nat) (manager : GPluginManager) (w : World) (next : Nat) : Option RefreshResult :=
  match refresh_loop env renv root fuel
      ⟨{ manager with refresh_needed := true }, w, next, 0, [], []⟩ with
  | none => none
  | some (s, passes) => some ⟨s.manager, s.world, s.next, passes, s.error_messages.reverse⟩

/-! ## Fixtures for discovery and the loader registry -/

/-- A manager that holds nothing. -/
def empty_manager : GPluginManager :=
  ⟨[], [], [], [], [], false⟩

/-- A heap without plugins. -/
def empty_world : World :=
  demo_world []

/-- Loader `0` has the id `so-loader` and claims the extension `so`; loader
`1` has the id `x-loader` and claims the extension `x`; loader `2` has the id
`multi` and claims the extensions `so` and `py`; loader `3` has the id
`other` and claims the extension `so`. -/
def demo_loaders : LoaderHeap :=
  fun l =>
    if l = 0 then ⟨"so-loader".toList, ["so".toList]⟩
    else if l = 1 then ⟨"x-loader".toList, ["x".toList]⟩
    else if l = 2 then ⟨"multi".toList, ["so".toList, "py".toList]⟩
    else ⟨"other".toList, ["so".toList]⟩

/-- The manager after loader `0` has been registered with the empty manager. -/
def so_manager : GPluginManager :=
  (gplugin_manager_register_loader demo_loaders empty_manager 0).2.2

/-- A join of a directory and a file name with one separator between them. -/
def demo_build_filename (path name : Str) : Str :=
  if path.getLast? = some '/' then path ++ name else path ++ '/' :: name

/-- A plugin info with the given id, version, dependency entries and
`load_on_query` flag. -/
def demo_info_loq (id version : String) (dependencies : List String) (loq : Bool) :
    GPluginPluginInfo :=
  ⟨some id.toList, 0, some version.toList, some (dependencies.map String.toList), loq⟩

/-- Scenario A: the loader's `query` gives, for `a.so`, the plugin `demo/a` at
version `1.0` without dependencies and without `load_on_query`. -/
def scenario_a_renv : RefreshEnv :=
  ⟨demo_build_filename, fun _ _ filename =>
    if filename = "/p/a.so".toList then QueryResult.plugin (demo_info_loq "demo/a" "1.0" [] false)
    else QueryResult.error "not a plugin".toList⟩

/-- The tree of scenario A: the directory `/p/` holds the file `a.so`. -/
def scenario_a_tree : GPluginFileTree :=
  [(⟨"/p/".toList, []⟩, [⟨"a.so".toList, "so".toList⟩])]

/-- Scenario B: `a.so` is `demo/a`, depends on `demo/b` and is loaded on
query; `b.so` is `demo/b`, has no dependencies and is loaded on query. -/
def scenario_b_renv : RefreshEnv :=
  ⟨demo_build_filename, fun _ _ filename =>
    if filename = "/p/a.so".toList then
      QueryResult.plugin (demo_info_loq "demo/a" "1.0" ["demo/b"] true)
    else if filename = "/p/b.so".toList then
      QueryResult.plugin (demo_info_loq "demo/b" "1.0" [] true)
    else QueryResult.error "not a plugin".toList⟩

/-- The tree of scenario B: the walker visits `a.so` before `b.so`. -/
def scenario_b_tree : GPluginFileTree :=
  [(⟨"/p/".toList, []⟩, [⟨"a.so".toList, "so".toList⟩, ⟨"b.so".toList, "so".toList⟩])]

/-- An environment whose loader refuses to load plugin `0` as long as plugin
`1` is not loaded, and loads every other plugin. -/
def dependent_env : Env :=
  ⟨version_compare_dotted,
    fun w _ p =>
      if p = 0 ∧ (w 1).state ≠ GPluginPluginState.LOADED then some "demo/b is missing".toList
      else none,
    fun _ _ _ => none, fun _ _ => (true, none), fun _ _ => (true, none)⟩

/-- An environment whose loader fails to load every plugin. -/
def refusing_env : Env :=
  ⟨version_compare_dotted, fun _ _ _ => some "refused".toList, fun _ _ _ => none,
    fun _ _ => (true, none), fun _ _ => (true, none)⟩

/-- The loader's `query` gives, for `c.so`, the plugin `demo/c`, which is
loaded on query. -/
def requery_renv : RefreshEnv :=
  ⟨demo_build_filename, fun _ _ filename =>
    if filename = "/p/c.so".toList then
      QueryResult.plugin (demo_info_loq "demo/c" "1.0" [] true)
    else QueryResult.error "not a plugin".toList⟩

/-- The directory `/p/` holds the file `c.so`. -/
def requery_tree : GPluginFileTree :=
  [(⟨"/p/".toList, []⟩, [⟨"c.so".toList, "so".toList⟩])]

/-- The events of all passes of a refresh that are invocations of a loader's
`load`. -/
def refresh_loads (r : RefreshResult) : List Event :=
  r.passes.flatten.filter is_loader_load

/-- The state of the plugin that `gplugin_manager_find_plugin` returns for
`id` after a refresh. -/
def found_state (r : RefreshResult) (id : Str) : Option GPluginPluginState :=
  (gplugin_manager_find_plugin r.manager id).map (fun p => (r.world p).state)

/-- The state of the plugin that the filename view holds for `filename` after
a refresh. -/
def viewed_state (r : RefreshResult) (filename : Str) : Option GPluginPluginState :=
  (lookup_handle r.manager.plugins_filename_view filename).map (fun p => (r.world p).state)

/-- The loader's `query` gives, for `g.so`, the plugin `demo/g`, which is not
loaded on query, and fails for every other file. -/
def stale_renv : RefreshEnv :=
  ⟨demo_build_filename, fun _ _ filename =>
    if filename = "/p/g.so".toList then
      QueryResult.plugin (demo_info_loq "demo/g" "1.0" [] false)
    else QueryResult.error "not a plugin".toList⟩

/-- The directory `/p/` holds the files `f.x` and `g.so`, in this order. -/
def stale_tree : GPluginFileTree :=
  [(⟨"/p/".toList, []⟩, [⟨"f.x".toList, "x".toList⟩, ⟨"g.so".toList, "so".toList⟩])]

/-- The manager after the loaders `0` (for `so`) and `1` (for `x`) have been
registered. -/
def stale_manager_registered : GPluginManager :=
  (gplugin_manager_register_loader demo_loaders so_manager 1).2.2

/-- The manager that is left when, after the loaders `0` and `1` have been
registered and a refresh has indexed `demo/g` as plugin `0`, loader `0` is
unregistered. -/
def stale_manager : GPluginManager :=
  ⟨[], [("demo/g".toList, [0])], [("/p/g.so".toList, 0)], [("x-loader".toList, 1)],
    [("x".toList, [1])], false⟩

/-- The heap in which plugin `0`, `demo/g` from `/p/g.so`, is in state
`load_failed` after a failed `gplugin_manager_load_plugin`. -/
def stale_world : World :=
  demo_world [⟨some "/p/g.so".toList, some 0, some (demo_info_loq "demo/g" "1.0" [] false),
    GPluginPluginState.LOAD_FAILED, some "refused".toList⟩]

/-- The state in which every round of the refresh loop on `stale_tree` from
`stale_manager` and `stale_world` ends. -/
def stale_state : RefreshState :=
  ⟨{ stale_manager with refresh_needed := true }, stale_world, 1, 0,
    [Diagnostic.query_failed "/p/f.x".toList 1 "not a plugin".toList], []⟩

/-- An environment in which a version is the older the shorter it is written
(the comparison is the difference of the lengths); every loader succeeds and
no handler vetoes. -/
def length_env : Env :=
  ⟨fun a b => ((a.getD []).length : Int) - ((b.getD []).length : Int), fun _ _ _ => none,
    fun _ _ _ => none, fun _ _ => (true, none), fun _ _ => (true, none)⟩

/-- The identifier `demo/lib` is indexed at the versions `1.5` (plugin `0`),
`2.10` (plugin `1`), `1` (plugin `2`) and `3.00` (plugin `3`). -/
def versions_world : World :=
  demo_world [demo_plugin "/p/l0.so" (demo_info "demo/lib" "1.5" []),
    demo_plugin "/p/l1.so" (demo_info "demo/lib" "2.10" []),
    demo_plugin "/p/l2.so" (demo_info "demo/lib" "1" []),
    demo_plugin "/p/l3.so" (demo_info "demo/lib" "3.00" [])]

/-- The index of `versions_world`. -/
def versions_manager : GPluginManager :=
  demo_manager [("demo/lib", [0, 1, 2, 3])]

/-- The consistency of the two plugin indexes that discovery maintains: a
plugin in the filename view is an allocated object stored under its own
filename; a plugin in the identifier index is an allocated object stored under
its own id, and the view has an entry for its filename; and for a plugin in
the view that has an id, the sequence of that id holds a plugin with the same
filename. -/
def index_inv (manager : GPluginManager) (w : World) (next : Nat) : Prop :=
  (∀ k h, lookup_handle manager.plugins_filename_view k = some h →
      h < next ∧ (w h).filename = some k) ∧
    (∀ id h, h ∈ lookup_list manager.plugins id →
      h < next ∧ id_of w h = some id ∧
        ∃ h', lookup_handle manager.plugins_filename_view (view_key (w h).filename) = some h') ∧
    (∀ k h id, lookup_handle manager.plugins_filename_view k = some h → id_of w h = some id →
      ∃ h' ∈ lookup_list manager.plugins id, (w h').filename = some k)

/-- The plugin `h` is the one that the filename view holds for `filename`, it
is in state `loaded`, and when `listed` holds it is in the sequence of `id` in
the identifier index. -/
def indexed_loaded (filename id : Str) (h : Nat) (listed : Prop) (s : RefreshState) : Prop :=
  lookup_handle s.manager.plugins_filename_view filename = some h ∧
    (s.world h).state = GPluginPluginState.LOADED ∧
    (listed → h ∈ lookup_list s.manager.plugins id)

/-- Whether a query result is a plugin. -/
def QueryResult.is_plugin (r : QueryResult) : Bool :=
  match r with
  | QueryResult.plugin _ => true
  | _ => false

/-! ## The search paths -/

/-- What the path functions use but the manager does not define: the
directory separator `G_DIR_SEPARATOR_S` (one character), the function
`g_utf8_collate_key_for_filename`, the function `g_build_filename` on its
elements, the build constants `PREFIX` and `LIBDIR`, and the result of
`g_get_user_config_dir`. -/
structure PathEnv where
  G_DIR_SEPARATOR : Char
  g_utf8_collate_key_for_filename : Str → Str
  g_build_filename : List Str → Str
  PREFIX : Str
  LIBDIR : Str
  g_get_user_config_dir : Str

/-- The call `g_str_has_suffix(str, suffix)`. -/
def g_str_has_suffix (str suffix : Str) : Bool :=
  suffix.isSuffixOf str

/-- The function `gplugin_manager_normalize_path`. -/
def gplugin_manager_normalize_path (penv : PathEnv) (path : Str) : Str :=
  if g_str_has_suffix path [penv.G_DIR_SEPARATOR] = true then path
  else path ++ [penv.G_DIR_SEPARATOR]

/-- The call `strcmp(a, b)`; the manager only tests the result against zero. -/
def strcmp : Str → Str → Int
  | [], [] => 0
  | [], _ :: _ => -1
  | _ :: _, [] => 1
  | a :: as, b :: bs =>
    if a = b then strcmp as bs else if a.toNat < b.toNat then -1 else 1

/-- The function `gplugin_manager_compare_paths`. -/
def gplugin_manager_compare_paths (penv : PathEnv) (a b : Str) : Int :=
  strcmp (penv.g_utf8_collate_key_for_filename a) (penv.g_utf8_collate_key_for_filename b)

/-- The call `g_queue_find_custom(queue, data, func)`: the first element for
which `func(element, data)` is zero. -/
def g_queue_find_custom (queue : List Str) (data : Str) (func : Str → Str → Int) : Option Str :=
  queue.find? (fun element => decide (func element data = 0))

/-- The function `gplugin_manager_append_path`; a `NULL` path fails the
precondition check and nothing happens. -/
def gplugin_manager_append_path (penv : PathEnv) (manager : GPluginManager)
    (path : Option Str) : GPluginManager :=
  match path with
  | none => manager
  | some path =>
    let normalized := gplugin_manager_normalize_path penv path
    match g_queue_find_custom manager.paths normalized (gplugin_manager_compare_paths penv) with
    | none => { manager with paths := manager.paths ++ [normalized] }
    | some _ => manager

/-- The function `gplugin_manager_prepend_path`. -/
def gplugin_manager_prepend_path (penv : PathEnv) (manager : GPluginManager)
    (path : Option Str) : GPluginManager :=
  match path with
  | none => manager
  | some path =>
    let normalized := gplugin_manager_normalize_path penv path
    match g_queue_find_custom manager.paths normalized (gplugin_manager_compare_paths penv) with
    | none => { manager with paths := normalized :: manager.paths }
    | some _ => manager

/-- The function `gplugin_manager_remove_path`: the link that
`g_queue_find_custom` returns, the first match, is deleted. -/
def gplugin_manager_remove_path (penv : PathEnv) (manager : GPluginManager)
    (path : Option Str) : GPluginManager :=
  match path with
  | none => manager
  | some path =>
    let normalized := gplugin_manager_normalize_path penv path
    match g_queue_find_custom manager.paths normalized (gplugin_manager_compare_paths penv) with
    | none => manager
    | some _ =>
      { manager with
        paths := manager.paths.eraseP (fun element =>
          decide (gplugin_manager_compare_paths penv element normalized = 0)) }

/-- The function `gplugin_manager_remove_paths`. -/
def gplugin_manager_remove_paths (manager : GPluginManager) : GPluginManager :=
  { manager with paths := [] }

/-- The function `gplugin_manager_add_default_paths`. -/
def gplugin_manager_add_default_paths (penv : PathEnv) (manager : GPluginManager) :
    GPluginManager :=
  gplugin_manager_prepend_path penv
    (gplugin_manager_prepend_path penv manager
      (some (penv.g_build_filename [penv.PREFIX, penv.LIBDIR, "gplugin".toList])))
    (some (penv.g_build_filename [penv.g_get_user_config_dir, "gplugin".toList]))

/-- The function `gplugin_manager_add_app_paths`. A `NULL` `appname` fails the
precondition check; a `NULL` prefix (here `pfx`) ends the argument list of
the first `g_build_filename` at once. -/
def gplugin_manager_add_app_paths (penv : PathEnv) (manager : GPluginManager)
    (pfx appname : Option Str) : GPluginManager :=
  match appname with
  | none => manager
  | some appname =>
    gplugin_manager_prepend_path penv
      (gplugin_manager_prepend_path penv manager
        (some (penv.g_build_filename
          (match pfx with
            | none => []
            | some pfx => [pfx, penv.LIBDIR, appname]))))
      (some (penv.g_build_filename
        [penv.g_get_user_config_dir, appname, "plugins".toList]))

/-- The function `gplugin_manager_get_paths`. -/
def gplugin_manager_get_paths (manager : GPluginManager) : List Str :=
  manager.paths

/-- A path environment for the concrete scenarios: the separator is `/`, the
collation key of a file name is the file name itself, and `g_build_filename`
joins its elements with the separator. -/
def demo_path_env : PathEnv :=
  ⟨'/', fun s => s, fun elements => List.intercalate ['/'] elements, "/usr".toList,
    "lib".toList, "/home/user/.config".toList⟩

/-- A manager whose search paths are `paths` and that holds nothing else. -/
def paths_manager (paths : List String) : GPluginManager :=
  ⟨paths.map String.toList, [], [], [], [], false⟩

/-- Whether a stored path matches `path`: `gplugin_manager_compare_paths`
gives zero for it and the normalized `path`. -/
def path_matches (penv : PathEnv) (path : Str) (element : Str) : Bool :=
  decide (gplugin_manager_compare_paths penv element
    (gplugin_manager_normalize_path penv path) = 0)

/-- Every stored path ends with the directory separator. -/
def paths_normalized (penv : PathEnv) (manager : GPluginManager) : Prop :=
  ∀ path ∈ manager.paths, path.getLast? = some penv.G_DIR_SEPARATOR

/-- No two stored paths have the same collation key. -/
def paths_distinct (penv : PathEnv) (manager : GPluginManager) : Prop :=
  (manager.paths.map penv.g_utf8_collate_key_for_filename).Nodup

/-! ## The normalized id -/

/-- The `gchar`s of a C string in memory, as numbers: the bytes of its UTF-8
encoding. -/
def gchars (s : Str) : List Nat :=
  s.flatMap (fun c => (String.utf8EncodeChar c).map UInt8.toNat)

/-- The valid characters that `gplugin_info_get_id_normalized` passes to
`g_strcanon`: `G_CSET_A_2_Z G_CSET_a_2_z G_CSET_DIGITS "-"`. -/
def id_valid_chars : List Nat :=
  gchars ("ABCDEFGHIJKLMNOPQRSTUVWXYZ" ++ "abcdefghijklmnopqrstuvwxyz" ++ "0123456789" ++ "-").toList

/-- The call `g_strcanon(string, valid_chars, substitutor)` of GLib: every
`gchar` of `string` that `strchr` does not find in `valid_chars` is replaced
by `substitutor`. -/
def g_strcanon (string valid_chars : List Nat) (substitutor : Nat) : List Nat :=
  string.map (fun c => if c ∈ valid_chars then c else substitutor)

/-- The function `gplugin_info_get_id_normalized`, on the `gchar`s of the id. -/
def gplugin_info_get_id_normalized (info : GPluginPluginInfo) : Option (List Nat) :=
  match info.id with
  | none => none
  | some id => some (g_strcanon (gchars id) id_valid_chars '-'.toNat)

/-- The loader's `query` gives, for `hi.so`, the plugin `demo/lib` with
priority `10`; for `lo.so`, the plugin `demo/lib` with priority `0`; and for
`x.so`, the plugin `demo/x`, which depends on `demo/lib`. -/
def priority_renv : RefreshEnv :=
  ⟨demo_build_filename, fun _ _ filename =>
    if filename = "/p/hi.so".toList then
      QueryResult.plugin ⟨some "demo/lib".toList, 10, some "1.0".toList, some [], false⟩
    else if filename = "/p/lo.so".toList then
      QueryResult.plugin ⟨some "demo/lib".toList, 0, some "1.0".toList, some [], false⟩
    else if filename = "/p/x.so".toList then
      QueryResult.plugin
        ⟨some "demo/x".toList, 0, some "1.0".toList, some ["demo/lib".toList], false⟩
    else QueryResult.error "not a plugin".toList⟩

/-- The directory `/p/` holds the files `hi.so`, `lo.so` and `x.so`, visited
in this order. -/
def priority_tree : GPluginFileTree :=
  [(⟨"/p/".toList, []⟩,
    [⟨"hi.so".toList, "so".toList⟩, ⟨"lo.so".toList, "so".toList⟩,
      ⟨"x.so".toList, "so".toList⟩])]

/-- The value of `gplugin_plugin_info_get_priority` for the info of a plugin,
`none` when there is no plugin or no info. -/
def priority_of (w : World) (plugin : Option Nat) : Option Int :=
  match plugin with
  | none => none
  | some plugin => (w plugin).info.map (fun info => info.priority)

/-- No sequence of the identifier index holds two plugins with the same
filename. -/
def filenames_distinct (manager : GPluginManager) (w : World) : Prop :=
  ∀ id, ((lookup_list manager.plugins id).map (fun h => (w h).filename)).Nodup

/-! ## Theorems -/

/-! ### Lookup with a version constraint -/

theorem filter_loop_eq (env : Env) (w : World) (op version : Option Str) (l filtered : List Nat) :
    filter_loop env w op version l filtered =
      (l.filter (fun p =>
        keep_plugin (env.gplugin_version_compare (found_version w p) version) op)).reverse
        ++ filtered := by
  induction l generalizing filtered with
  | nil => simp [filter_loop]
  | cons p l ih =>
    by_cases hk : keep_plugin (env.gplugin_version_compare (found_version w p) version) op = true
    · simp [filter_loop, hk, ih, List.filter_cons]
    · simp [filter_loop, hk, ih, List.filter_cons]

theorem keep_plugin_eq_op_consistent (result : Int) (op : Str) (hop : op ∈ dependency_ops) :
    keep_plugin result (some op) = op_consistent op result := by
  simp only [dependency_ops, List.mem_cons, List.mem_singleton, List.not_mem_nil, or_false] at hop
  rcases lt_trichotomy result 0 with h | h | h
  · have h1 : ¬ result = 0 := by omega
    have h2 : ¬ result > 0 := by omega
    rcases hop with rfl | rfl | rfl | rfl | rfl | rfl <;>
      simp [keep_plugin, op_consistent, h, h1, h2]
  · have h1 : ¬ result < 0 := by omega
    have h2 : ¬ result > 0 := by omega
    rcases hop with rfl | rfl | rfl | rfl | rfl | rfl <;>
      simp [keep_plugin, op_consistent, h, h1, h2]
  · have h1 : ¬ result < 0 := by omega
    have h2 : ¬ result = 0 := by omega
    rcases hop with rfl | rfl | rfl | rfl | rfl | rfl <;>
      simp [keep_plugin, op_consistent, h, h1, h2]

/-- C3: for an operator of the grammar and a non-empty version,
`gplugin_manager_find_plugins_with_version` is `gplugin_manager_find_plugins`
filtered, in order, by the comparator table applied to
`gplugin_version_compare(plugin.version, version)`; with operator and version
both omitted (`NULL` or empty) it is `gplugin_manager_find_plugins`. -/
theorem find_plugins_with_version_is_filter (env : Env) (manager : GPluginManager) (w : World)
    (id op version : Str) (hop : op ∈ dependency_ops) (hversion : version ≠ []) :
    gplugin_manager_find_plugins_with_version env manager w id (some op) (some version) =
        (gplugin_manager_find_plugins manager id).filter (fun p =>
          op_consistent op (env.gplugin_version_compare (found_version w p) (some version)))
      ∧ gplugin_manager_find_plugins_with_version env manager w id none none =
        gplugin_manager_find_plugins manager id
      ∧ gplugin_manager_find_plugins_with_version env manager w id (some []) (some []) =
        gplugin_manager_find_plugins manager id := by
  refine ⟨?_, by simp [gplugin_manager_find_plugins_with_version],
    by simp [gplugin_manager_find_plugins_with_version]⟩
  have hv : ¬ ((some version : Option Str) = none ∨ some version = some []) := by simp [hversion]
  simp only [gplugin_manager_find_plugins_with_version, hv, and_false, if_false, filter_loop_eq,
    List.append_nil, List.reverse_reverse]
  apply List.filter_congr
  intro p _
  exact keep_plugin_eq_op_consistent _ op hop

/-- Scenario C: with `demo/lib` indexed at `1.5` and `2.1`, the constraint
`>= 2.0` keeps only the plugin at `2.1`. -/
theorem find_plugins_with_version_is_filter_witness :
    [('>' : Char), '='] ∈ dependency_ops ∧ "2.0".toList ≠ [] ∧
      gplugin_manager_find_plugins_with_version demo_env scenario_c_manager scenario_c_world
        "demo/lib".toList (some ['>', '=']) (some "2.0".toList) = [2] ∧
      (gplugin_manager_find_plugins scenario_c_manager "demo/lib".toList).filter (fun p =>
          op_consistent ['>', '='] (demo_env.gplugin_version_compare
            (found_version scenario_c_world p) (some "2.0".toList))) = [2] :=
  ⟨by decide, by decide,
    (find_plugins_with_version_is_filter demo_env scenario_c_manager scenario_c_world
      "demo/lib".toList ['>', '='] "2.0".toList (by decide) (by decide)).1.trans (by decide),
    by decide⟩

/-! ### Dependency resolution -/

theorem resolve_ors_skip (env : Env) (manager : GPluginManager) (w : World) (o : Str)
    (ors : List Str) (h : atom_matches env manager w o = []) :
    resolve_ors env manager w (o :: ors) = resolve_ors env manager w ors := by
  unfold atom_matches at h
  cases hm : dependency_regex_match o with
  | none => simp only [resolve_ors, hm]
  | some g =>
    obtain ⟨oid, oop, over⟩ := g
    rw [hm] at h
    simp only at h
    simp only [resolve_ors, hm, h]

theorem resolve_ors_take (env : Env) (manager : GPluginManager) (w : World) (o : Str)
    (ors : List Str) (q : Nat) (qs : List Nat) (h : atom_matches env manager w o = q :: qs) :
    resolve_ors env manager w (o :: ors) = some q := by
  unfold atom_matches at h
  cases hm : dependency_regex_match o with
  | none => rw [hm] at h; simp at h
  | some g =>
    obtain ⟨oid, oop, over⟩ := g
    rw [hm] at h
    simp only at h
    simp only [resolve_ors, hm, h]

theorem resolve_ors_first (env : Env) (manager : GPluginManager) (w : World)
    (pre : List Str) (a : Str) (post : List Str) (q : Nat) (qs : List Nat)
    (hpre : ∀ x ∈ pre, atom_matches env manager w x = [])
    (ha : atom_matches env manager w a = q :: qs) :
    resolve_ors env manager w (pre ++ a :: post) = some q := by
  induction pre with
  | nil => exact resolve_ors_take env manager w a post q qs ha
  | cons x pre ih =>
    rw [List.cons_append, resolve_ors_skip env manager w x _ (hpre x (List.mem_cons_self x pre))]
    exact ih (fun y hy => hpre y (List.mem_cons_of_mem x hy))

theorem resolve_ors_eq_none (env : Env) (manager : GPluginManager) (w : World) (ors : List Str) :
    resolve_ors env manager w ors = none ↔ ∀ a ∈ ors, atom_matches env manager w a = [] := by
  induction ors with
  | nil => simp [resolve_ors]
  | cons o ors ih =>
    cases hm : atom_matches env manager w o with
    | nil =>
      rw [resolve_ors_skip env manager w o ors hm, ih]
      simp [hm]
    | cons q qs =>
      rw [resolve_ors_take env manager w o ors q qs hm]
      simp [hm]

theorem dependencies_loop_resolved (env : Env) (manager : GPluginManager) (w : World)
    (id : Option Str) (choice : Str → Nat) (entries : List Str) (ret : List Nat)
    (h : ∀ e ∈ entries, resolve_ors env manager w (g_strsplit e) = some (choice e)) :
    dependencies_loop env manager w id entries ret =
      ((entries.map choice).reverse ++ ret, none) := by
  induction entries generalizing ret with
  | nil => simp [dependencies_loop]
  | cons e entries ih =>
    simp only [dependencies_loop, h e (List.mem_cons_self e entries)]
    rw [ih _ (fun x hx => h x (List.mem_cons_of_mem e hx))]
    simp

theorem get_plugin_dependencies_eq_loop (env : Env) (manager : GPluginManager) (w : World)
    (plugin : Nat) :
    gplugin_manager_get_plugin_dependencies env manager w plugin =
      dependencies_loop env manager w (id_of w plugin) (dependencies_of w plugin) [] := by
  unfold gplugin_manager_get_plugin_dependencies dependencies_of id_of
  cases (w plugin).info with
  | none => simp [dependencies_loop]
  | some info =>
    cases hd : info.dependencies with
    | none => simp [hd, dependencies_loop]
    | some ds => simp [hd]

/-- C1: when every dependency entry of a plugin has, among its `|`-separated
alternatives, a first one (in written order) that selects a non-empty list of
plugins, `gplugin_manager_get_plugin_dependencies` succeeds and returns, for
each entry, the first plugin selected by that alternative, whatever the
alternatives written after it are. (The list is built by prepending.) -/
theorem get_plugin_dependencies_first_alternative (env : Env) (manager : GPluginManager)
    (w : World) (plugin : Nat) (choice : Str → Nat)
    (h : ∀ e ∈ dependencies_of w plugin, ∃ pre a post qs,
      g_strsplit e = pre ++ a :: post ∧
      (∀ x ∈ pre, atom_matches env manager w x = []) ∧
      atom_matches env manager w a = choice e :: qs) :
    gplugin_manager_get_plugin_dependencies env manager w plugin =
      (((dependencies_of w plugin).map choice).reverse, none) := by
  rw [get_plugin_dependencies_eq_loop,
    dependencies_loop_resolved env manager w _ choice _ []]
  · simp
  · intro e he
    obtain ⟨pre, a, post, qs, hs, hpre, ha⟩ := h e he
    rw [hs]
    exact resolve_ors_first env manager w pre a post (choice e) qs hpre ha

/-- Scenario D: the entry `demo/a>=3|demo/b` with only `demo/b` indexed
resolves to the plugin `demo/b`. -/
theorem get_plugin_dependencies_first_alternative_witness :
    dependencies_of scenario_d_world 0 = ["demo/a>=3|demo/b".toList] ∧
      g_strsplit "demo/a>=3|demo/b".toList = ["demo/a>=3".toList, "demo/b".toList] ∧
      gplugin_manager_get_plugin_dependencies demo_env scenario_d_manager scenario_d_world 0 =
        ([1], none) := by
  refine ⟨by decide, by decide, ?_⟩
  have hd : dependencies_of scenario_d_world 0 = ["demo/a>=3|demo/b".toList] := by decide
  have key := get_plugin_dependencies_first_alternative demo_env scenario_d_manager
    scenario_d_world 0 (fun _ => 1) (by
      intro e he
      rw [hd, List.mem_singleton] at he
      subst he
      exact ⟨["demo/a>=3".toList], "demo/b".toList, [], [], by decide,
        by intro x hx; rw [List.mem_singleton] at hx; subst hx; decide, by decide⟩)
  rw [key, hd]
  rfl

theorem dependencies_loop_error (env : Env) (manager : GPluginManager) (w : World)
    (id : Option Str) (entries : List Str) (ret : List Nat) :
    (∃ r, dependencies_loop env manager w id entries ret = (r, none) ∧
        ∀ e ∈ entries, resolve_ors env manager w (g_strsplit e) ≠ none) ∨
      (∃ pre e post, entries = pre ++ e :: post ∧
        (∀ x ∈ pre, resolve_ors env manager w (g_strsplit x) ≠ none) ∧
        resolve_ors env manager w (g_strsplit e) = none ∧
        dependencies_loop env manager w id entries ret = ([], some (dependency_error e id))) := by
  induction entries generalizing ret with
  | nil => left; exact ⟨ret, by simp [dependencies_loop], by simp⟩
  | cons e entries ih =>
    cases hr : resolve_ors env manager w (g_strsplit e) with
    | none =>
      right
      exact ⟨[], e, entries, rfl, by simp, hr, by simp [dependencies_loop, hr]⟩
    | some first =>
      rcases ih (first :: ret) with ⟨r, h1, h2⟩ | ⟨pre, x, post, h1, h2, h3, h4⟩
      · left
        refine ⟨r, by simp [dependencies_loop, hr, h1], ?_⟩
        intro y hy
        rcases List.mem_cons.mp hy with rfl | hy
        · simp [hr]
        · exact h2 y hy
      · right
        refine ⟨e :: pre, x, post, by simp [h1], ?_, h3, by simp only [dependencies_loop, hr, h4]⟩
        intro y hy
        rcases List.mem_cons.mp hy with rfl | hy
        · simp [hr]
        · exact h2 y hy

theorem dependency_error_names (dependency : Str) (id : Option Str) :
    dependency <:+: dependency_error dependency id ∧
      fmt_s id <:+: dependency_error dependency id := by
  unfold dependency_error
  constructor
  · exact ⟨"failed to find dependency ".toList, " for ".toList ++ fmt_s id, by simp⟩
  · exact ⟨"failed to find dependency ".toList ++ dependency ++ " for ".toList, [], by simp⟩

/-- C2: `gplugin_manager_get_plugin_dependencies` sets an error exactly when
some dependency entry of the plugin has no alternative that selects a plugin.
It then returns no list, and the message of the error contains the first such
entry and the (printed) id of the dependent plugin. -/
theorem get_plugin_dependencies_fails_iff (env : Env) (manager : GPluginManager) (w : World)
    (plugin : Nat) :
    ((gplugin_manager_get_plugin_dependencies env manager w plugin).2 ≠ none ↔
        ∃ e ∈ dependencies_of w plugin, ∀ a ∈ g_strsplit e, atom_matches env manager w a = [])
      ∧ ((gplugin_manager_get_plugin_dependencies env manager w plugin).2 = none ∨
        ∃ pre e post, dependencies_of w plugin = pre ++ e :: post ∧
          (∀ x ∈ pre, ∃ a ∈ g_strsplit x, atom_matches env manager w a ≠ []) ∧
          (∀ a ∈ g_strsplit e, atom_matches env manager w a = []) ∧
          gplugin_manager_get_plugin_dependencies env manager w plugin =
            ([], some (dependency_error e (id_of w plugin))) ∧
          e <:+: dependency_error e (id_of w plugin) ∧
          fmt_s (id_of w plugin) <:+: dependency_error e (id_of w plugin)) := by
  rw [get_plugin_dependencies_eq_loop]
  rcases dependencies_loop_error env manager w (id_of w plugin) (dependencies_of w plugin) []
    with ⟨r, h1, h2⟩ | ⟨pre, e, post, h1, h2, h3, h4⟩
  · constructor
    · rw [h1]
      simp only [ne_eq, not_true_eq_false, false_iff, not_exists, not_and]
      intro e he hall
      exact h2 e he ((resolve_ors_eq_none env manager w _).mpr hall)
    · left; rw [h1]
  · constructor
    · rw [h4]
      simp only [ne_eq, reduceCtorEq, not_false_eq_true, true_iff]
      exact ⟨e, by simp [h1], (resolve_ors_eq_none env manager w _).mp h3⟩
    · right
      refine ⟨pre, e, post, h1, ?_, (resolve_ors_eq_none env manager w _).mp h3, h4,
        dependency_error_names e _⟩
      intro x hx
      have := h2 x hx
      rw [ne_eq, resolve_ors_eq_none] at this
      push_neg at this
      exact this

/-! ### The dependency pattern -/

theorem atDollar_cons_false (y : Char) (ys : Str) (h : isNewline y = false) :
    atDollar (y :: ys) = false := by
  unfold atDollar
  split
  · rename_i heq; simp at heq
  · rename_i c heq
    simp only [List.cons.injEq] at heq
    rw [← heq.1]; exact h
  · rename_i heq
    simp only [List.cons.injEq] at heq
    rw [heq.1] at h
    revert h; decide
  · rfl

theorem matchVersion_no_newline (r : Str) (hr : r ≠ [])
    (hnl : ∀ c ∈ r, isNewline c = false) : matchVersion r = some r := by
  have h1 : r.takeWhile (fun c => !isNewline c) = r := by
    rw [List.takeWhile_eq_self_iff]
    intro c hc; simp [hnl c hc]
  have h2 : r.dropWhile (fun c => !isNewline c) = [] := by
    rw [List.dropWhile_eq_nil_iff]
    intro c hc; simp [hnl c hc]
  simp [matchVersion, h1, h2, hr, atDollar]

theorem matchOpVersion_nil (ops : List Str) (hops : ∀ op ∈ ops, op ≠ []) :
    matchOpVersion [] ops = none := by
  induction ops with
  | nil => rfl
  | cons op ops ih =>
    have hop : op ≠ [] := hops op (List.mem_cons_self op ops)
    obtain ⟨a, l, rfl⟩ := List.exists_cons_of_ne_nil hop
    simp only [matchOpVersion, List.isPrefixOf, Bool.false_eq_true, if_false]
    exact ih (fun x hx => hops x (List.mem_cons_of_mem _ hx))

theorem matchOpVersion_not_operator (c : Char) (cs : Str) (h : isOperatorChar c = false) :
    matchOpVersion (c :: cs) dependency_ops = none := by
  simp only [isOperatorChar, Bool.or_eq_false_iff, decide_eq_false_iff_not] at h
  obtain ⟨⟨h1, h2⟩, h3⟩ := h
  have e1 : (('<' : Char) == c) = false := by simpa using Ne.symm h1
  have e2 : (('=' : Char) == c) = false := by simpa using Ne.symm h2
  have e3 : (('>' : Char) == c) = false := by simpa using Ne.symm h3
  simp [matchOpVersion, dependency_ops, List.isPrefixOf, e1, e2, e3]

theorem matchOpVersion_operator (c : Char) (rest : Str) (hc : isOperatorChar c = true)
    (hrest : rest ≠ []) (hnl : ∀ x ∈ rest, isNewline x = false) :
    ∃ op version, matchOpVersion (c :: rest) dependency_ops = some (op, version) ∧
      op ∈ dependency_ops ∧ version ≠ [] ∧ op ++ version = c :: rest := by
  obtain ⟨d, r, rfl⟩ := List.exists_cons_of_ne_nil hrest
  have hv1 : matchVersion (d :: r) = some (d :: r) :=
    matchVersion_no_newline (d :: r) (by simp) hnl
  have hv0 : matchVersion [] = none := by decide
  have hv2 : r ≠ [] → matchVersion r = some r := fun hr =>
    matchVersion_no_newline r hr (fun x hx => hnl x (List.mem_cons_of_mem d hx))
  simp only [isOperatorChar, Bool.or_eq_true, decide_eq_true_eq] at hc
  by_cases hd : d = '='
  · subst hd
    by_cases hr : r = []
    · subst hr
      rcases hc with (rfl | rfl) | rfl
      · exact ⟨['<'], ['='], by decide, by decide, by decide, rfl⟩
      · exact ⟨['='], ['='], by decide, by decide, by decide, rfl⟩
      · exact ⟨['>'], ['='], by decide, by decide, by decide, rfl⟩
    · have hv := hv2 hr
      rcases hc with (rfl | rfl) | rfl
      · exact ⟨['<', '='], r, by simp [matchOpVersion, dependency_ops, List.isPrefixOf, hv],
          by decide, hr, rfl⟩
      · exact ⟨['=', '='], r, by simp [matchOpVersion, dependency_ops, List.isPrefixOf, hv],
          by decide, hr, rfl⟩
      · exact ⟨['>', '='], r, by simp [matchOpVersion, dependency_ops, List.isPrefixOf, hv],
          by decide, hr, rfl⟩
  · have e : (('=' : Char) == d) = false := by simpa using Ne.symm hd
    rcases hc with (rfl | rfl) | rfl
    · exact ⟨['<'], d :: r, by simp [matchOpVersion, dependency_ops, List.isPrefixOf, hv1, e],
        by decide, by simp, rfl⟩
    · exact ⟨['='], d :: r, by simp [matchOpVersion, dependency_ops, List.isPrefixOf, hv1, e],
        by decide, by simp, rfl⟩
    · exact ⟨['>'], d :: r, by simp [matchOpVersion, dependency_ops, List.isPrefixOf, hv1, e],
        by decide, by simp, rfl⟩

theorem matchAfterId_scan (pre : Str) (idRev : Str) (c : Char) (rest op version : Str)
    (hpre : ∀ x ∈ pre, isOperatorChar x = false ∧ isNewline x = false)
    (hm : matchOpVersion (c :: rest) dependency_ops = some (op, version)) :
    matchAfterId idRev (pre ++ c :: rest) = some (idRev.reverse ++ pre, op, version) := by
  induction pre generalizing idRev with
  | nil => simp [matchAfterId, hm]
  | cons x pre ih =>
    obtain ⟨hx1, hx2⟩ := hpre x (List.mem_cons_self x pre)
    rw [List.cons_append, matchAfterId, matchOpVersion_not_operator x _ hx1]
    simp only [atDollar_cons_false x _ hx2, Bool.false_eq_true, if_false, hx2]
    rw [ih (x :: idRev) (fun y hy => hpre y (List.mem_cons_of_mem x hy))]
    simp

theorem matchAfterId_plain (cs : Str) (idRev : Str)
    (hcs : ∀ x ∈ cs, isOperatorChar x = false ∧ isNewline x = false) :
    matchAfterId idRev cs = some (idRev.reverse ++ cs, [], []) := by
  induction cs generalizing idRev with
  | nil => simp [matchAfterId, matchOpVersion, dependency_ops, atDollar]
  | cons x cs ih =>
    obtain ⟨hx1, hx2⟩ := hcs x (List.mem_cons_self x cs)
    rw [matchAfterId, matchOpVersion_not_operator x _ hx1]
    simp only [atDollar_cons_false x _ hx2, Bool.false_eq_true, if_false, hx2]
    rw [ih (x :: idRev) (fun y hy => hcs y (List.mem_cons_of_mem x hy))]
    simp

/-- C4, as the pattern behaves: for an atom without newline characters whose
first operator character is neither its first nor its last character, the
identifier extracted is the prefix before that operator character, the
operator extracted is one of `<`, `<=`, `=`, `==`, `>=`, `>` and operator and
version together are the rest of the atom; for a non-empty atom without
newline and operator characters the identifier is the whole atom and the
operator and the version are empty. -/
theorem dependency_pattern_groups (s : Str) (hnl : ∀ x ∈ s, isNewline x = false) :
    (∀ pre c rest, s = pre ++ c :: rest → pre ≠ [] →
        (∀ x ∈ pre, isOperatorChar x = false) → isOperatorChar c = true → rest ≠ [] →
        ∃ op version, dependency_regex_match s = some (pre, op, version) ∧
          op ∈ dependency_ops ∧ version ≠ [] ∧ op ++ version = c :: rest)
      ∧ (s ≠ [] → (∀ x ∈ s, isOperatorChar x = false) →
        dependency_regex_match s = some (s, [], [])) := by
  constructor
  · intro pre c rest hs hpre hno hc hrest
    subst hs
    obtain ⟨p, ps, rfl⟩ := List.exists_cons_of_ne_nil hpre
    have hrnl : ∀ x ∈ rest, isNewline x = false := fun x hx => hnl x (by simp [hx])
    obtain ⟨op, version, hm, hop, hv, hcat⟩ := matchOpVersion_operator c rest hc hrest hrnl
    refine ⟨op, version, ?_, hop, hv, hcat⟩
    have hp : isNewline p = false := hnl p (by simp)
    simp only [List.cons_append, dependency_regex_match, hp, Bool.false_eq_true, if_false]
    rw [matchAfterId_scan ps [p] c rest op version
      (fun x hx => ⟨hno x (List.mem_cons_of_mem p hx), hnl x (by simp [hx])⟩) hm]
    simp
  · intro hs hno
    obtain ⟨p, ps, rfl⟩ := List.exists_cons_of_ne_nil hs
    have hp : isNewline p = false := hnl p (by simp)
    simp only [dependency_regex_match, hp, Bool.false_eq_true, if_false]
    rw [matchAfterId_plain ps [p]
      (fun x hx => ⟨hno x (List.mem_cons_of_mem p hx), hnl x (List.mem_cons_of_mem p hx)⟩)]
    simp

/-- The atom `demo/a>=3` gives the identifier `demo/a` and an operator of the
grammar that, with the version, makes up `>=3`. -/
theorem dependency_pattern_groups_witness :
    (∀ x ∈ "demo/a>=3".toList, isNewline x = false) ∧
      ∃ op version, dependency_regex_match "demo/a>=3".toList =
          some ("demo/a".toList, op, version) ∧
        op ∈ dependency_ops ∧ version ≠ [] ∧ op ++ version = ['>', '=', '3'] :=
  ⟨by decide,
    (dependency_pattern_groups "demo/a>=3".toList (by decide)).1 "demo/a".toList '>' ['=', '3']
      (by decide) (by decide) (by decide) (by decide) (by decide)⟩

/-- C4 fails as stated: for the atom `a=` the identifier extracted is `a=`,
not the prefix `a` before the first operator character, and the operator
extracted is empty; likewise for `=a` the identifier is `=a`, not the empty
prefix, and for `a` followed by a newline it is `a`, not the whole atom. -/
theorem dependency_pattern_groups_counterexample :
    dependency_regex_match ['a', '='] = some (['a', '='], [], []) ∧
      ['a', '='].takeWhile (fun c => !isOperatorChar c) = ['a'] ∧
      ([] : Str) ∉ dependency_ops ∧
      dependency_regex_match ['=', 'a'] = some (['=', 'a'], [], []) ∧
      ['=', 'a'].takeWhile (fun c => !isOperatorChar c) = [] ∧
      dependency_regex_match ['a', '\n'] = some (['a'], [], []) := by
  decide

/-! ### The load driver -/

theorem set_state_world_self (w : World) (p : Nat) (s : GPluginPluginState) :
    ((gplugin_plugin_set_state w p s).1 p).state = s := by
  simp [gplugin_plugin_set_state]

theorem set_state_world_other (w : World) (p q : Nat) (s : GPluginPluginState) (h : q ≠ p) :
    (gplugin_plugin_set_state w p s).1 q = w q := by
  simp [gplugin_plugin_set_state, h]

theorem load_frame_refl (w : World) (b : Bool) (e : Option GError) :
    load_frame w ⟨b, e, w, []⟩ := by
  simp [load_frame]

theorem load_frame_set_state (w : World) (p : Nat) (s : GPluginPluginState)
    (b : Bool) (e e' : Option GError)
    (hp : (w p).state ≠ GPluginPluginState.LOADED)
    (hs : s = GPluginPluginState.LOADED ∨ s = GPluginPluginState.LOAD_FAILED) :
    load_frame w ⟨b, e, (gplugin_plugin_set_state (set_plugin_error w p e') p s).1,
      (gplugin_plugin_set_state (set_plugin_error w p e') p s).2⟩ := by
  refine ⟨?_, ?_, ?_, ?_, ?_, ?_⟩
  · intro q hq
    have hne : q ≠ p := fun h => hp (h ▸ hq)
    simp [gplugin_plugin_set_state, set_plugin_error, hne, hq]
  · intro q old hmem
    simp only [gplugin_plugin_set_state, List.mem_singleton, Event.state_changed.injEq] at hmem
    obtain ⟨rfl, -, rfl⟩ := hmem
    simp [gplugin_plugin_set_state]
  · intro q old new hmem
    simp only [gplugin_plugin_set_state, List.mem_singleton, Event.state_changed.injEq] at hmem
    obtain ⟨rfl, rfl, rfl⟩ := hmem
    refine ⟨?_, hs⟩
    simpa [set_plugin_error] using hp
  · intro l q hmem
    simp [gplugin_plugin_set_state] at hmem
  · intro q
    by_cases h : q = p <;> simp [gplugin_plugin_set_state, set_plugin_error, h]
  · intro q
    by_cases h : q = p
    · right
      subst h
      exact ⟨(w q).state, by simp [gplugin_plugin_set_state, set_plugin_error]⟩
    · left
      simp [gplugin_plugin_set_state, set_plugin_error, h]

theorem set_plugin_error_none (w : World) (p : Nat) :
    set_plugin_error w p (w p).error = w := by
  funext q
  by_cases h : q = p <;> simp [set_plugin_error, h]

theorem load_frame_append (w : World) (o1 o2 : Outcome) (b : Bool) (e : Option GError)
    (h1 : load_frame w o1) (h2 : load_frame o1.world o2) :
    load_frame w ⟨b, e, o2.world, o1.events ++ o2.events⟩ := by
  obtain ⟨a1, a2, a3, a4, a5, a6⟩ := h1
  obtain ⟨b1, b2, b3, b4, b5, b6⟩ := h2
  refine ⟨fun q hq => b1 q (a1 q hq), ?_, ?_, ?_, ?_, ?_⟩
  · intro q old hmem
    rcases List.mem_append.mp hmem with hm | hm
    · exact b1 q (a2 q old hm)
    · exact b2 q old hm
  · intro q old new hmem
    rcases List.mem_append.mp hmem with hm | hm
    · exact a3 q old new hm
    · exact b3 q old new hm
  · intro l q hmem
    rcases List.mem_append.mp hmem with hm | hm
    · exact a4 l q hm
    · exact b4 l q hm
  · intro q
    obtain ⟨x1, x2, x3⟩ := a5 q
    obtain ⟨y1, y2, y3⟩ := b5 q
    exact ⟨y1.trans x1, y2.trans x2, y3.trans x3⟩
  · intro q
    rcases b6 q with hb | ⟨old, hb⟩
    · rcases a6 q with ha | ⟨old, ha⟩
      · left; exact hb.trans ha
      · right
        refine ⟨old, List.mem_append.mpr (Or.inl ?_)⟩
        show Event.state_changed q old (o2.world q).state ∈ o1.events
        rw [hb]; exact ha
    · right
      exact ⟨old, List.mem_append.mpr (Or.inr hb)⟩

theorem load_frame_events_cons (w : World) (o : Outcome) (b : Bool)
    (e : Option GError) (pre post : List Event) (h : load_frame w o)
    (hpre : ∀ x ∈ pre ++ post, (∀ q old new, x ≠ Event.state_changed q old new) ∧
      ∀ l q, x ≠ Event.loader_unload l q) :
    load_frame w ⟨b, e, o.world, pre ++ (o.events ++ post)⟩ := by
  obtain ⟨a1, a2, a3, a4, a5, a6⟩ := h
  have key : ∀ x, x ∈ pre ++ (o.events ++ post) → x ∈ o.events ∨ x ∈ pre ++ post := by
    intro x hx
    simp only [List.mem_append] at hx ⊢
    tauto
  refine ⟨a1, ?_, ?_, ?_, a5, ?_⟩
  rotate_left 3
  · intro q
    rcases a6 q with ha | ⟨old, ha⟩
    · left; exact ha
    · right
      refine ⟨old, ?_⟩
      simp only [List.mem_append]
      exact Or.inr (Or.inl ha)
  · intro q old hmem
    rcases key _ hmem with hm | hm
    · exact a2 q old hm
    · exact absurd rfl ((hpre _ hm).1 q old _)
  · intro q old new hmem
    rcases key _ hmem with hm | hm
    · exact a3 q old new hm
    · exact absurd rfl ((hpre _ hm).1 q old new)
  · intro l q hmem
    rcases key _ hmem with hm | hm
    · exact a4 l q hm
    · exact absurd rfl ((hpre _ hm).2 l q)

theorem loader_load_plugin_frame (env : Env) (w : World) (loader p : Nat)
    (hp : (w p).state ≠ GPluginPluginState.LOADED) :
    load_frame w (gplugin_loader_load_plugin env w loader p) := by
  unfold gplugin_loader_load_plugin
  cases env.load w loader p with
  | none =>
    have h := load_frame_set_state w p GPluginPluginState.LOADED true none (w p).error hp
      (Or.inl rfl)
    rw [set_plugin_error_none] at h
    have h2 := load_frame_events_cons w _ true none
      [Event.loader_load loader p] [] h (by simp)
    simpa using h2
  | some e =>
    have h := load_frame_set_state w p GPluginPluginState.LOAD_FAILED false (some e) (some e) hp
      (Or.inr rfl)
    have h2 := load_frame_events_cons w _ false (some e)
      [Event.loader_load loader p] [] h (by simp)
    simpa using h2

theorem loader_load_plugin_ret (env : Env) (w : World) (loader p : Nat)
    (h : (gplugin_loader_load_plugin env w loader p).ret = true) :
    ((gplugin_loader_load_plugin env w loader p).world p).state = GPluginPluginState.LOADED ∧
      (gplugin_loader_load_plugin env w loader p).error = none := by
  unfold gplugin_loader_load_plugin at h ⊢
  cases hl : env.load w loader p with
  | none => simp [gplugin_plugin_set_state]
  | some e => rw [hl] at h; simp at h


/-! #### Resolution only reads the plugins' infos -/

theorem found_version_congr (w w' : World) (h : ∀ q, (w' q).info = (w q).info) (p : Nat) :
    found_version w' p = found_version w p := by
  simp [found_version, h p]

theorem find_plugins_with_version_congr (env : Env) (manager : GPluginManager) (w w' : World)
    (h : ∀ q, (w' q).info = (w q).info) (id : Str) (op version : Option Str) :
    gplugin_manager_find_plugins_with_version env manager w' id op version =
      gplugin_manager_find_plugins_with_version env manager w id op version := by
  simp only [gplugin_manager_find_plugins_with_version, filter_loop_eq,
    found_version_congr w w' h]

theorem resolve_ors_congr (env : Env) (manager : GPluginManager) (w w' : World)
    (h : ∀ q, (w' q).info = (w q).info) (ors : List Str) :
    resolve_ors env manager w' ors = resolve_ors env manager w ors := by
  induction ors with
  | nil => rfl
  | cons o ors ih =>
    simp only [resolve_ors, find_plugins_with_version_congr env manager w w' h, ih]

theorem dependencies_loop_congr (env : Env) (manager : GPluginManager) (w w' : World)
    (h : ∀ q, (w' q).info = (w q).info) (id : Option Str) (entries : List Str)
    (ret : List Nat) :
    dependencies_loop env manager w' id entries ret =
      dependencies_loop env manager w id entries ret := by
  induction entries generalizing ret with
  | nil => rfl
  | cons e entries ih =>
    simp only [dependencies_loop, resolve_ors_congr env manager w w' h, ih]

theorem get_plugin_dependencies_congr (env : Env) (manager : GPluginManager) (w w' : World)
    (h : ∀ q, (w' q).info = (w q).info) (p : Nat) :
    gplugin_manager_get_plugin_dependencies env manager w' p =
      gplugin_manager_get_plugin_dependencies env manager w p := by
  simp only [gplugin_manager_get_plugin_dependencies, h p,
    dependencies_loop_congr env manager w w' h]

/-! #### A plugin that waits for itself is never loaded -/

theorem load_plugin_loaded (env : Env) (manager : GPluginManager) (fuel : Nat) (w : World)
    (p : Nat) (h : (w p).state = GPluginPluginState.LOADED) :
    gplugin_manager_load_plugin env manager (fuel + 1) w p = some ⟨true, none, w, []⟩ := by
  simp [gplugin_manager_load_plugin, h]

theorem load_dependencies_loop_loaded (rec : World → Nat → Option Outcome) (w : World)
    (pre rest : List Nat)
    (hrec : ∀ x ∈ pre, rec w x = some ⟨true, none, w, []⟩) :
    load_dependencies_loop rec w (pre ++ rest) = load_dependencies_loop rec w rest := by
  induction pre with
  | nil => rfl
  | cons x pre ih =>
    rw [List.cons_append, load_dependencies_loop, hrec x (List.mem_cons_self x pre)]
    simp only [Bool.true_eq_false, ne_eq, not_true_eq_false, or_self, if_false]
    rw [ih (fun y hy => hrec y (List.mem_cons_of_mem x hy))]
    cases load_dependencies_loop rec w rest with
    | none => rfl
    | some r => simp

theorem load_plugin_waiting_cycle (env : Env) (manager : GPluginManager) (w : World)
    (S : Nat → Prop) (hS : ∀ q, S q → waiting env manager w S q) (fuel : Nat) :
    ∀ q, S q → gplugin_manager_load_plugin env manager fuel w q = none := by
  induction fuel with
  | zero => intro q _; rfl
  | succ fuel ih =>
    intro q hq
    obtain ⟨hst, pre, nxt, post, hdeps, hpre, hnxt⟩ := hS q hq
    rw [gplugin_manager_load_plugin]
    simp only [hst, if_false]
    cases hinfo : (w q).info with
    | none =>
      simp [gplugin_manager_get_plugin_dependencies, hinfo] at hdeps
    | some info =>
      simp only
      have hloop : gplugin_manager_load_dependencies env manager
          (gplugin_manager_load_plugin env manager fuel) w q = none := by
        simp only [gplugin_manager_load_dependencies, hdeps]
        cases fuel with
        | zero =>
          cases pre with
          | nil => simp [load_dependencies_loop, gplugin_manager_load_plugin]
          | cons x pre => simp [load_dependencies_loop, gplugin_manager_load_plugin]
        | succ k =>
          rw [load_dependencies_loop_loaded _ w pre (nxt :: post)
            (fun x hx => load_plugin_loaded env manager k w x (hpre x hx))]
          rw [load_dependencies_loop, ih nxt hnxt]
      rw [hloop]

/-! #### The plugin's own stage -/

theorem load_plugin_actual_frame (env : Env) (w : World) (p : Nat)
    (hp : (w p).state ≠ GPluginPluginState.LOADED) :
    load_frame w (gplugin_manager_load_plugin_actual env w p) := by
  unfold gplugin_manager_load_plugin_actual
  cases (w p).loader with
  | none =>
    have := load_frame_set_state w p GPluginPluginState.LOAD_FAILED false
      (some (not_a_loader_error (w p).filename)) (w p).error hp (Or.inr rfl)
    rw [set_plugin_error_none] at this
    exact this
  | some loader =>
    simp only
    split_ifs with hsig hret
    · have h := load_frame_set_state w p GPluginPluginState.LOAD_FAILED false
        (env.loading_plugin w p).2 (env.loading_plugin w p).2 hp (Or.inr rfl)
      have h2 := load_frame_events_cons w _ false (env.loading_plugin w p).2
        [Event.loading_plugin p] [] h (by simp)
      simpa using h2
    · exact load_frame_events_cons w _ true none [Event.loading_plugin p]
        [Event.loaded_plugin p] (loader_load_plugin_frame env w loader p hp) (by simp)
    · exact load_frame_events_cons w _ false _ [Event.loading_plugin p]
        [Event.load_plugin_failed p] (loader_load_plugin_frame env w loader p hp) (by simp)

theorem loader_load_plugin_other (env : Env) (w : World) (loader p q : Nat) (h : q ≠ p) :
    ((gplugin_loader_load_plugin env w loader p).world q).state = (w q).state ∧
      ∀ e ∈ (gplugin_loader_load_plugin env w loader p).events, event_plugin e ≠ q := by
  unfold gplugin_loader_load_plugin
  cases env.load w loader p <;>
    simp [gplugin_plugin_set_state, set_plugin_error, h, event_plugin, Ne.symm h]

theorem load_plugin_actual_other (env : Env) (w : World) (p q : Nat) (h : q ≠ p) :
    ((gplugin_manager_load_plugin_actual env w p).world q).state = (w q).state ∧
      ∀ e ∈ (gplugin_manager_load_plugin_actual env w p).events, event_plugin e ≠ q := by
  unfold gplugin_manager_load_plugin_actual
  cases (w p).loader with
  | none => simp [gplugin_plugin_set_state, h, event_plugin, Ne.symm h]
  | some loader =>
    simp only
    have ho := loader_load_plugin_other env w loader p q h
    split_ifs with hsig hret
    · simp [gplugin_plugin_set_state, set_plugin_error, h, event_plugin, Ne.symm h]
    · refine ⟨ho.1, ?_⟩
      intro e hmem
      simp only [List.mem_cons, List.mem_append, List.mem_singleton, List.not_mem_nil,
        or_false] at hmem
      rcases hmem with rfl | hm | rfl
      · simpa [event_plugin] using Ne.symm h
      · exact ho.2 e hm
      · simpa [event_plugin] using Ne.symm h
    · refine ⟨ho.1, ?_⟩
      intro e hmem
      simp only [List.mem_cons, List.mem_append, List.mem_singleton, List.not_mem_nil,
        or_false] at hmem
      rcases hmem with rfl | hm | rfl
      · simpa [event_plugin] using Ne.symm h
      · exact ho.2 e hm
      · simpa [event_plugin] using Ne.symm h

theorem load_plugin_actual_ret (env : Env) (w : World) (p : Nat)
    (h : (gplugin_manager_load_plugin_actual env w p).ret = true) :
    ((gplugin_manager_load_plugin_actual env w p).world p).state = GPluginPluginState.LOADED ∧
      (gplugin_manager_load_plugin_actual env w p).error = none := by
  unfold gplugin_manager_load_plugin_actual at h ⊢
  cases hl : (w p).loader with
  | none => rw [hl] at h; simp at h
  | some loader =>
    rw [hl] at h
    simp only at h ⊢
    split_ifs at h ⊢ with hsig hret
    · exact ⟨(loader_load_plugin_ret env w loader p hret).1, rfl⟩

theorem load_plugin_ret (env : Env) (manager : GPluginManager) (fuel : Nat) (w : World)
    (p : Nat) (o : Outcome) (h : gplugin_manager_load_plugin env manager fuel w p = some o)
    (hret : o.ret = true) :
    (o.world p).state = GPluginPluginState.LOADED ∧ o.error = none := by
  cases fuel with
  | zero => simp [gplugin_manager_load_plugin] at h
  | succ fuel =>
    rw [gplugin_manager_load_plugin] at h
    split_ifs at h with hst
    · simp only [Option.some.injEq] at h
      subst h
      exact ⟨hst, rfl⟩
    · cases hinfo : (w p).info with
      | none =>
        rw [hinfo] at h
        simp only [Option.some.injEq] at h
        subst h
        simp at hret
      | some info =>
        rw [hinfo] at h
        simp only at h
        cases hdep : gplugin_manager_load_dependencies env manager
            (gplugin_manager_load_plugin env manager fuel) w p with
        | none => rw [hdep] at h; simp at h
        | some d =>
          rw [hdep] at h
          simp only at h
          split_ifs at h with hd
          · simp only [Option.some.injEq] at h
            subst h
            simp at hret
          · simp only [Option.some.injEq] at h
            subst h
            exact load_plugin_actual_ret env d.world p hret

/-! #### The recursion never comes back to a plugin that is being loaded -/

theorem waiting_mono (env : Env) (manager : GPluginManager) (w : World) (S T : Nat → Prop)
    (hST : ∀ y, S y → T y) (q : Nat) (h : waiting env manager w S q) :
    waiting env manager w T q := by
  obtain ⟨hst, pre, nxt, post, hdeps, hpre, hnxt⟩ := h
  exact ⟨hst, pre, nxt, post, hdeps, hpre, hST nxt hnxt⟩

theorem waiting_step (env : Env) (manager : GPluginManager) (w : World) (o : Outcome)
    (S : Nat → Prop) (q : Nat) (hf : load_frame w o)
    (hstate : (o.world q).state = (w q).state) (h : waiting env manager w S q) :
    waiting env manager o.world S q := by
  obtain ⟨hst, pre, nxt, post, hdeps, hpre, hnxt⟩ := h
  refine ⟨by rw [hstate]; exact hst, pre, nxt, post, ?_, fun x hx => hf.1 x (hpre x hx), hnxt⟩
  rw [get_plugin_dependencies_congr env manager w o.world (fun x => (hf.2.2.2.2.1 x).1)]
  exact hdeps

theorem load_dependencies_loop_stack (env : Env) (manager : GPluginManager)
    (rec : World → Nat → Option Outcome) (S : Nat → Prop) (p : Nat)
    (hrec : ∀ (w : World) (q : Nat) (o : Outcome) (T : Nat → Prop),
      (∀ x, T x → waiting env manager w (fun y => T y ∨ y = q) x) → rec w q = some o →
      load_frame w o ∧ undisturbed T w o)
    (hret : ∀ (w : World) (q : Nat) (o : Outcome), rec w q = some o → o.ret = true →
      (o.world q).state = GPluginPluginState.LOADED) :
    ∀ (todo done : List Nat) (w : World) (r : Outcome),
      (w p).state ≠ GPluginPluginState.LOADED →
      gplugin_manager_get_plugin_dependencies env manager w p = (done ++ todo, none) →
      (∀ x ∈ done, (w x).state = GPluginPluginState.LOADED) →
      (∀ q, S q → waiting env manager w (fun y => S y ∨ y = p) q) →
      load_dependencies_loop rec w todo = some r →
      load_frame w r ∧ undisturbed (fun y => S y ∨ y = p) w r ∧
        (r.ret = true → ∀ x ∈ done ++ todo, (r.world x).state = GPluginPluginState.LOADED) := by
  intro todo
  induction todo with
  | nil =>
    intro done w r hp hdeps hdone hS h
    simp only [load_dependencies_loop, Option.some.injEq] at h
    subst h
    refine ⟨load_frame_refl w true none, ?_, ?_⟩
    · intro q _; simp
    · intro _ x hx; simpa using hdone x (by simpa using hx)
  | cons d todo ih =>
    intro done w r hp hdeps hdone hS h
    simp only [load_dependencies_loop] at h
    cases hd : rec w d with
    | none => rw [hd] at h; simp at h
    | some o1 =>
      rw [hd] at h
      simp only at h
      have hT : ∀ x, (S x ∨ x = p) →
          waiting env manager w (fun y => (S y ∨ y = p) ∨ y = d) x := by
        intro x hx
        rcases hx with hx | rfl
        · exact waiting_mono env manager w _ _ (fun y hy => Or.inl hy) x (hS x hx)
        · exact ⟨hp, done, d, todo, hdeps, hdone, Or.inr rfl⟩
      obtain ⟨f1, u1⟩ := hrec w d o1 (fun y => S y ∨ y = p) hT hd
      split_ifs at h with hfail
      · simp only [Option.some.injEq] at h
        subst h
        exact ⟨f1, u1, fun hr => by simp at hr⟩
      · have hok : o1.ret = true := by
          by_contra hne
          exact hfail (Or.inl (by simpa using hne))
        cases hr : load_dependencies_loop rec o1.world todo with
        | none => rw [hr] at h; simp at h
        | some r' =>
          rw [hr] at h
          simp only [Option.some.injEq] at h
          subst h
          have hp' : (o1.world p).state ≠ GPluginPluginState.LOADED := by
            rw [(u1 p (Or.inr rfl)).1]; exact hp
          have hdeps' : gplugin_manager_get_plugin_dependencies env manager o1.world p =
              ((done ++ [d]) ++ todo, none) := by
            rw [get_plugin_dependencies_congr env manager w o1.world
              (fun x => (f1.2.2.2.2.1 x).1), hdeps]
            simp
          have hdone' : ∀ x ∈ done ++ [d], (o1.world x).state = GPluginPluginState.LOADED := by
            intro x hx
            rcases List.mem_append.mp hx with hx | hx
            · exact f1.1 x (hdone x hx)
            · rw [List.mem_singleton] at hx
              subst hx
              exact hret w x o1 hd hok
          have hS' : ∀ q, S q → waiting env manager o1.world (fun y => S y ∨ y = p) q :=
            fun q hq => waiting_step env manager w o1 _ q f1 (u1 q (Or.inl hq)).1 (hS q hq)
          obtain ⟨f2, u2, hall⟩ := ih (done ++ [d]) o1.world r' hp' hdeps' hdone' hS' hr
          refine ⟨load_frame_append w o1 r' r'.ret r'.error f1 f2, ?_, ?_⟩
          · intro q hq
            refine ⟨(u2 q hq).1.trans (u1 q hq).1, ?_⟩
            intro e hmem
            rcases List.mem_append.mp hmem with hm | hm
            · exact (u1 q hq).2 e hm
            · exact (u2 q hq).2 e hm
          · intro hret' x hx
            exact hall hret' x (by simpa using hx)

theorem load_plugin_stack (env : Env) (manager : GPluginManager) (fuel : Nat) :
    ∀ (w : World) (p : Nat) (o : Outcome) (S : Nat → Prop),
      (∀ q, S q → waiting env manager w (fun y => S y ∨ y = p) q) →
      gplugin_manager_load_plugin env manager fuel w p = some o →
      load_frame w o ∧ undisturbed S w o := by
  induction fuel with
  | zero => intro w p o S _ h; simp [gplugin_manager_load_plugin] at h
  | succ fuel ih =>
    intro w p o S hS h
    by_cases hst : (w p).state = GPluginPluginState.LOADED
    · rw [load_plugin_loaded env manager fuel w p hst] at h
      simp only [Option.some.injEq] at h
      subst h
      exact ⟨load_frame_refl w true none, fun q _ => by simp⟩
    · have hnS : ¬ S p := by
        intro hSp
        have hclosed : ∀ q, S q → waiting env manager w S q := fun q hq =>
          waiting_mono env manager w _ _
            (fun y hy => hy.elim id (fun e => e ▸ hSp)) q (hS q hq)
        rw [load_plugin_waiting_cycle env manager w S hclosed (fuel + 1) p hSp] at h
        simp at h
      have hne : ∀ q, S q → q ≠ p := fun q hq e => hnS (e ▸ hq)
      rw [gplugin_manager_load_plugin] at h
      simp only [hst, if_false] at h
      cases hinfo : (w p).info with
      | none =>
        rw [hinfo] at h
        simp only [Option.some.injEq] at h
        subst h
        have hf := load_frame_set_state w p GPluginPluginState.LOAD_FAILED false
          (some (missing_info_error (w p).filename)) (w p).error hst (Or.inr rfl)
        rw [set_plugin_error_none] at hf
        refine ⟨hf, ?_⟩
        intro q hq
        simp [gplugin_plugin_set_state, hne q hq, event_plugin, Ne.symm (hne q hq)]
      | some info =>
        rw [hinfo] at h
        simp only at h
        cases hdep : gplugin_manager_load_dependencies env manager
            (gplugin_manager_load_plugin env manager fuel) w p with
        | none => rw [hdep] at h; simp at h
        | some d =>
          rw [hdep] at h
          simp only at h
          have hd : load_frame w d ∧ undisturbed (fun y => S y ∨ y = p) w d := by
            unfold gplugin_manager_load_dependencies at hdep
            cases hg : gplugin_manager_get_plugin_dependencies env manager w p with
            | mk ds err =>
              rw [hg] at hdep
              cases err with
              | some e =>
                simp only [Option.some.injEq] at hdep
                subst hdep
                exact ⟨load_frame_refl w false _, fun q _ => by simp⟩
              | none =>
                simp only at hdep
                have := load_dependencies_loop_stack env manager
                  (gplugin_manager_load_plugin env manager fuel) S p ih
                  (fun w q o ho hr => (load_plugin_ret env manager fuel w q o ho hr).1)
                  ds [] w d hst (by simpa using hg) (by simp) hS hdep
                exact ⟨this.1, this.2.1⟩
          obtain ⟨fd, ud⟩ := hd
          split_ifs at h with hdret
          · simp only [Option.some.injEq] at h
            subst h
            exact ⟨fd, fun q hq => ud q (Or.inl hq)⟩
          · simp only [Option.some.injEq] at h
            subst h
            have hp' : (d.world p).state ≠ GPluginPluginState.LOADED := by
              rw [(ud p (Or.inr rfl)).1]; exact hst
            refine ⟨load_frame_append w d _ _ _ fd (load_plugin_actual_frame env d.world p hp'),
              ?_⟩
            intro q hq
            have ho := load_plugin_actual_other env d.world p q (hne q hq)
            refine ⟨ho.1.trans (ud q (Or.inl hq)).1, ?_⟩
            intro e hmem
            rcases List.mem_append.mp hmem with hm | hm
            · exact (ud q (Or.inl hq)).2 e hm
            · exact ho.2 e hm

theorem load_plugin_frame (env : Env) (manager : GPluginManager) (fuel : Nat) (w : World)
    (p : Nat) (o : Outcome) (h : gplugin_manager_load_plugin env manager fuel w p = some o) :
    load_frame w o :=
  (load_plugin_stack env manager fuel w p o (fun _ => False) (fun _ hq => hq.elim) h).1

/-! #### The dependency phase of a call -/

theorem load_dependencies_loop_append (rec : World → Nat → Option Outcome) (w : World)
    (pre rest : List Nat) (o1 : Outcome)
    (hpre : load_dependencies_loop rec w pre = some o1) (hok : o1.ret = true) :
    load_dependencies_loop rec w (pre ++ rest) =
      (load_dependencies_loop rec o1.world rest).map
        (fun r => ⟨r.ret, r.error, r.world, o1.events ++ r.events⟩) := by
  induction pre generalizing w o1 with
  | nil =>
    simp only [load_dependencies_loop, Option.some.injEq] at hpre
    subst hpre
    rw [List.nil_append]
    cases load_dependencies_loop rec w rest <;> simp
  | cons x pre ih =>
    simp only [load_dependencies_loop] at hpre
    rw [List.cons_append, load_dependencies_loop]
    cases hx : rec w x with
    | none => rw [hx] at hpre; simp at hpre
    | some ox =>
      rw [hx] at hpre
      simp only at hpre ⊢
      split_ifs at hpre ⊢ with hfail
      · simp only [Option.some.injEq] at hpre
        subst hpre
        simp at hok
      · cases hr : load_dependencies_loop rec ox.world pre with
        | none => rw [hr] at hpre; simp at hpre
        | some r =>
          rw [hr] at hpre
          simp only [Option.some.injEq] at hpre
          subst hpre
          rw [ih ox.world r hr hok]
          cases load_dependencies_loop rec r.world rest <;> simp

theorem load_dependencies_phase (env : Env) (manager : GPluginManager) (fuel : Nat)
    (w : World) (p : Nat) (d : Outcome) (hst : (w p).state ≠ GPluginPluginState.LOADED)
    (hdep : gplugin_manager_load_dependencies env manager
      (gplugin_manager_load_plugin env manager fuel) w p = some d) :
    load_frame w d ∧ (d.world p).state = (w p).state ∧
      (∀ e ∈ d.events, event_plugin e ≠ p) ∧
      (d.ret = true → ∀ x ∈ (gplugin_manager_get_plugin_dependencies env manager w p).1,
        (d.world x).state = GPluginPluginState.LOADED) := by
  unfold gplugin_manager_load_dependencies at hdep
  cases hg : gplugin_manager_get_plugin_dependencies env manager w p with
  | mk ds err =>
    rw [hg] at hdep
    cases err with
    | some e =>
      simp only [Option.some.injEq] at hdep
      subst hdep
      exact ⟨load_frame_refl w false _, rfl, by simp, by simp⟩
    | none =>
      simp only at hdep
      obtain ⟨f, u, hall⟩ := load_dependencies_loop_stack env manager
        (gplugin_manager_load_plugin env manager fuel) (fun _ => False) p
        (load_plugin_stack env manager fuel)
        (fun w q o ho hr => (load_plugin_ret env manager fuel w q o ho hr).1)
        ds [] w d hst (by simpa using hg) (by simp) (fun _ hq => hq.elim) hdep
      exact ⟨f, (u p (Or.inr rfl)).1, (u p (Or.inr rfl)).2, fun hr x hx => hall hr x (by simpa using hx)⟩

theorem load_plugin_unfold (env : Env) (manager : GPluginManager) (fuel : Nat) (w : World)
    (p : Nat) (info : GPluginPluginInfo) (d : Outcome)
    (hst : (w p).state ≠ GPluginPluginState.LOADED) (hinfo : (w p).info = some info)
    (hdep : gplugin_manager_load_dependencies env manager
      (gplugin_manager_load_plugin env manager fuel) w p = some d) :
    gplugin_manager_load_plugin env manager (fuel + 1) w p =
      if d.ret = false then some ⟨false, d.error, d.world, d.events⟩
      else some ⟨(gplugin_manager_load_plugin_actual env d.world p).ret,
        (gplugin_manager_load_plugin_actual env d.world p).error,
        (gplugin_manager_load_plugin_actual env d.world p).world,
        d.events ++ (gplugin_manager_load_plugin_actual env d.world p).events⟩ := by
  rw [gplugin_manager_load_plugin]
  simp only [hst, if_false, hinfo, hdep]

theorem load_plugin_actual_events (env : Env) (w : World) (p : Nat) :
    ∀ e ∈ (gplugin_manager_load_plugin_actual env w p).events, event_plugin e = p := by
  unfold gplugin_manager_load_plugin_actual gplugin_loader_load_plugin
  cases (w p).loader with
  | none => simp [gplugin_plugin_set_state, event_plugin]
  | some loader =>
    simp only
    split_ifs with hsig hret
    · simp [gplugin_plugin_set_state, event_plugin]
    · cases env.load w loader p <;> simp [gplugin_plugin_set_state, event_plugin]
    · cases env.load w loader p <;> simp [gplugin_plugin_set_state, event_plugin]

theorem get_plugin_dependencies_chosen (env : Env) (manager : GPluginManager)
    (w : World) (plugin : Nat) (choice : Str → Nat)
    (h : ∀ e ∈ dependencies_of w plugin, ∃ pre a post qs,
      g_strsplit e = pre ++ a :: post ∧
      (∀ x ∈ pre, atom_matches env manager w x = []) ∧
      atom_matches env manager w a = choice e :: qs) :
    gplugin_manager_get_plugin_dependencies env manager w plugin =
      (((dependencies_of w plugin).map choice).reverse, none) := by
  rw [get_plugin_dependencies_eq_loop,
    dependencies_loop_resolved env manager w _ choice _ []]
  · simp
  · intro e he
    obtain ⟨pre, a, post, qs, hs, hpre, ha⟩ := h e he
    rw [hs]
    exact resolve_ors_first env manager w pre a post (choice e) qs hpre ha

/-! ### The claims about the load driver -/

/-- C5, as the code behaves: when every dependency entry of a plugin `p` that
is not loaded resolves (entry `e` to the plugin `choice e`),
`gplugin_manager_load_plugin` calls itself on the resolved plugins in the
reverse of the order in which the entries are declared (last declared entry
first), stopping at the first failure; no event of that phase is about `p`,
and the events of `p`'s own stage (`loading-plugin`, the loader's `load`)
come after it, only when the phase succeeded, at which point every resolved
dependency is in state `loaded`. -/
theorem load_plugin_dependency_order (env : Env) (manager : GPluginManager) (fuel : Nat)
    (w : World) (p : Nat) (info : GPluginPluginInfo) (o : Outcome) (choice : Str → Nat)
    (hst : (w p).state ≠ GPluginPluginState.LOADED) (hinfo : (w p).info = some info)
    (hres : ∀ e ∈ dependencies_of w p, ∃ pre a post qs,
      g_strsplit e = pre ++ a :: post ∧
      (∀ x ∈ pre, atom_matches env manager w x = []) ∧
      atom_matches env manager w a = choice e :: qs)
    (h : gplugin_manager_load_plugin env manager (fuel + 1) w p = some o) :
    ∃ d, load_dependencies_loop (gplugin_manager_load_plugin env manager fuel) w
          ((dependencies_of w p).map choice).reverse = some d ∧
      (∀ e ∈ d.events, event_plugin e ≠ p) ∧
      ((d.ret = false ∧ o.events = d.events) ∨
        (d.ret = true ∧
          (∀ x ∈ (dependencies_of w p).map choice,
            (d.world x).state = GPluginPluginState.LOADED) ∧
          o.events = d.events ++ (gplugin_manager_load_plugin_actual env d.world p).events)) := by
  have hg := get_plugin_dependencies_chosen env manager w p choice hres
  cases hdep : gplugin_manager_load_dependencies env manager
      (gplugin_manager_load_plugin env manager fuel) w p with
  | none =>
    rw [gplugin_manager_load_plugin] at h
    simp [hst, hinfo, hdep] at h
  | some d =>
    obtain ⟨-, -, hev, hall⟩ := load_dependencies_phase env manager fuel w p d hst hdep
    rw [load_plugin_unfold env manager fuel w p info d hst hinfo hdep] at h
    have hloop : load_dependencies_loop (gplugin_manager_load_plugin env manager fuel) w
        ((dependencies_of w p).map choice).reverse = some d := by
      simpa [gplugin_manager_load_dependencies, hg] using hdep
    refine ⟨d, hloop, hev, ?_⟩
    split_ifs at h with hd
    · left
      simp only [Option.some.injEq] at h
      subst h
      exact ⟨hd, rfl⟩
    · right
      simp only [Option.some.injEq] at h
      subst h
      have hd' : d.ret = true := by simpa using hd
      refine ⟨hd', ?_, rfl⟩
      intro x hx
      exact hall hd' x (by rw [hg]; simpa using hx)

/-- With the dependencies `demo/a` and `demo/b` declared in this order, the
loop runs on the plugin of `demo/b` and then on the plugin of `demo/a`. -/
theorem load_plugin_dependency_order_witness :
    ∃ o d, gplugin_manager_load_plugin demo_env two_dependencies_manager 2
          two_dependencies_world 0 = some o ∧
      load_dependencies_loop (gplugin_manager_load_plugin demo_env two_dependencies_manager 1)
          two_dependencies_world [2, 1] = some d ∧
      (∀ e ∈ d.events, event_plugin e ≠ 0) := by
  obtain ⟨o, ho⟩ : ∃ o, gplugin_manager_load_plugin demo_env two_dependencies_manager 2
      two_dependencies_world 0 = some o := Option.isSome_iff_exists.mp (by decide)
  have hd : dependencies_of two_dependencies_world 0 = ["demo/a".toList, "demo/b".toList] := by
    decide
  obtain ⟨d, hloop, hev, -⟩ := load_plugin_dependency_order demo_env two_dependencies_manager 1
    two_dependencies_world 0 (demo_info "demo/p" "1.0" ["demo/a", "demo/b"]) o
    (fun e => if e = "demo/a".toList then 1 else 2) (by decide) (by decide)
    (by
      intro e he
      rw [hd] at he
      simp only [List.mem_cons, List.mem_singleton, List.not_mem_nil, or_false] at he
      rcases he with rfl | rfl
      · exact ⟨[], "demo/a".toList, [], [], by decide, by simp, by decide⟩
      · exact ⟨[], "demo/b".toList, [], [], by decide, by simp, by decide⟩) ho
  refine ⟨o, d, ho, ?_, hev⟩
  rw [hd] at hloop
  exact hloop

/-- C5 fails as stated: plugin `0` declares `demo/a` (plugin `1`) before
`demo/b` (plugin `2`), and `gplugin_manager_load_plugin` invokes the loader
for plugin `2` first, then for plugin `1`, then for plugin `0`. -/
theorem load_plugin_dependency_order_counterexample :
    dependencies_of two_dependencies_world 0 = ["demo/a".toList, "demo/b".toList] ∧
      gplugin_manager_find_plugin two_dependencies_manager "demo/a".toList = some 1 ∧
      gplugin_manager_find_plugin two_dependencies_manager "demo/b".toList = some 2 ∧
      (gplugin_manager_load_plugin demo_env two_dependencies_manager 2
          two_dependencies_world 0).map (fun o => o.events.filter is_loader_load) =
        some [Event.loader_load 0 2, Event.loader_load 0 1, Event.loader_load 0 0] := by
  decide

/-- C6: when the call for a dependency `d` of `p` fails (after the calls for
the dependencies `pre` before it succeeded), `gplugin_manager_load_plugin`
returns `FALSE` with the error of that call, does nothing after it (its
events are those of the dependency calls), produces no event about `p`, in
particular no invocation of `p`'s loader, never invokes a loader's `unload`,
and every plugin that was loaded before the call or was reported as loaded
during it is loaded when it returns. -/
theorem load_plugin_dependency_failure (env : Env) (manager : GPluginManager) (fuel : Nat)
    (w : World) (p : Nat) (info : GPluginPluginInfo) (pre : List Nat) (d : Nat)
    (post : List Nat) (o1 o2 : Outcome)
    (hst : (w p).state ≠ GPluginPluginState.LOADED) (hinfo : (w p).info = some info)
    (hdeps : gplugin_manager_get_plugin_dependencies env manager w p = (pre ++ d :: post, none))
    (hpre : load_dependencies_loop (gplugin_manager_load_plugin env manager fuel) w pre = some o1)
    (hok : o1.ret = true)
    (hd : gplugin_manager_load_plugin env manager fuel o1.world d = some o2)
    (hfail : o2.ret = false ∨ o2.error ≠ none) :
    gplugin_manager_load_plugin env manager (fuel + 1) w p =
        some ⟨false, o2.error, o2.world, o1.events ++ o2.events⟩ ∧
      (∀ e ∈ o1.events ++ o2.events, event_plugin e ≠ p) ∧
      (∀ l, Event.loader_load l p ∉ o1.events ++ o2.events) ∧
      (∀ l q, Event.loader_unload l q ∉ o1.events ++ o2.events) ∧
      (∀ q, ((w q).state = GPluginPluginState.LOADED ∨
          ∃ old, Event.state_changed q old GPluginPluginState.LOADED ∈ o1.events ++ o2.events) →
        (o2.world q).state = GPluginPluginState.LOADED) := by
  have hdep : gplugin_manager_load_dependencies env manager
      (gplugin_manager_load_plugin env manager fuel) w p =
      some ⟨false, o2.error, o2.world, o1.events ++ o2.events⟩ := by
    simp only [gplugin_manager_load_dependencies, hdeps]
    rw [load_dependencies_loop_append _ w pre (d :: post) o1 hpre hok, load_dependencies_loop,
      hd]
    simp [hfail]
  obtain ⟨f, -, hev, -⟩ := load_dependencies_phase env manager fuel w p _ hst hdep
  have hmain := load_plugin_unfold env manager fuel w p info _ hst hinfo hdep
  simp only [if_true] at hmain
  refine ⟨hmain, hev, ?_, f.2.2.2.1, ?_⟩
  · intro l hmem
    exact hev _ hmem rfl
  · intro q hq
    rcases hq with hq | ⟨old, hq⟩
    · exact f.1 q hq
    · exact f.2.1 q old hq

/-- Plugin `0` depends on `demo/a` (plugin `1`) and `demo/b` (plugin `2`);
plugin `2` is loaded first and stays loaded when the loader then fails to
load plugin `1`; the call returns that error. -/
theorem load_plugin_dependency_failure_witness :
    ∃ o, gplugin_manager_load_plugin fail_env two_dependencies_manager 2
          two_dependencies_world 0 = some o ∧
      o.ret = false ∧ o.error = some "boom".toList ∧
      (o.world 2).state = GPluginPluginState.LOADED ∧
      (∀ l, Event.loader_load l 0 ∉ o.events) := by
  obtain ⟨o1, ho1⟩ : ∃ o1, load_dependencies_loop
      (gplugin_manager_load_plugin fail_env two_dependencies_manager 1)
      two_dependencies_world [2] = some o1 := Option.isSome_iff_exists.mp (by decide)
  have hret1 : (load_dependencies_loop
      (gplugin_manager_load_plugin fail_env two_dependencies_manager 1)
      two_dependencies_world [2]).map (fun r => (r.ret, (r.world 1).state, r.events)) =
      some (true, GPluginPluginState.QUERIED,
        [Event.loading_plugin 2, Event.loader_load 0 2,
          Event.state_changed 2 GPluginPluginState.QUERIED GPluginPluginState.LOADED,
          Event.loaded_plugin 2]) := by decide
  have hret2 : (load_dependencies_loop
      (gplugin_manager_load_plugin fail_env two_dependencies_manager 1)
      two_dependencies_world [2]).map (fun r => ((r.world 1).info, (r.world 1).loader)) =
      some (some (demo_info "demo/a" "1.0" []), some 0) := by decide
  rw [ho1] at hret1 hret2
  simp only [Option.map_some', Option.some.injEq, Prod.mk.injEq] at hret1 hret2
  obtain ⟨hok, hs1, he1⟩ := hret1
  obtain ⟨hi1, hl1⟩ := hret2
  have hload : fail_env.load o1.world 0 1 = some "boom".toList := rfl
  have hveto : fail_env.loading_plugin o1.world 1 = (true, none) := rfl
  have ho2 : gplugin_manager_load_plugin fail_env two_dependencies_manager 1 o1.world 1 =
      some ⟨false, some "boom".toList,
        (gplugin_loader_load_plugin fail_env o1.world 0 1).world,
        Event.loading_plugin 1 :: ((gplugin_loader_load_plugin fail_env o1.world 0 1).events ++
          [Event.load_plugin_failed 1])⟩ := by
    have hdep : gplugin_manager_load_dependencies fail_env two_dependencies_manager
        (gplugin_manager_load_plugin fail_env two_dependencies_manager 0) o1.world 1 =
        some ⟨true, none, o1.world, []⟩ := by
      simp [gplugin_manager_load_dependencies, gplugin_manager_get_plugin_dependencies, hi1,
        demo_info, dependencies_loop, load_dependencies_loop]
    rw [load_plugin_unfold fail_env two_dependencies_manager 0 o1.world 1 _ _
      (by rw [hs1]; decide) hi1 hdep]
    simp [gplugin_manager_load_plugin_actual, hl1, hveto, gplugin_loader_load_plugin, hload,
      g_propagate_error]
  obtain ⟨h1, h2, h3, -, h5⟩ := load_plugin_dependency_failure fail_env two_dependencies_manager
    1 two_dependencies_world 0 (demo_info "demo/p" "1.0" ["demo/a", "demo/b"]) [2] 1 [] o1 _
    (by decide) (by decide) (by decide) ho1 hok ho2 (Or.inl rfl)
  refine ⟨_, h1, rfl, rfl, ?_, ?_⟩
  · exact h5 2 (Or.inr ⟨GPluginPluginState.QUERIED, by simp [he1]⟩)
  · intro l hmem
    exact h3 l hmem

/-- C7 at a failing input: plugin `0` is queried and its only dependency
`demo/missing` cannot be resolved; `gplugin_manager_load_plugin` returns
`FALSE` with the resolution error and leaves the plugin in state `queried`
with no error recorded on it, and emits nothing. -/
theorem load_plugin_unresolved_dependency_keeps_state :
    (gplugin_manager_load_plugin demo_env missing_dependency_manager 1
        missing_dependency_world 0).map (fun o => (o.ret, o.error, o.events)) =
      some (false, some (dependency_error "demo/missing".toList (some "demo/p".toList)), []) ∧
      (gplugin_manager_load_plugin demo_env missing_dependency_manager 1
        missing_dependency_world 0).map (fun o => ((o.world 0).state, (o.world 0).error)) =
      some (GPluginPluginState.QUERIED, none) ∧
      (missing_dependency_world 0).state = GPluginPluginState.QUERIED := by
  decide

theorem unload_plugin_state_changes (env : Env) (w : World) (p : Nat) :
    (∀ q old new, Event.state_changed q old new ∈ (gplugin_manager_unload_plugin env w p).events →
        q = p ∧ old = GPluginPluginState.LOADED ∧
          ((env.unloading_plugin w p).1 = true →
            new = GPluginPluginState.QUERIED ∨ new = GPluginPluginState.UNLOAD_FAILED)) ∧
      (∀ q, ((gplugin_manager_unload_plugin env w p).world q).state = (w q).state ∨
        (q = p ∧ Event.state_changed p (w p).state
          ((gplugin_manager_unload_plugin env w p).world p).state ∈
            (gplugin_manager_unload_plugin env w p).events)) := by
  unfold gplugin_manager_unload_plugin
  by_cases hst : (w p).state = GPluginPluginState.LOADED
  · simp only [hst, ne_eq, not_true_eq_false, if_false]
    cases (w p).loader with
    | none => simp
    | some loader =>
      simp only
      by_cases hsig : (env.unloading_plugin w p).1 = false
      · simp only [hsig, if_true]
        constructor
        · intro q old new hmem
          simp [gplugin_plugin_set_state, set_plugin_error, hst] at hmem
          obtain ⟨rfl, rfl, rfl⟩ := hmem
          simp
        · intro q
          by_cases hq : q = p
          · right
            subst hq
            simp [gplugin_plugin_set_state, set_plugin_error, hst]
          · left
            simp [gplugin_plugin_set_state, set_plugin_error, hq]
      · simp only [hsig, if_false]
        unfold gplugin_loader_unload_plugin
        cases env.unload w loader p with
        | none =>
          simp only [if_true]
          constructor
          · intro q old new hmem
            simp [gplugin_plugin_set_state, hst] at hmem
            obtain ⟨rfl, rfl, rfl⟩ := hmem
            simp
          · intro q
            by_cases hq : q = p
            · right
              subst hq
              simp [gplugin_plugin_set_state, hst]
            · left
              simp [gplugin_plugin_set_state, hq]
        | some e =>
          simp only [Bool.false_eq_true, if_false]
          constructor
          · intro q old new hmem
            simp [gplugin_plugin_set_state, set_plugin_error, hst] at hmem
            obtain ⟨rfl, rfl, rfl⟩ := hmem
            simp
          · intro q
            by_cases hq : q = p
            · right
              subst hq
              simp [gplugin_plugin_set_state, set_plugin_error, hst]
            · left
              simp [gplugin_plugin_set_state, set_plugin_error, hq]
  · simp [hst]

/-- C8, as the code behaves: every state change made by
`gplugin_manager_load_plugin` (each is reported by a `state-changed` signal)
starts from a state other than `loaded` and ends in `loaded` or
`load_failed`; every state change made by `gplugin_manager_unload_plugin`
concerns the plugin being unloaded, starts from `loaded` and, when the
emission of `unloading-plugin` is not vetoed, ends in `queried` or
`unload_failed`. -/
theorem load_unload_state_changes (env : Env) (manager : GPluginManager) (fuel : Nat)
    (w : World) (p : Nat) :
    (∀ o, gplugin_manager_load_plugin env manager fuel w p = some o →
        (∀ q old new, Event.state_changed q old new ∈ o.events →
          old ≠ GPluginPluginState.LOADED ∧
            (new = GPluginPluginState.LOADED ∨ new = GPluginPluginState.LOAD_FAILED)) ∧
        (∀ q, (o.world q).state = (w q).state ∨
          ∃ old, Event.state_changed q old (o.world q).state ∈ o.events)) ∧
      (∀ q old new,
        Event.state_changed q old new ∈ (gplugin_manager_unload_plugin env w p).events →
        q = p ∧ old = GPluginPluginState.LOADED ∧
          ((env.unloading_plugin w p).1 = true →
            new = GPluginPluginState.QUERIED ∨ new = GPluginPluginState.UNLOAD_FAILED)) ∧
      (∀ q, ((gplugin_manager_unload_plugin env w p).world q).state = (w q).state ∨
        (q = p ∧ Event.state_changed p (w p).state
          ((gplugin_manager_unload_plugin env w p).world p).state ∈
            (gplugin_manager_unload_plugin env w p).events)) := by
  refine ⟨?_, (unload_plugin_state_changes env w p).1, (unload_plugin_state_changes env w p).2⟩
  intro o h
  have f := load_plugin_frame env manager fuel w p o h
  exact ⟨f.2.2.1, f.2.2.2.2.2⟩

/-- Loading the queried plugin `demo/p` changes its state from `queried` to
`loaded`, and nothing else. -/
theorem load_unload_state_changes_witness :
    ∃ o, gplugin_manager_load_plugin demo_env missing_dependency_manager 1
          (single_plugin_world GPluginPluginState.QUERIED) 0 = some o ∧
      (∀ q old new, Event.state_changed q old new ∈ o.events →
        old ≠ GPluginPluginState.LOADED ∧
          (new = GPluginPluginState.LOADED ∨ new = GPluginPluginState.LOAD_FAILED)) ∧
      o.events = [Event.loading_plugin 0, Event.loader_load 0 0,
        Event.state_changed 0 GPluginPluginState.QUERIED GPluginPluginState.LOADED,
        Event.loaded_plugin 0] := by
  obtain ⟨o, ho⟩ : ∃ o, gplugin_manager_load_plugin demo_env missing_dependency_manager 1
      (single_plugin_world GPluginPluginState.QUERIED) 0 = some o :=
    Option.isSome_iff_exists.mp (by decide)
  have hev : (gplugin_manager_load_plugin demo_env missing_dependency_manager 1
      (single_plugin_world GPluginPluginState.QUERIED) 0).map (fun o => o.events) =
      some [Event.loading_plugin 0, Event.loader_load 0 0,
        Event.state_changed 0 GPluginPluginState.QUERIED GPluginPluginState.LOADED,
        Event.loaded_plugin 0] := by decide
  rw [ho] at hev
  exact ⟨o, ho, ((load_unload_state_changes demo_env missing_dependency_manager 1
    (single_plugin_world GPluginPluginState.QUERIED) 0).1 o ho).1, by simpa using hev⟩

/-- C8 fails as stated: a vetoed `gplugin_manager_unload_plugin` takes a
loaded plugin to `load_failed`, and `gplugin_manager_load_plugin` takes a
plugin in state `unload_failed` to `loaded` (or, when vetoed, to
`load_failed`). -/
theorem load_unload_state_changes_counterexample :
    (gplugin_manager_unload_plugin veto_env (single_plugin_world GPluginPluginState.LOADED)
        0).events =
      [Event.unloading_plugin 0,
        Event.state_changed 0 GPluginPluginState.LOADED GPluginPluginState.LOAD_FAILED] ∧
      (gplugin_manager_load_plugin demo_env missing_dependency_manager 1
        (single_plugin_world GPluginPluginState.UNLOAD_FAILED) 0).map (fun o => o.events) =
      some [Event.loading_plugin 0, Event.loader_load 0 0,
        Event.state_changed 0 GPluginPluginState.UNLOAD_FAILED GPluginPluginState.LOADED,
        Event.loaded_plugin 0] ∧
      (gplugin_manager_load_plugin veto_env missing_dependency_manager 1
        (single_plugin_world GPluginPluginState.UNLOAD_FAILED) 0).map (fun o => o.events) =
      some [Event.loading_plugin 0,
        Event.state_changed 0 GPluginPluginState.UNLOAD_FAILED
          GPluginPluginState.LOAD_FAILED] := by
  decide

/-- C9: for a plugin `p` that is not loaded, has an info and a loader and
whose dependencies were loaded, a veto of `loading-plugin` with the error `e`
in the error slot makes `gplugin_manager_load_plugin` return `FALSE` with
`e`, record `e` as the error of `p` and put `p` in state `load_failed`; after
the events of the dependencies it only emits `loading-plugin` and the state
change of `p`, so `p`'s loader is not invoked and neither `loaded-plugin` nor
`load-plugin-failed` is emitted for `p`. -/
theorem load_plugin_veto (env : Env) (manager : GPluginManager) (fuel : Nat) (w : World)
    (p : Nat) (info : GPluginPluginInfo) (loader : Nat) (d : Outcome) (e : GError)
    (hst : (w p).state ≠ GPluginPluginState.LOADED) (hinfo : (w p).info = some info)
    (hloader : (w p).loader = some loader)
    (hdep : gplugin_manager_load_dependencies env manager
      (gplugin_manager_load_plugin env manager fuel) w p = some d)
    (hd : d.ret = true)
    (hveto : env.loading_plugin d.world p = (false, some e)) :
    ∃ o, gplugin_manager_load_plugin env manager (fuel + 1) w p = some o ∧
      o.ret = false ∧ o.error = some e ∧ (o.world p).error = some e ∧
      (o.world p).state = GPluginPluginState.LOAD_FAILED ∧
      o.events = d.events ++ [Event.loading_plugin p,
        Event.state_changed p (w p).state GPluginPluginState.LOAD_FAILED] ∧
      (∀ l, Event.loader_load l p ∉ o.events) ∧
      Event.loaded_plugin p ∉ o.events ∧ Event.load_plugin_failed p ∉ o.events := by
  obtain ⟨f, hsame, hev, -⟩ := load_dependencies_phase env manager fuel w p d hst hdep
  have hl : (d.world p).loader = some loader := by rw [(f.2.2.2.2.1 p).2.1]; exact hloader
  have hmain := load_plugin_unfold env manager fuel w p info d hst hinfo hdep
  simp only [hd, Bool.true_eq_false, if_false] at hmain
  have hact : gplugin_manager_load_plugin_actual env d.world p =
      ⟨false, some e,
        (gplugin_plugin_set_state (set_plugin_error d.world p (some e)) p
          GPluginPluginState.LOAD_FAILED).1,
        [Event.loading_plugin p,
          Event.state_changed p (w p).state GPluginPluginState.LOAD_FAILED]⟩ := by
    simp [gplugin_manager_load_plugin_actual, hl, hveto, gplugin_plugin_set_state,
      set_plugin_error, hsame]
  rw [hact] at hmain
  refine ⟨_, hmain, rfl, rfl, ?_, ?_, rfl, ?_, ?_, ?_⟩
  · simp [gplugin_plugin_set_state, set_plugin_error]
  · simp [gplugin_plugin_set_state]
  · intro l hmem
    simp only [List.mem_append, List.mem_cons, List.mem_singleton, reduceCtorEq,
      List.not_mem_nil, or_false] at hmem
    exact hev _ hmem rfl
  · intro hmem
    simp only [List.mem_append, List.mem_cons, List.mem_singleton, reduceCtorEq,
      List.not_mem_nil, or_false] at hmem
    exact hev _ hmem rfl
  · intro hmem
    simp only [List.mem_append, List.mem_cons, List.mem_singleton, reduceCtorEq,
      List.not_mem_nil, or_false] at hmem
    exact hev _ hmem rfl

/-- Scenario E: a handler of `loading-plugin` returns `FALSE` and writes
`forbidden` into the error slot; the call returns that error, the plugin is
in state `load_failed` and its loader is not invoked. -/
theorem load_plugin_veto_witness :
    ∃ o, gplugin_manager_load_plugin veto_env missing_dependency_manager 1
          (single_plugin_world GPluginPluginState.QUERIED) 0 = some o ∧
      o.ret = false ∧ o.error = some "forbidden".toList ∧
      (o.world 0).error = some "forbidden".toList ∧
      (o.world 0).state = GPluginPluginState.LOAD_FAILED ∧
      o.events = [] ++ [Event.loading_plugin 0,
        Event.state_changed 0 GPluginPluginState.QUERIED GPluginPluginState.LOAD_FAILED] ∧
      (∀ l, Event.loader_load l 0 ∉ o.events) ∧
      Event.loaded_plugin 0 ∉ o.events ∧ Event.load_plugin_failed 0 ∉ o.events :=
  load_plugin_veto veto_env missing_dependency_manager 0
    (single_plugin_world GPluginPluginState.QUERIED) 0 (demo_info "demo/p" "1.0" []) 0
    ⟨true, none, single_plugin_world GPluginPluginState.QUERIED, []⟩ "forbidden".toList
    (by decide) (by decide) (by decide) rfl rfl rfl

/-- C10: after a successful `gplugin_manager_load_plugin` for `p`, `p` is in
state `loaded` and a second call (with any recursion bound of at least one)
returns `TRUE` at once: no error, the same heap, no event. -/
theorem load_plugin_idempotent (env : Env) (manager : GPluginManager) (fuel : Nat) (w : World)
    (p : Nat) (o : Outcome) (h : gplugin_manager_load_plugin env manager fuel w p = some o)
    (hret : o.ret = true) (k : Nat) :
    (o.world p).state = GPluginPluginState.LOADED ∧
      gplugin_manager_load_plugin env manager (k + 1) o.world p =
        some ⟨true, none, o.world, []⟩ := by
  have hl := (load_plugin_ret env manager fuel w p o h hret).1
  exact ⟨hl, load_plugin_loaded env manager k o.world p hl⟩

/-- Scenario D: after `demo/y` has been loaded (together with `demo/b`), a
second call changes nothing. -/
theorem load_plugin_idempotent_witness :
    ∃ o, gplugin_manager_load_plugin demo_env scenario_d_manager 2 scenario_d_world 0 = some o ∧
      o.ret = true ∧ (o.world 0).state = GPluginPluginState.LOADED ∧
      gplugin_manager_load_plugin demo_env scenario_d_manager 1 o.world 0 =
        some ⟨true, none, o.world, []⟩ := by
  obtain ⟨o, ho⟩ : ∃ o, gplugin_manager_load_plugin demo_env scenario_d_manager 2
      scenario_d_world 0 = some o := Option.isSome_iff_exists.mp (by decide)
  have hret : (gplugin_manager_load_plugin demo_env scenario_d_manager 2
      scenario_d_world 0).map (fun o => o.ret) = some true := by decide
  rw [ho] at hret
  have hret' : o.ret = true := by simpa using hret
  exact ⟨o, ho, hret', load_plugin_idempotent demo_env scenario_d_manager 2 scenario_d_world 0 o
    ho hret' 0⟩

/-- The entry `demo/missing` has no alternative that selects a plugin, so the
resolution of the dependencies of plugin `0` sets an error. -/
theorem get_plugin_dependencies_fails_iff_witness :
    (gplugin_manager_get_plugin_dependencies demo_env missing_dependency_manager
        missing_dependency_world 0).2 ≠ none :=
  (get_plugin_dependencies_fails_iff demo_env missing_dependency_manager
    missing_dependency_world 0).1.mpr ⟨"demo/missing".toList, by decide, by decide⟩

/-! ### Discovery: the concrete scenarios -/

theorem refresh_loop_done (env : Env) (renv : RefreshEnv) (root : GPluginFileTree) (fuel : Nat)
    (s : RefreshState)
    (h : (refresh_round env renv root s).manager.refresh_needed = false) :
    refresh_loop env renv root (fuel + 1) s =
      some (refresh_round env renv root s, [(refresh_round env renv root s).events]) := by
  simp [refresh_loop, h]

theorem refresh_loop_stuck (env : Env) (renv : RefreshEnv) (root : GPluginFileTree)
    (s : RefreshState) (hround : refresh_round env renv root s = s)
    (hflag : s.manager.refresh_needed = true) :
    ∀ fuel, refresh_loop env renv root fuel s = none := by
  intro fuel
  induction fuel with
  | zero => rfl
  | succ fuel ih => simp [refresh_loop, hround, hflag, ih]

theorem refresh_one_pass (env : Env) (renv : RefreshEnv) (root : GPluginFileTree) (fuel : Nat)
    (manager : GPluginManager) (w : World) (next : Nat)
    (h : (refresh_round env renv root
      ⟨{ manager with refresh_needed := true }, w, next, 0, [], []⟩).manager.refresh_needed =
        false) :
    gplugin_manager_refresh env renv root (fuel + 1) manager w next =
      gplugin_manager_refresh env renv root 1 manager w next := by
  simp [gplugin_manager_refresh, refresh_loop_done env renv root _ _ h]

/-- C15, scenario A: from an empty index, with the file `a.so` and one loader
for `so` whose query gives `demo/a` (version `1.0`, no dependencies, not
loaded on query), `gplugin_manager_refresh` returns after one pass;
`gplugin_manager_list_plugins` is then exactly `demo/a`,
`gplugin_manager_find_plugin` finds for `demo/a` a plugin in state `queried`,
and no loader's `load` was invoked. -/
theorem refresh_scenario_a (fuel : Nat) :
    ((gplugin_manager_refresh demo_env scenario_a_renv scenario_a_tree (fuel + 1)
        so_manager empty_world 0).map (fun r => gplugin_manager_list_plugins r.manager)) =
      some ["demo/a".toList] ∧
    ((gplugin_manager_refresh demo_env scenario_a_renv scenario_a_tree (fuel + 1)
        so_manager empty_world 0).map (fun r => found_state r "demo/a".toList)) =
      some (some GPluginPluginState.QUERIED) ∧
    ((gplugin_manager_refresh demo_env scenario_a_renv scenario_a_tree (fuel + 1)
        so_manager empty_world 0).map (fun r => (r.passes, refresh_loads r))) =
      some ([[]], []) ∧
    so_manager.plugins = [] ∧ so_manager.plugins_filename_view = [] := by
  rw [refresh_one_pass demo_env scenario_a_renv scenario_a_tree fuel so_manager empty_world 0
    (by decide)]
  decide

/-- C12 fails as stated: in scenario B with a loader that loads every plugin,
the single pass of `gplugin_manager_refresh` loads `demo/a` (plugin `0`)
before `demo/b` (plugin `1`); with a loader that refuses `demo/a` while
`demo/b` is not loaded, `demo/a` ends in state `load_failed` and there is no
second pass. -/
theorem refresh_scenario_b_counterexample :
    ((gplugin_manager_refresh demo_env scenario_b_renv scenario_b_tree 5
        so_manager empty_world 0).map (fun r => (r.passes.length, refresh_loads r))) =
      some (1, [Event.loader_load 0 0, Event.loader_load 0 1]) ∧
    ((gplugin_manager_refresh demo_env scenario_b_renv scenario_b_tree 5
        so_manager empty_world 0).map (fun r =>
          (gplugin_manager_find_plugin r.manager "demo/a".toList,
            gplugin_manager_find_plugin r.manager "demo/b".toList))) =
      some (some 0, some 1) ∧
    ((gplugin_manager_refresh dependent_env scenario_b_renv scenario_b_tree 5
        so_manager empty_world 0).map (fun r =>
          (r.passes.length, found_state r "demo/a".toList, found_state r "demo/b".toList))) =
      some (1, some GPluginPluginState.LOAD_FAILED, some GPluginPluginState.LOADED) := by
  decide

/-- C13 at a failing input: loaders `0` (for `so`) and `1` (for `x`, whose
query fails) are registered, a refresh indexes `demo/g` from `g.so`, a
`gplugin_manager_load_plugin` of it fails, and loader `0` is unregistered.
In the next `gplugin_manager_refresh` every pass counts the failed query of
`f.x`, then finds no loader for `g.so`, takes the indexed plugin for a freshly
queried one and sets `refresh_needed` again: no number of passes ends the
loop. -/
theorem refresh_does_not_terminate :
    ((gplugin_manager_refresh refusing_env stale_renv stale_tree 5 stale_manager_registered
        empty_world 0).bind (fun r =>
          (gplugin_manager_load_plugin refusing_env r.manager 1 r.world 0).map (fun o =>
            ((gplugin_manager_unregister_loader demo_loaders r.manager 0).2.2, o.world 0,
              r.next)))) = some (stale_manager, stale_world 0, 1) ∧
    ∀ fuel, gplugin_manager_refresh refusing_env stale_renv stale_tree fuel stale_manager
      stale_world 1 = none := by
  refine ⟨by decide, ?_⟩
  intro fuel
  cases fuel with
  | zero => rfl
  | succ fuel =>
    have h1 : refresh_round refusing_env stale_renv stale_tree
        ⟨{ stale_manager with refresh_needed := true }, stale_world, 1, 0, [], []⟩ =
        stale_state := by rfl
    have h2 : refresh_round refusing_env stale_renv stale_tree stale_state = stale_state := by
      rfl
    have h3 := refresh_loop_stuck refusing_env stale_renv stale_tree stale_state h2 rfl fuel
    have hflag : stale_state.manager.refresh_needed = true := rfl
    unfold gplugin_manager_refresh
    rw [refresh_loop]
    simp only [h1, hflag, if_true, h3]

/-- C14 fails as stated: `c.so` gives the plugin `demo/c`, which is loaded on
query. A first refresh, in which the load fails, indexes plugin `0`; a second
refresh queries the file again and gets plugin `1`. The filename view then
holds plugin `1` for `/p/c.so`, while the identifier index still holds plugin
`0` (whose filename is `/p/c.so`) and not plugin `1`. -/
theorem refresh_index_counterexample :
    ((gplugin_manager_refresh refusing_env requery_renv requery_tree 5 so_manager
        empty_world 0).bind (fun r =>
          gplugin_manager_refresh demo_env requery_renv requery_tree 5 r.manager r.world
            r.next)).map (fun r =>
        (gplugin_manager_find_plugins r.manager "demo/c".toList,
          lookup_handle r.manager.plugins_filename_view "/p/c.so".toList,
          (r.world 0).filename, id_of r.world 1)) =
      some ([0], some 1, some "/p/c.so".toList, some "demo/c".toList) := by
  decide

/-- C16 fails as stated: in the second refresh of `c.so` the query succeeds,
the plugin is loaded on query and the load succeeds, so the plugin that the
filename view holds for the file is in state `loaded`; but
`gplugin_manager_find_plugin` for its id returns the plugin of the first
refresh, which is in state `load_failed`. -/
theorem refresh_load_on_query_counterexample :
    ((gplugin_manager_refresh refusing_env requery_renv requery_tree 5 so_manager
        empty_world 0).bind (fun r =>
          gplugin_manager_refresh demo_env requery_renv requery_tree 5 r.manager r.world
            r.next)).map (fun r =>
        (viewed_state r "/p/c.so".toList, found_state r "demo/c".toList, refresh_loads r)) =
      some (some GPluginPluginState.LOADED, some GPluginPluginState.LOAD_FAILED,
        [Event.loader_load 0 1]) := by
  decide

/-! ### Unloading -/

/-- C11: `gplugin_manager_unload_plugin` for `p` invokes a loader's `unload`
only for `p` and on `p`'s own loader, invokes no `load`, and leaves every
other plugin object as it was, so the plugins that `p` depends on keep their
state; when `p` is not in state `loaded` it returns `TRUE` without an error,
with the same heap and without any event. -/
theorem unload_plugin_frame (env : Env) (manager : GPluginManager) (w : World) (p : Nat) :
    (∀ l q, Event.loader_unload l q ∈ (gplugin_manager_unload_plugin env w p).events →
        q = p ∧ (w p).loader = some l) ∧
      (∀ l q, Event.loader_load l q ∉ (gplugin_manager_unload_plugin env w p).events) ∧
      (∀ q, q ≠ p → (gplugin_manager_unload_plugin env w p).world q = w q) ∧
      (∀ q ∈ (gplugin_manager_get_plugin_dependencies env manager w p).1, q ≠ p →
        (w q).state = GPluginPluginState.LOADED →
        ((gplugin_manager_unload_plugin env w p).world q).state = GPluginPluginState.LOADED) ∧
      ((w p).state ≠ GPluginPluginState.LOADED →
        gplugin_manager_unload_plugin env w p = ⟨true, none, w, []⟩) := by
  have hother : ∀ q, q ≠ p → (gplugin_manager_unload_plugin env w p).world q = w q := by
    intro q hq
    unfold gplugin_manager_unload_plugin gplugin_loader_unload_plugin
    by_cases hst : (w p).state = GPluginPluginState.LOADED
    · simp only [hst, ne_eq, not_true_eq_false, if_false]
      cases (w p).loader with
      | none => rfl
      | some loader =>
        simp only
        by_cases hsig : (env.unloading_plugin w p).1 = false
        · simp [hsig, gplugin_plugin_set_state, set_plugin_error, hq]
        · simp only [hsig, if_false]
          cases env.unload w loader p <;>
            simp [gplugin_plugin_set_state, set_plugin_error, hq]
    · simp [hst]
  refine ⟨?_, ?_, hother, ?_, ?_⟩
  · intro l q hmem
    unfold gplugin_manager_unload_plugin gplugin_loader_unload_plugin at hmem
    by_cases hst : (w p).state = GPluginPluginState.LOADED
    · simp only [hst, ne_eq, not_true_eq_false, if_false] at hmem
      cases hl : (w p).loader with
      | none => rw [hl] at hmem; simp at hmem
      | some loader =>
        rw [hl] at hmem
        simp only at hmem
        by_cases hsig : (env.unloading_plugin w p).1 = false
        · simp [hsig, gplugin_plugin_set_state] at hmem
        · simp only [hsig, if_false] at hmem
          cases hu : env.unload w loader p <;>
            · rw [hu] at hmem
              simp [gplugin_plugin_set_state] at hmem
              obtain ⟨rfl, rfl⟩ := hmem
              exact ⟨rfl, rfl⟩
    · simp [hst] at hmem
  · intro l q hmem
    unfold gplugin_manager_unload_plugin gplugin_loader_unload_plugin at hmem
    by_cases hst : (w p).state = GPluginPluginState.LOADED
    · simp only [hst, ne_eq, not_true_eq_false, if_false] at hmem
      cases hl : (w p).loader with
      | none => rw [hl] at hmem; simp at hmem
      | some loader =>
        rw [hl] at hmem
        simp only at hmem
        by_cases hsig : (env.unloading_plugin w p).1 = false
        · simp [hsig, gplugin_plugin_set_state] at hmem
        · simp only [hsig, if_false] at hmem
          cases hu : env.unload w loader p <;>
            · rw [hu] at hmem
              simp [gplugin_plugin_set_state] at hmem
    · simp [hst] at hmem
  · intro q _ hq hst
    rw [hother q hq]
    exact hst
  · intro hst
    simp [gplugin_manager_unload_plugin, hst]

/-- Scenario F in the setting of scenario D: after `demo/y` and its dependency
`demo/b` have been loaded, unloading `demo/y` succeeds, leaves `demo/y` in
state `queried` and `demo/b` in state `loaded`, and invokes `unload` only for
`demo/y`. -/
theorem unload_plugin_frame_witness :
    ∃ o, gplugin_manager_load_plugin demo_env scenario_d_manager 2 scenario_d_world 0 = some o ∧
      (o.world 1).state = GPluginPluginState.LOADED ∧
      ((gplugin_manager_unload_plugin demo_env o.world 0).world 1).state =
        GPluginPluginState.LOADED ∧
      (∀ l q, Event.loader_unload l q ∈ (gplugin_manager_unload_plugin demo_env o.world 0).events →
        q = 0 ∧ (o.world 0).loader = some l) := by
  obtain ⟨o, ho⟩ : ∃ o, gplugin_manager_load_plugin demo_env scenario_d_manager 2
      scenario_d_world 0 = some o := Option.isSome_iff_exists.mp (by decide)
  have hs : (gplugin_manager_load_plugin demo_env scenario_d_manager 2
      scenario_d_world 0).map (fun o => (o.world 1).state) =
      some GPluginPluginState.LOADED := by decide
  rw [ho] at hs
  have hs' : (o.world 1).state = GPluginPluginState.LOADED := by simpa using hs
  have h := unload_plugin_frame demo_env scenario_d_manager o.world 0
  refine ⟨o, ho, hs', ?_, h.1⟩
  rw [h.2.2.1 1 (by decide)]
  exact hs'

/-! ### The loader registry -/

theorem lookup_list_insert (table : List (Str × List Nat)) (key key' : Str) (value : List Nat) :
    lookup_list (hash_table_insert table key value) key' =
      if key' = key then value else lookup_list table key' := by
  induction table with
  | nil =>
    by_cases h : key' = key
    · simp [hash_table_insert, lookup_list, h]
    · simp [hash_table_insert, lookup_list, h, Ne.symm h]
  | cons e table ih =>
    obtain ⟨k, v⟩ := e
    by_cases hk : k = key
    · subst hk
      by_cases h : key' = k
      · simp [hash_table_insert, lookup_list, h]
      · simp [hash_table_insert, lookup_list, h, Ne.symm h]
    · by_cases h : key' = key
      · subst h
        simp [hash_table_insert, lookup_list, hk, ih]
      · by_cases hk' : k = key'
        · simp [hash_table_insert, lookup_list, hk, hk', h]
        · simp [hash_table_insert, lookup_list, hk, hk', h, ih]

theorem lookup_handle_insert (table : List (Str × Nat)) (key key' : Str) (value : Nat) :
    lookup_handle (hash_table_insert table key value) key' =
      if key' = key then some value else lookup_handle table key' := by
  induction table with
  | nil =>
    by_cases h : key' = key
    · simp [hash_table_insert, lookup_handle, h]
    · simp [hash_table_insert, lookup_handle, h, Ne.symm h]
  | cons e table ih =>
    obtain ⟨k, v⟩ := e
    by_cases hk : k = key
    · subst hk
      by_cases h : key' = k
      · simp [hash_table_insert, lookup_handle, h]
      · simp [hash_table_insert, lookup_handle, h, Ne.symm h]
    · by_cases h : key' = key
      · subst h
        simp [hash_table_insert, lookup_handle, hk, ih]
      · by_cases hk' : k = key'
        · simp [hash_table_insert, lookup_handle, hk, hk', h]
        · simp [hash_table_insert, lookup_handle, hk, hk', h, ih]

/-- C17 at a failing input: loader `2` claims the extensions `so` and `py`.
After it has been registered with the empty manager and unregistered again,
the loaders-by-id map is empty, but the sequence stored under `py` still
holds the loader: every round of the loop in
`gplugin_manager_unregister_loader` reads the first extension. -/
theorem register_unregister_keeps_extension :
    (demo_loaders 2).supported_extensions = ["so".toList, "py".toList] ∧
      (gplugin_manager_register_loader demo_loaders empty_manager 2).1 = true ∧
      (gplugin_manager_register_loader demo_loaders empty_manager 2).2.2.loaders_by_extension =
        [("so".toList, [2]), ("py".toList, [2])] ∧
      gplugin_manager_unregister_loader demo_loaders
          (gplugin_manager_register_loader demo_loaders empty_manager 2).2.2 2 =
        (true, none, ⟨[], [], [], [], [("py".toList, [2])], true⟩) := by
  decide

/-- C18: `gplugin_manager_register_loader` fails exactly when the
loaders-by-id map already holds the loader's id; it then sets an error and
leaves the whole manager (both maps and `refresh_needed`) as it was, and when
it succeeds it sets no error. `gplugin_manager_unregister_loader` fails
exactly when the loader's id is not in the map, and then sets an error and
leaves the manager as it was. -/
theorem register_loader_conflict (loaders : LoaderHeap) (manager : GPluginManager) (b : Nat) :
    ((gplugin_manager_register_loader loaders manager b).1 = false ↔
        lookup_handle manager.loaders (loaders b).id ≠ none) ∧
      ((gplugin_manager_register_loader loaders manager b).1 = false ∧
          (gplugin_manager_register_loader loaders manager b).2.1 ≠ none ∧
          (gplugin_manager_register_loader loaders manager b).2.2 = manager ∨
        (gplugin_manager_register_loader loaders manager b).1 = true ∧
          (gplugin_manager_register_loader loaders manager b).2.1 = none) ∧
      ((gplugin_manager_unregister_loader loaders manager b).1 = false ↔
        lookup_handle manager.loaders (loaders b).id = none) ∧
      ((gplugin_manager_unregister_loader loaders manager b).1 = false ∧
          (gplugin_manager_unregister_loader loaders manager b).2.1 ≠ none ∧
          (gplugin_manager_unregister_loader loaders manager b).2.2 = manager ∨
        (gplugin_manager_unregister_loader loaders manager b).1 = true ∧
          (gplugin_manager_unregister_loader loaders manager b).2.1 = none) := by
  unfold gplugin_manager_register_loader gplugin_manager_unregister_loader
  cases h : lookup_handle manager.loaders (loaders b).id <;> simp [h]

/-- Registering loader `0` twice fails the second time and changes nothing;
unregistering loader `1`, which is not registered, fails and changes nothing. -/
theorem register_loader_conflict_witness :
    lookup_handle so_manager.loaders (demo_loaders 0).id ≠ none ∧
      gplugin_manager_register_loader demo_loaders so_manager 0 =
        (false, some "loader so-loader was already registered".toList, so_manager) ∧
      gplugin_manager_unregister_loader demo_loaders so_manager 1 =
        (false, some "loader x-loader is not registered".toList, so_manager) := by
  have h := register_loader_conflict demo_loaders so_manager 0
  exact ⟨h.1.mp (by decide), by decide, by decide⟩

theorem remove_old_copy_head (loaders : LoaderHeap) (b : Nat) (l : List Nat) :
    remove_old_copy loaders (loaders b).id (b :: l) = l := by
  simp [remove_old_copy, List.find?]

theorem remove_old_copy_other (loaders : LoaderHeap) (id : Str) (a : Nat) (l : List Nat)
    (h : (loaders a).id ≠ id) :
    remove_old_copy loaders id (a :: l) = a :: remove_old_copy loaders id l := by
  unfold remove_old_copy
  simp only [List.find?, h, decide_False]
  cases hf : l.find? (fun iter => decide ((loaders iter).id = id)) with
  | none => rfl
  | some iter =>
    simp only
    have hid : (loaders iter).id = id := by
      have := List.find?_some hf
      simpa using this
    have hne : a ≠ iter := fun e => h (e ▸ hid)
    simp [List.erase_cons, hne]

theorem remove_old_copy_filter (loaders : LoaderHeap) (id : Str) (l : List Nat) :
    (remove_old_copy loaders id l).filter (fun x => decide ((loaders x).id ≠ id)) =
      l.filter (fun x => decide ((loaders x).id ≠ id)) ∧
    (remove_old_copy loaders id l).Sublist l := by
  induction l with
  | nil => simp [remove_old_copy]
  | cons a l ih =>
    by_cases h : (loaders a).id = id
    · subst h
      rw [remove_old_copy_head]
      simp
    · rw [remove_old_copy_other loaders id a l h]
      refine ⟨?_, List.Sublist.cons₂ a ih.2⟩
      simp only [List.filter_cons, ih.1]

theorem lookup_register_extensions (loaders : LoaderHeap) (b : Nat) (exts : List Str) :
    ∀ (table : List (Str × List Nat)) (e : Str),
      lookup_list (register_extensions loaders b (loaders b).id exts table) e =
        if e ∈ exts then b :: remove_old_copy loaders (loaders b).id (lookup_list table e)
        else lookup_list table e := by
  induction exts with
  | nil => intro table e; simp [register_extensions]
  | cons x exts ih =>
    intro table e
    rw [register_extensions, ih, lookup_list_insert]
    by_cases hx : e = x
    · subst hx
      by_cases hin : e ∈ exts
      · simp [hin, remove_old_copy_head]
      · simp [hin]
    · by_cases hin : e ∈ exts
      · simp [hx, hin]
      · simp [hx, hin]

/-- C19: a successful `gplugin_manager_register_loader` of `b` puts `b` at
the head of the sequence of every extension that `b` supports, followed by
the sequence stored before without the first loader that has `b`'s id, hence
with all loaders of other ids in their previous order; it leaves the
sequences of the other extensions alone and sets `refresh_needed`. When two
loaders `a` and `b` with distinct ids that both claim `e` are registered one
after the other, the sequence of `e` starts with `b`, followed by `a`. -/
theorem register_loader_prepends (loaders : LoaderHeap) (manager : GPluginManager) (b : Nat)
    (h : lookup_handle manager.loaders (loaders b).id = none) :
    (gplugin_manager_register_loader loaders manager b).1 = true ∧
      (gplugin_manager_register_loader loaders manager b).2.2.refresh_needed = true ∧
      (∀ e ∈ (loaders b).supported_extensions,
        lookup_list (gplugin_manager_register_loader loaders manager b).2.2.loaders_by_extension e =
          b :: remove_old_copy loaders (loaders b).id
            (lookup_list manager.loaders_by_extension e) ∧
        (remove_old_copy loaders (loaders b).id
            (lookup_list manager.loaders_by_extension e)).filter
            (fun x => decide ((loaders x).id ≠ (loaders b).id)) =
          (lookup_list manager.loaders_by_extension e).filter
            (fun x => decide ((loaders x).id ≠ (loaders b).id)) ∧
        (remove_old_copy loaders (loaders b).id
          (lookup_list manager.loaders_by_extension e)).Sublist
            (lookup_list manager.loaders_by_extension e)) ∧
      (∀ e, e ∉ (loaders b).supported_extensions →
        lookup_list (gplugin_manager_register_loader loaders manager b).2.2.loaders_by_extension e =
          lookup_list manager.loaders_by_extension e) ∧
      (∀ a e, lookup_handle manager.loaders (loaders a).id = none →
        (loaders a).id ≠ (loaders b).id →
        e ∈ (loaders a).supported_extensions → e ∈ (loaders b).supported_extensions →
        ∃ rest,
          lookup_list (gplugin_manager_register_loader loaders
            (gplugin_manager_register_loader loaders manager a).2.2 b).2.2.loaders_by_extension e =
            b :: a :: rest) := by
  have hreg : ∀ (m : GPluginManager) (c : Nat), lookup_handle m.loaders (loaders c).id = none →
      gplugin_manager_register_loader loaders m c =
        (true, none,
          { m with
            loaders := hash_table_insert m.loaders (loaders c).id c
            loaders_by_extension :=
              register_extensions loaders c (loaders c).id (loaders c).supported_extensions
                m.loaders_by_extension
            refresh_needed := true }) := by
    intro m c hc
    simp [gplugin_manager_register_loader, hc]
  refine ⟨by rw [hreg manager b h], by rw [hreg manager b h], ?_, ?_, ?_⟩
  · intro e he
    rw [hreg manager b h]
    refine ⟨?_, remove_old_copy_filter loaders _ _⟩
    simp only [lookup_register_extensions, he, if_true]
  · intro e he
    rw [hreg manager b h]
    simp only [lookup_register_extensions, he, if_false]
  · intro a e ha hne hea heb
    rw [hreg manager a ha]
    have hb' : lookup_handle (hash_table_insert manager.loaders (loaders a).id a)
        (loaders b).id = none := by
      rw [lookup_handle_insert]
      simp [Ne.symm hne, h]
    rw [hreg _ b hb']
    simp only [lookup_register_extensions, hea, heb, if_true]
    rw [remove_old_copy_other loaders (loaders b).id a _ hne]
    exact ⟨_, rfl⟩

/-- Loader `0` and then loader `3`, which both claim `so`, are registered:
the sequence of `so` lists loader `3` before loader `0`. -/
theorem register_loader_prepends_witness :
    lookup_handle so_manager.loaders (demo_loaders 3).id = none ∧
      lookup_list (gplugin_manager_register_loader demo_loaders so_manager
        3).2.2.loaders_by_extension "so".toList = [3, 0] := by
  have h := register_loader_prepends demo_loaders so_manager 3 (by decide)
  refine ⟨by decide, ?_⟩
  rw [(h.2.2.1 "so".toList (by decide)).1]
  decide

/-! ### The newest version -/

theorem newest_version_loop_spec (env : Env) (w : World)
    (hanti : ∀ a b, env.gplugin_version_compare a b < 0 ↔ 0 < env.gplugin_version_compare b a)
    (htrans : ∀ a b c, env.gplugin_version_compare a b ≤ 0 →
      env.gplugin_version_compare b c ≤ 0 → env.gplugin_version_compare a c ≤ 0) :
    ∀ (l pre : List Nat) (a : Nat) (post : List Nat),
      (∀ q ∈ pre, env.gplugin_version_compare (found_version w q) (found_version w a) < 0) →
      (∀ q ∈ post, env.gplugin_version_compare (found_version w q) (found_version w a) ≤ 0) →
      ∃ r pre' post', newest_version_loop env w l (some a) = some r ∧
        pre ++ a :: post ++ l = pre' ++ r :: post' ∧
        (∀ q ∈ pre', env.gplugin_version_compare (found_version w q) (found_version w r) < 0) ∧
        (∀ q ∈ post', env.gplugin_version_compare (found_version w q) (found_version w r) ≤ 0) := by
  intro l
  induction l with
  | nil =>
    intro pre a post hpre hpost
    exact ⟨a, pre, post, rfl, by simp, hpre, hpost⟩
  | cons b l ih =>
    intro pre a post hpre hpost
    rw [newest_version_loop]
    by_cases hlt : env.gplugin_version_compare (found_version w a) (found_version w b) < 0
    · simp only [hlt, if_true]
      have hrefl : env.gplugin_version_compare (found_version w a) (found_version w a) ≤ 0 := by
        have := hanti (found_version w a) (found_version w a)
        omega
      have hstrict : ∀ q, env.gplugin_version_compare (found_version w q) (found_version w a) ≤ 0 →
          env.gplugin_version_compare (found_version w q) (found_version w b) < 0 := by
        intro q hq
        by_contra hnot
        have h1 : env.gplugin_version_compare (found_version w b) (found_version w q) ≤ 0 := by
          have := hanti (found_version w b) (found_version w q)
          have := hanti (found_version w q) (found_version w b)
          omega
        have h2 := htrans _ _ _ h1 hq
        have := hanti (found_version w a) (found_version w b)
        omega
      obtain ⟨r, pre', post', hr, heq, h1, h2⟩ := ih (pre ++ a :: post) b [] (by
        intro q hq
        rcases List.mem_append.mp hq with hq | hq
        · exact hstrict q (le_of_lt (hpre q hq))
        · rcases List.mem_cons.mp hq with rfl | hq
          · exact hlt
          · exact hstrict q (hpost q hq)) (by simp)
      exact ⟨r, pre', post', hr, by simpa using heq, h1, h2⟩
    · simp only [hlt, if_false]
      have hb : env.gplugin_version_compare (found_version w b) (found_version w a) ≤ 0 := by
        have := hanti (found_version w b) (found_version w a)
        have := hanti (found_version w a) (found_version w b)
        omega
      obtain ⟨r, pre', post', hr, heq, h1, h2⟩ := ih pre a (post ++ [b]) hpre (by
        intro q hq
        rcases List.mem_append.mp hq with hq | hq
        · exact hpost q hq
        · rw [List.mem_singleton] at hq
          subst hq
          exact hb)
      exact ⟨r, pre', post', hr, by simpa using heq, h1, h2⟩

/-- C20: when `gplugin_version_compare` is a total preorder (the sign of
`compare(b, a)` is opposite to the sign of `compare(a, b)`, and `≤` is
transitive), `gplugin_manager_find_plugin_with_newest_version` returns `NULL`
exactly when `gplugin_manager_find_plugins` is empty, and otherwise an element
of that list such that every element before it has a strictly older version
and every element after it has an older or equal version. -/
theorem find_plugin_with_newest_version_spec (env : Env) (manager : GPluginManager) (w : World)
    (id : Str)
    (hanti : ∀ a b, env.gplugin_version_compare a b < 0 ↔ 0 < env.gplugin_version_compare b a)
    (htrans : ∀ a b c, env.gplugin_version_compare a b ≤ 0 →
      env.gplugin_version_compare b c ≤ 0 → env.gplugin_version_compare a c ≤ 0) :
    (gplugin_manager_find_plugin_with_newest_version env manager w id = none ↔
        gplugin_manager_find_plugins manager id = []) ∧
      (∀ r, gplugin_manager_find_plugin_with_newest_version env manager w id = some r →
        ∃ pre post, gplugin_manager_find_plugins manager id = pre ++ r :: post ∧
          (∀ q ∈ pre,
            env.gplugin_version_compare (found_version w q) (found_version w r) < 0) ∧
          (∀ q ∈ post,
            env.gplugin_version_compare (found_version w q) (found_version w r) ≤ 0) ∧
          (∀ q ∈ gplugin_manager_find_plugins manager id,
            env.gplugin_version_compare (found_version w q) (found_version w r) ≤ 0)) := by
  unfold gplugin_manager_find_plugin_with_newest_version
  cases hl : gplugin_manager_find_plugins manager id with
  | nil => simp [newest_version_loop]
  | cons a l =>
    obtain ⟨r, pre', post', hr, heq, h1, h2⟩ :=
      newest_version_loop_spec env w hanti htrans l [] a [] (by simp) (by simp)
    rw [newest_version_loop, hr]
    refine ⟨by simp, ?_⟩
    intro r' hr'
    simp only [Option.some.injEq] at hr'
    subst hr'
    have heq' : a :: l = pre' ++ r :: post' := by simpa using heq
    refine ⟨pre', post', heq', h1, h2, ?_⟩
    intro q hq
    rw [heq'] at hq
    rcases List.mem_append.mp hq with hq | hq
    · exact le_of_lt (h1 q hq)
    · rcases List.mem_cons.mp hq with rfl | hq
      · have := hanti (found_version w q) (found_version w q)
        omega
      · exact h2 q hq

/-- With versions compared by their written length, `demo/lib` at `1.5`,
`2.10`, `1` and `3.00` has the newest version at `2.10`, the earlier of the
two longest. -/
theorem find_plugin_with_newest_version_spec_witness :
    gplugin_manager_find_plugin_with_newest_version length_env versions_manager versions_world
        "demo/lib".toList = some 1 ∧
      ∃ pre post, gplugin_manager_find_plugins versions_manager "demo/lib".toList =
          pre ++ 1 :: post ∧
        (∀ q ∈ pre, length_env.gplugin_version_compare (found_version versions_world q)
          (found_version versions_world 1) < 0) ∧
        (∀ q ∈ post, length_env.gplugin_version_compare (found_version versions_world q)
          (found_version versions_world 1) ≤ 0) := by
  have h := find_plugin_with_newest_version_spec length_env versions_manager versions_world
    "demo/lib".toList
    (by intro a b; simp only [length_env]; omega)
    (by intro a b c; simp only [length_env]; omega)
  have hr : gplugin_manager_find_plugin_with_newest_version length_env versions_manager
      versions_world "demo/lib".toList = some 1 := by decide
  obtain ⟨pre, post, h1, h2, h3, -⟩ := h.2 1 hr
  exact ⟨hr, pre, post, h1, h2, h3⟩

/-! ### Discovery: what a refresh depends on and preserves -/

theorem loader_load_plugin_congr (env env' : Env)
    (h : ∀ w l p, env.load w l p = env'.load w l p) (w : World) (l p : Nat) :
    gplugin_loader_load_plugin env w l p = gplugin_loader_load_plugin env' w l p := by
  simp only [gplugin_loader_load_plugin, h]

theorem refresh_good_plugin_congr (env env' : Env)
    (h : ∀ w l p, env.load w l p = env'.load w l p) (filename : Str) (plugin : Nat)
    (loader : Option Nat) (s : RefreshState) :
    refresh_good_plugin env filename plugin loader s =
      refresh_good_plugin env' filename plugin loader s := by
  simp only [refresh_good_plugin, loader_load_plugin_congr env env' h]

theorem refresh_file_congr (env env' : Env)
    (h : ∀ w l p, env.load w l p = env'.load w l p) (renv : RefreshEnv) (path : Str)
    (e : GPluginFileTreeEntry) (s : RefreshState) :
    refresh_file env renv path e s = refresh_file env' renv path e s := by
  simp only [refresh_file, refresh_good_plugin_congr env env' h]

theorem refresh_files_congr (env env' : Env)
    (h : ∀ w l p, env.load w l p = env'.load w l p) (renv : RefreshEnv) (path : Str)
    (files : List GPluginFileTreeEntry) (s : RefreshState) :
    refresh_files env renv path files s = refresh_files env' renv path files s := by
  induction files generalizing s with
  | nil => rfl
  | cons e files ih => simp only [refresh_files, refresh_file_congr env env' h, ih]

theorem refresh_pass_congr (env env' : Env)
    (h : ∀ w l p, env.load w l p = env'.load w l p) (renv : RefreshEnv)
    (root : GPluginFileTree) (s : RefreshState) :
    refresh_pass env renv root s = refresh_pass env' renv root s := by
  induction root generalizing s with
  | nil => rfl
  | cons d root ih =>
    obtain ⟨dir, files⟩ := d
    simp only [refresh_pass, refresh_files_congr env env' h, ih]

theorem refresh_loop_congr (env env' : Env)
    (h : ∀ w l p, env.load w l p = env'.load w l p) (renv : RefreshEnv)
    (root : GPluginFileTree) (fuel : Nat) (s : RefreshState) :
    refresh_loop env renv root fuel s = refresh_loop env' renv root fuel s := by
  induction fuel generalizing s with
  | zero => rfl
  | succ fuel ih =>
    simp only [refresh_loop, refresh_round, refresh_pass_congr env env' h, ih]

theorem refresh_congr (env env' : Env)
    (h : ∀ w l p, env.load w l p = env'.load w l p) (renv : RefreshEnv)
    (root : GPluginFileTree) (fuel : Nat) (manager : GPluginManager) (w : World) (next : Nat) :
    gplugin_manager_refresh env renv root fuel manager w next =
      gplugin_manager_refresh env' renv root fuel manager w next := by
  simp only [gplugin_manager_refresh, refresh_loop_congr env env' h]

/-- C12, as the code behaves: in scenario B with a loader whose `load`
succeeds, a single `gplugin_manager_refresh` makes exactly one pass, in which
the loader's `load` is invoked for `demo/a` when `a.so` is visited and then
for `demo/b` when `b.so` is visited (dependencies are not resolved by
refresh); both plugins end in state `loaded`. -/
theorem refresh_scenario_b (env : Env) (fuel : Nat) (hload : ∀ w l p, env.load w l p = none) :
    ((gplugin_manager_refresh env scenario_b_renv scenario_b_tree (fuel + 1)
        so_manager empty_world 0).map (fun r => (r.passes.length, refresh_loads r))) =
      some (1, [Event.loader_load 0 0, Event.loader_load 0 1]) ∧
    ((gplugin_manager_refresh env scenario_b_renv scenario_b_tree (fuel + 1)
        so_manager empty_world 0).map (fun r =>
          (gplugin_manager_find_plugin r.manager "demo/a".toList,
            gplugin_manager_find_plugin r.manager "demo/b".toList))) =
      some (some 0, some 1) ∧
    ((gplugin_manager_refresh env scenario_b_renv scenario_b_tree (fuel + 1)
        so_manager empty_world 0).map (fun r =>
          (found_state r "demo/a".toList, found_state r "demo/b".toList))) =
      some (some GPluginPluginState.LOADED, some GPluginPluginState.LOADED) := by
  rw [refresh_congr env demo_env (fun w l p => by rw [hload]; rfl),
    refresh_one_pass demo_env scenario_b_renv scenario_b_tree fuel so_manager empty_world 0
      (by decide)]
  decide

/-- Scenario B with the loader of `demo_env`, which loads every plugin. -/
theorem refresh_scenario_b_witness :
    (∀ w l p, demo_env.load w l p = none) ∧
      ((gplugin_manager_refresh demo_env scenario_b_renv scenario_b_tree 1
        so_manager empty_world 0).map (fun r => (r.passes.length, refresh_loads r))) =
      some (1, [Event.loader_load 0 0, Event.loader_load 0 1]) :=
  ⟨fun _ _ _ => rfl, (refresh_scenario_b demo_env 0 (fun _ _ _ => rfl)).1⟩

/-! ### Discovery: the two indexes -/

theorem query_loop_spec (renv : RefreshEnv) (filename : Str) :
    ∀ (loaders : List Nat) (s : RefreshState) (p0 l0 : Option Nat),
      (query_loop renv filename loaders s p0 l0).2.2.manager = s.manager ∧
      (query_loop renv filename loaders s p0 l0).2.2.events = s.events ∧
      (((query_loop renv filename loaders s p0 l0).2.2.world = s.world ∧
          (query_loop renv filename loaders s p0 l0).2.2.next = s.next ∧
          ((query_loop renv filename loaders s p0 l0).1 = none ∨
            (loaders = [] ∧ (query_loop renv filename loaders s p0 l0).1 = p0 ∧
              (query_loop renv filename loaders s p0 l0).2.1 = l0))) ∨
        (∃ l info, l ∈ loaders ∧
          (query_loop renv filename loaders s p0 l0).1 = some s.next ∧
          (query_loop renv filename loaders s p0 l0).2.1 = some l ∧
          (query_loop renv filename loaders s p0 l0).2.2.next = s.next + 1 ∧
          (query_loop renv filename loaders s p0 l0).2.2.world =
            (fun q => if q = s.next then
              ⟨some filename, some l, some info, GPluginPluginState.QUERIED, none⟩
              else s.world q))) := by
  intro loaders
  induction loaders with
  | nil =>
    intro s p0 l0
    simp [query_loop]
  | cons l rest ih =>
    intro s p0 l0
    rw [query_loop]
    unfold gplugin_loader_query_plugin
    cases hq : renv.query s.world l filename with
    | error e =>
      simp only
      obtain ⟨h1, h2, h3⟩ := ih
        { s with
          errors := s.errors + 1
          error_messages := Diagnostic.query_failed filename l e :: s.error_messages } none none
      refine ⟨h1, h2, ?_⟩
      rcases h3 with ⟨hw, hn, hp⟩ | ⟨l', info, hl', hp, hl, hn, hw⟩
      · left
        refine ⟨hw, hn, ?_⟩
        rcases hp with hp | ⟨-, hp, -⟩
        · exact Or.inl hp
        · exact Or.inl hp
      · right
        exact ⟨l', info, List.mem_cons_of_mem l hl', hp, hl, hn, hw⟩
    | nothing =>
      simp only
      obtain ⟨h1, h2, h3⟩ := ih s none none
      refine ⟨h1, h2, ?_⟩
      rcases h3 with ⟨hw, hn, hp⟩ | ⟨l', info, hl', hp, hl, hn, hw⟩
      · left
        refine ⟨hw, hn, ?_⟩
        rcases hp with hp | ⟨-, hp, -⟩
        · exact Or.inl hp
        · exact Or.inl hp
      · right
        exact ⟨l', info, List.mem_cons_of_mem l hl', hp, hl, hn, hw⟩
    | plugin info =>
      exact ⟨rfl, rfl, Or.inr ⟨l, info, List.mem_cons_self l rest, rfl, rfl, rfl, rfl⟩⟩

theorem loader_load_plugin_fields (env : Env) (w : World) (l p q : Nat) :
    ((gplugin_loader_load_plugin env w l p).world q).filename = (w q).filename ∧
      ((gplugin_loader_load_plugin env w l p).world q).info = (w q).info ∧
      (q ≠ p → (gplugin_loader_load_plugin env w l p).world q = w q) := by
  unfold gplugin_loader_load_plugin
  cases env.load w l p <;>
    by_cases h : q = p <;> simp [gplugin_plugin_set_state, set_plugin_error, h]

theorem index_inv_congr (manager : GPluginManager) (w w' : World) (next next' : Nat)
    (hle : next ≤ next')
    (hw : ∀ q, q < next → (w' q).filename = (w q).filename ∧ (w' q).info = (w q).info)
    (h : index_inv manager w next) : index_inv manager w' next' := by
  obtain ⟨ha, hb, hc⟩ := h
  have hid : ∀ q, q < next → id_of w' q = id_of w q := by
    intro q hq
    simp [id_of, (hw q hq).2]
  refine ⟨?_, ?_, ?_⟩
  · intro k h hl
    obtain ⟨h1, h2⟩ := ha k h hl
    exact ⟨lt_of_lt_of_le h1 hle, by rw [(hw h h1).1]; exact h2⟩
  · intro id h hm
    obtain ⟨h1, h2, h3⟩ := hb id h hm
    refine ⟨lt_of_lt_of_le h1 hle, by rw [hid h h1]; exact h2, ?_⟩
    rw [(hw h h1).1]
    exact h3
  · intro k h id hl hi
    obtain ⟨h1, -⟩ := ha k h hl
    rw [hid h h1] at hi
    obtain ⟨h', hm, hf⟩ := hc k h id hl hi
    exact ⟨h', hm, by rw [(hw h' (hb id h' hm).1).1]; exact hf⟩

theorem index_inv_flag (manager : GPluginManager) (w : World) (next : Nat) (flag : Bool)
    (h : index_inv manager w next) :
    index_inv { manager with refresh_needed := flag } w next := h

theorem index_inv_insert (manager : GPluginManager) (w : World) (next : Nat) (plugin : Nat)
    (f id : Str) (hp : plugin < next) (hf : (w plugin).filename = some f)
    (hi : id_of w plugin = some id) (h : index_inv manager w next) :
    index_inv
      { manager with
        plugins_filename_view := hash_table_insert manager.plugins_filename_view f plugin
        plugins :=
          if (lookup_list manager.plugins id).any
              (fun splugin => decide ((w splugin).filename = some f)) = true then
            manager.plugins
          else hash_table_insert manager.plugins id (plugin :: lookup_list manager.plugins id) }
      w next := by
  obtain ⟨ha, hb, hc⟩ := h
  have hview : ∀ k, (∃ x, lookup_handle manager.plugins_filename_view k = some x) →
      ∃ x, lookup_handle (hash_table_insert manager.plugins_filename_view f plugin) k =
        some x := by
    intro k ⟨x, hx⟩
    rw [lookup_handle_insert]
    by_cases hk : k = f
    · exact ⟨plugin, by simp [hk]⟩
    · exact ⟨x, by simp [hk, hx]⟩
  by_cases hseen : (lookup_list manager.plugins id).any
      (fun splugin => decide ((w splugin).filename = some f)) = true
  · rw [if_pos hseen]
    refine ⟨?_, ?_, ?_⟩
    · intro k h hl
      simp only [lookup_handle_insert] at hl
      by_cases hk : k = f
      · simp only [hk, if_true, Option.some.injEq] at hl
        subst hl; subst hk
        exact ⟨hp, hf⟩
      · simp only [hk, if_false] at hl
        exact ha k h hl
    · intro id' h hm
      obtain ⟨h1, h2, h3⟩ := hb id' h hm
      exact ⟨h1, h2, hview _ h3⟩
    · intro k h id' hl hi'
      simp only [lookup_handle_insert] at hl
      by_cases hk : k = f
      · simp only [hk, if_true, Option.some.injEq] at hl
        subst hl
        rw [hi] at hi'
        simp only [Option.some.injEq] at hi'
        subst hi'
        rw [List.any_eq_true] at hseen
        obtain ⟨x, hx, hxf⟩ := hseen
        exact ⟨x, hx, by rw [hk]; simpa using hxf⟩
      · simp only [hk, if_false] at hl
        exact hc k h id' hl hi'
  · rw [if_neg hseen]
    refine ⟨?_, ?_, ?_⟩
    · intro k h hl
      simp only [lookup_handle_insert] at hl
      by_cases hk : k = f
      · simp only [hk, if_true, Option.some.injEq] at hl
        subst hl; subst hk
        exact ⟨hp, hf⟩
      · simp only [hk, if_false] at hl
        exact ha k h hl
    · intro id' h hm
      simp only [lookup_list_insert] at hm
      by_cases hid : id' = id
      · simp only [hid, if_true, List.mem_cons] at hm
        rcases hm with rfl | hm
        · refine ⟨hp, by rw [hid]; exact hi, ?_⟩
          rw [hf]
          exact ⟨h, by simp [view_key, lookup_handle_insert]⟩
        · obtain ⟨h1, h2, h3⟩ := hb id h hm
          exact ⟨h1, by rw [hid]; exact h2, hview _ h3⟩
      · simp only [hid, if_false] at hm
        obtain ⟨h1, h2, h3⟩ := hb id' h hm
        exact ⟨h1, h2, hview _ h3⟩
    · intro k h id' hl hi'
      simp only [lookup_handle_insert] at hl
      simp only [lookup_list_insert]
      by_cases hk : k = f
      · simp only [hk, if_true, Option.some.injEq] at hl
        subst hl
        rw [hi] at hi'
        simp only [Option.some.injEq] at hi'
        subst hi'
        exact ⟨plugin, by simp, by rw [hk]; exact hf⟩
      · simp only [hk, if_false] at hl
        obtain ⟨h', hm, hf'⟩ := hc k h id' hl hi'
        refine ⟨h', ?_, hf'⟩
        by_cases hid : id' = id
        · simp only [hid, if_true, List.mem_cons]
          exact Or.inr (hid ▸ hm)
        · simp only [hid, if_false]
          exact hm

theorem index_good_plugin_eq (manager : GPluginManager) (w : World) (plugin : Nat) (id f : Str)
    (hf : (w plugin).filename = some f) :
    index_good_plugin manager w plugin id =
      { manager with
        plugins_filename_view := hash_table_insert manager.plugins_filename_view f plugin
        plugins :=
          if (lookup_list manager.plugins id).any
              (fun splugin => decide ((w splugin).filename = some f)) = true then
            manager.plugins
          else hash_table_insert manager.plugins id (plugin :: lookup_list manager.plugins id) } := by
  simp [index_good_plugin, hf, view_key]

theorem refresh_good_plugin_shape (env : Env) (filename : Str) (plugin : Nat)
    (loader : Option Nat) (s : RefreshState) :
    (refresh_good_plugin env filename plugin loader s).next = s.next ∧
      (∀ q, ((refresh_good_plugin env filename plugin loader s).world q).filename =
          (s.world q).filename ∧
        ((refresh_good_plugin env filename plugin loader s).world q).info = (s.world q).info) ∧
      (∀ q, q ≠ plugin → (refresh_good_plugin env filename plugin loader s).world q = s.world q) ∧
      (loader = none → (refresh_good_plugin env filename plugin loader s).world = s.world) ∧
      (∃ ev, (refresh_good_plugin env filename plugin loader s).events = s.events ++ ev) ∧
      ((id_of s.world plugin = none ∧
          (refresh_good_plugin env filename plugin loader s).manager = s.manager) ∨
        ∃ id flag, id_of s.world plugin = some id ∧
          (refresh_good_plugin env filename plugin loader s).manager =
            { index_good_plugin s.manager s.world plugin id with refresh_needed := flag }) := by
  cases hid : id_of s.world plugin with
  | none =>
    have hr : refresh_good_plugin env filename plugin loader s =
        { s with
          error_messages := Diagnostic.null_id (s.world plugin).filename :: s.error_messages } := by
      simp [refresh_good_plugin, hid]
    rw [hr]
    exact ⟨rfl, fun q => ⟨rfl, rfl⟩, fun q _ => rfl, fun _ => rfl, ⟨[], by simp⟩, Or.inl ⟨rfl, rfl⟩⟩
  | some id =>
    by_cases hloq : load_on_query_of s.world plugin = true
    · cases loader with
      | none =>
        have hr : refresh_good_plugin env filename plugin none s =
            { s with
              manager := index_good_plugin s.manager s.world plugin id
              errors := s.errors + 1
              error_messages := Diagnostic.load_failed filename none :: s.error_messages } := by
          simp [refresh_good_plugin, hid, hloq]
        rw [hr]
        exact ⟨rfl, fun q => ⟨rfl, rfl⟩, fun q _ => rfl, fun _ => rfl, ⟨[], by simp⟩,
          Or.inr ⟨id, _, rfl, rfl⟩⟩
      | some l =>
        have hfields := loader_load_plugin_fields env s.world l plugin
        by_cases hret : (gplugin_loader_load_plugin env s.world l plugin).ret = true
        · have hr : refresh_good_plugin env filename plugin (some l) s =
              { s with
                manager := index_good_plugin s.manager s.world plugin id
                world := (gplugin_loader_load_plugin env s.world l plugin).world
                events := s.events ++ (gplugin_loader_load_plugin env s.world l plugin).events } := by
            simp [refresh_good_plugin, hid, hloq, hret]
          rw [hr]
          exact ⟨rfl, fun q => ⟨(hfields q).1, (hfields q).2.1⟩, fun q hq => (hfields q).2.2 hq,
            fun hl => by simp at hl, ⟨_, rfl⟩, Or.inr ⟨id, _, rfl, rfl⟩⟩
        · have hr : refresh_good_plugin env filename plugin (some l) s =
              { s with
                manager := index_good_plugin s.manager s.world plugin id
                world := (gplugin_loader_load_plugin env s.world l plugin).world
                events := s.events ++ (gplugin_loader_load_plugin env s.world l plugin).events
                errors := s.errors + 1
                error_messages :=
                  Diagnostic.load_failed filename
                    (gplugin_loader_load_plugin env s.world l plugin).error :: s.error_messages } := by
            simp [refresh_good_plugin, hid, hloq, hret]
          rw [hr]
          exact ⟨rfl, fun q => ⟨(hfields q).1, (hfields q).2.1⟩, fun q hq => (hfields q).2.2 hq,
            fun hl => by simp at hl, ⟨_, rfl⟩, Or.inr ⟨id, _, rfl, rfl⟩⟩
    · by_cases herr : 0 < s.errors
      · have hr : refresh_good_plugin env filename plugin loader s =
            { s with
              manager :=
                { index_good_plugin s.manager s.world plugin id with refresh_needed := true }
              errors := 0 } := by
          simp [refresh_good_plugin, hid, hloq, herr]
        rw [hr]
        exact ⟨rfl, fun q => ⟨rfl, rfl⟩, fun q _ => rfl, fun _ => rfl, ⟨[], by simp⟩,
          Or.inr ⟨id, true, rfl, rfl⟩⟩
      · have hr : refresh_good_plugin env filename plugin loader s =
            { s with manager := index_good_plugin s.manager s.world plugin id } := by
          simp [refresh_good_plugin, hid, hloq, herr]
        rw [hr]
        exact ⟨rfl, fun q => ⟨rfl, rfl⟩, fun q _ => rfl, fun _ => rfl, ⟨[], by simp⟩,
          Or.inr ⟨id, _, rfl, rfl⟩⟩

theorem refresh_good_plugin_inv (env : Env) (filename : Str) (plugin : Nat)
    (loader : Option Nat) (s : RefreshState) (f : Str) (hp : plugin < s.next)
    (hf : (s.world plugin).filename = some f)
    (h : index_inv s.manager s.world s.next) :
    index_inv (refresh_good_plugin env filename plugin loader s).manager
      (refresh_good_plugin env filename plugin loader s).world
      (refresh_good_plugin env filename plugin loader s).next := by
  obtain ⟨hn, hfields, -, -, -, hm⟩ := refresh_good_plugin_shape env filename plugin loader s
  rw [hn]
  apply index_inv_congr _ s.world _ s.next s.next (le_refl _) (fun q _ => hfields q)
  rcases hm with ⟨-, hm⟩ | ⟨id, flag, hid, hm⟩
  · rw [hm]; exact h
  · rw [hm, index_good_plugin_eq s.manager s.world plugin id f hf]
    exact index_inv_flag _ _ _ flag (index_inv_insert s.manager s.world s.next plugin f id hp hf hid h)

theorem refresh_file_inv (env : Env) (renv : RefreshEnv) (path : Str)
    (e : GPluginFileTreeEntry) (s : RefreshState) (h : index_inv s.manager s.world s.next) :
    index_inv (refresh_file env renv path e s).manager (refresh_file env renv path e s).world
      (refresh_file env renv path e s).next := by
  unfold refresh_file
  simp only
  split_ifs with hskip
  · exact h
  · obtain ⟨hm, -, hcases⟩ := query_loop_spec renv (renv.g_build_filename path e.filename)
      (lookup_list s.manager.loaders_by_extension e.extension) s
      (lookup_handle s.manager.plugins_filename_view (renv.g_build_filename path e.filename)) none
    generalize hr : query_loop renv (renv.g_build_filename path e.filename)
      (lookup_list s.manager.loaders_by_extension e.extension) s
      (lookup_handle s.manager.plugins_filename_view (renv.g_build_filename path e.filename))
      none = r at hm hcases
    obtain ⟨plugin, loader, s1⟩ := r
    simp only at hm hcases
    have hinv1 : index_inv s1.manager s1.world s1.next := by
      rw [hm]
      rcases hcases with ⟨hw, hn, -⟩ | ⟨l, info, -, -, -, hn, hw⟩
      · rw [hw, hn]; exact h
      · rw [hn, hw]
        apply index_inv_congr _ s.world _ s.next (s.next + 1) (Nat.le_succ _) _ h
        intro q hq
        simp [Nat.ne_of_lt hq]
    cases plugin with
    | none => exact hinv1
    | some x =>
      simp only
      rcases hcases with ⟨hw, hn, hp⟩ | ⟨l, info, -, hp, -, hn, hw⟩
      · rcases hp with hp | ⟨-, hp, -⟩
        · simp at hp
        · obtain ⟨hx, hxf⟩ := h.1 _ x hp.symm
          exact refresh_good_plugin_inv env _ x loader s1 _ (by rw [hn]; exact hx)
            (by rw [hw]; exact hxf) hinv1
      · simp only [Option.some.injEq] at hp
        subst hp
        exact refresh_good_plugin_inv env _ s.next loader s1
          (renv.g_build_filename path e.filename) (by rw [hn]; exact Nat.lt_succ_self _)
          (by rw [hw]; simp) hinv1

theorem refresh_files_inv (env : Env) (renv : RefreshEnv) (path : Str)
    (files : List GPluginFileTreeEntry) (s : RefreshState)
    (h : index_inv s.manager s.world s.next) :
    index_inv (refresh_files env renv path files s).manager
      (refresh_files env renv path files s).world (refresh_files env renv path files s).next := by
  induction files generalizing s with
  | nil => exact h
  | cons e files ih => exact ih _ (refresh_file_inv env renv path e s h)

theorem refresh_pass_inv (env : Env) (renv : RefreshEnv) (root : GPluginFileTree)
    (s : RefreshState) (h : index_inv s.manager s.world s.next) :
    index_inv (refresh_pass env renv root s).manager (refresh_pass env renv root s).world
      (refresh_pass env renv root s).next := by
  induction root generalizing s with
  | nil => exact h
  | cons d root ih =>
    obtain ⟨dir, files⟩ := d
    exact ih _ (refresh_files_inv env renv dir.filename files s h)

theorem refresh_round_inv (env : Env) (renv : RefreshEnv) (root : GPluginFileTree)
    (s : RefreshState) (h : index_inv s.manager s.world s.next) :
    index_inv (refresh_round env renv root s).manager (refresh_round env renv root s).world
      (refresh_round env renv root s).next :=
  refresh_pass_inv env renv root _ (index_inv_flag _ _ _ false h)

theorem refresh_loop_inv (env : Env) (renv : RefreshEnv) (root : GPluginFileTree) (fuel : Nat) :
    ∀ (s : RefreshState) (r : RefreshState × List (List Event)),
      index_inv s.manager s.world s.next → refresh_loop env renv root fuel s = some r →
      index_inv r.1.manager r.1.world r.1.next := by
  induction fuel with
  | zero => intro s r _ h; simp [refresh_loop] at h
  | succ fuel ih =>
    intro s r hinv h
    rw [refresh_loop] at h
    have h1 := refresh_round_inv env renv root s hinv
    split_ifs at h with hflag
    · cases hr : refresh_loop env renv root fuel (refresh_round env renv root s) with
      | none => rw [hr] at h; simp at h
      | some r' =>
        rw [hr] at h
        obtain ⟨s2, passes⟩ := r'
        simp only [Option.some.injEq] at h
        subst h
        exact ih _ (s2, passes) h1 hr
    · simp only [Option.some.injEq] at h
      subst h
      exact h1

/-- C14, as the code behaves: the empty manager satisfies, and every
`gplugin_manager_refresh` preserves, this consistency of the indexes: every
plugin in the filename view is stored under its own filename; every plugin in
the identifier index is stored under its own id and the view has an entry for
its filename (which holds that plugin or one queried later from the same
file); and for every plugin in the view that has an id, the sequence of that
id holds a plugin with the same filename (the plugin itself or one queried
earlier from the same file). -/
theorem refresh_index_invariant (env : Env) (renv : RefreshEnv) (root : GPluginFileTree)
    (fuel : Nat) (manager : GPluginManager) (w : World) (next : Nat) (r : RefreshResult)
    (hinv : index_inv manager w next)
    (h : gplugin_manager_refresh env renv root fuel manager w next = some r) :
    index_inv empty_manager w 0 ∧ index_inv r.manager r.world r.next := by
  constructor
  · simp [index_inv, empty_manager, lookup_handle, lookup_list]
  · unfold gplugin_manager_refresh at h
    cases hl : refresh_loop env renv root fuel
        ⟨{ manager with refresh_needed := true }, w, next, 0, [], []⟩ with
    | none => rw [hl] at h; simp at h
    | some x =>
      rw [hl] at h
      obtain ⟨s, passes⟩ := x
      simp only [Option.some.injEq] at h
      subst h
      exact refresh_loop_inv env renv root fuel _ _ (index_inv_flag _ _ _ true hinv) hl

/-- The two refreshes of `c.so` (the first with a failing load, the second
with a successful one) leave the indexes consistent in this sense, although
the view holds plugin `1` and the identifier index plugin `0`. -/
theorem refresh_index_invariant_witness :
    ∃ r1 r2, gplugin_manager_refresh refusing_env requery_renv requery_tree 5 so_manager
          empty_world 0 = some r1 ∧
      gplugin_manager_refresh demo_env requery_renv requery_tree 5 r1.manager r1.world r1.next =
        some r2 ∧
      index_inv r2.manager r2.world r2.next := by
  obtain ⟨r1, h1⟩ : ∃ r1, gplugin_manager_refresh refusing_env requery_renv requery_tree 5
      so_manager empty_world 0 = some r1 := Option.isSome_iff_exists.mp (by decide)
  have hsome : ((gplugin_manager_refresh refusing_env requery_renv requery_tree 5 so_manager
      empty_world 0).bind (fun r =>
        gplugin_manager_refresh demo_env requery_renv requery_tree 5 r.manager r.world
          r.next)).isSome = true := by decide
  rw [h1] at hsome
  obtain ⟨r2, h2⟩ := Option.isSome_iff_exists.mp hsome
  have hinv0 : index_inv so_manager empty_world 0 := by
    simp [index_inv, so_manager, gplugin_manager_register_loader, empty_manager, lookup_handle,
      lookup_list]
  have hinv1 := (refresh_index_invariant refusing_env requery_renv requery_tree 5 so_manager
    empty_world 0 r1 hinv0 h1).2
  exact ⟨r1, r2, h1, h2,
    (refresh_index_invariant demo_env requery_renv requery_tree 5 r1.manager r1.world r1.next r2
      hinv1 h2).2⟩

/-! ### Discovery: plugins that are loaded on query -/

theorem query_loop_first (renv : RefreshEnv) (filename : Str) (l : Nat) (post : List Nat)
    (info : GPluginPluginInfo) :
    ∀ (pre : List Nat) (s : RefreshState) (p0 l0 : Option Nat),
      (∀ x ∈ pre, (renv.query s.world x filename).is_plugin = false) →
      renv.query s.world l filename = QueryResult.plugin info →
      ∃ s1, query_loop renv filename (pre ++ l :: post) s p0 l0 = (some s.next, some l, s1) ∧
        s1.manager = s.manager ∧ s1.events = s.events ∧ s1.next = s.next + 1 ∧
        s1.world = (fun q => if q = s.next then
          ⟨some filename, some l, some info, GPluginPluginState.QUERIED, none⟩ else s.world q) := by
  intro pre
  induction pre with
  | nil =>
    intro s p0 l0 _ hq
    refine ⟨{ s with
      world := (fun q => if q = s.next then
        ⟨some filename, some l, some info, GPluginPluginState.QUERIED, none⟩ else s.world q)
      next := s.next + 1 }, ?_, rfl, rfl, rfl, rfl⟩
    simp [query_loop, gplugin_loader_query_plugin, hq]
  | cons x pre ih =>
    intro s p0 l0 hpre hq
    have hx := hpre x (List.mem_cons_self x pre)
    have hrest : ∀ y ∈ pre, (renv.query s.world y filename).is_plugin = false :=
      fun y hy => hpre y (List.mem_cons_of_mem x hy)
    rw [List.cons_append, query_loop]
    unfold gplugin_loader_query_plugin
    cases hqx : renv.query s.world x filename with
    | error err =>
      simp only
      exact ih
        { s with
          errors := s.errors + 1
          error_messages := Diagnostic.query_failed filename x err :: s.error_messages }
        none none hrest hq
    | nothing =>
      simp only
      exact ih s none none hrest hq
    | plugin i =>
      rw [hqx] at hx
      simp [QueryResult.is_plugin] at hx

theorem refresh_file_keeps (env : Env) (renv : RefreshEnv) (path : Str)
    (e : GPluginFileTreeEntry) (s : RefreshState) (f : Str) (h : Nat)
    (hinv : index_inv s.manager s.world s.next)
    (hview : lookup_handle s.manager.plugins_filename_view f = some h)
    (hstate : (s.world h).state = GPluginPluginState.LOADED) :
    lookup_handle (refresh_file env renv path e s).manager.plugins_filename_view f = some h ∧
      ((refresh_file env renv path e s).world h).state = GPluginPluginState.LOADED ∧
      (∀ id, h ∈ lookup_list s.manager.plugins id →
        h ∈ lookup_list (refresh_file env renv path e s).manager.plugins id) ∧
      (∀ ev, ev ∈ s.events → ev ∈ (refresh_file env renv path e s).events) := by
  unfold refresh_file
  simp only
  split_ifs with hskip
  · exact ⟨hview, hstate, fun _ hm => hm, fun _ hm => hm⟩
  · have hne : renv.g_build_filename path e.filename ≠ f := by
      intro heq
      apply hskip
      simp [refresh_skips, heq, hview, hstate]
    obtain ⟨hh, hhf⟩ := hinv.1 f h hview
    obtain ⟨hm, hev, hcases⟩ := query_loop_spec renv (renv.g_build_filename path e.filename)
      (lookup_list s.manager.loaders_by_extension e.extension) s
      (lookup_handle s.manager.plugins_filename_view (renv.g_build_filename path e.filename)) none
    generalize hr : query_loop renv (renv.g_build_filename path e.filename)
      (lookup_list s.manager.loaders_by_extension e.extension) s
      (lookup_handle s.manager.plugins_filename_view (renv.g_build_filename path e.filename))
      none = r at hm hev hcases
    obtain ⟨plugin, loader, s1⟩ := r
    simp only at hm hev hcases
    have hw1 : s1.world h = s.world h := by
      rcases hcases with ⟨hw, -, -⟩ | ⟨l, info, -, -, -, -, hw⟩
      · rw [hw]
      · rw [hw]; simp [Nat.ne_of_lt hh]
    cases plugin with
    | none =>
      simp only
      rw [hm, hev, hw1]
      exact ⟨hview, hstate, fun _ hx => hx, fun _ hx => hx⟩
    | some x =>
      simp only
      have hx : x ≠ h ∧ (s1.world x).filename = some (renv.g_build_filename path e.filename) := by
        rcases hcases with ⟨hw, hn, hp⟩ | ⟨l, info, -, hp, -, hn, hw⟩
        · rcases hp with hp | ⟨-, hp, -⟩
          · simp at hp
          · obtain ⟨-, hxf⟩ := hinv.1 _ x hp.symm
            refine ⟨?_, by rw [hw]; exact hxf⟩
            intro hxh
            rw [hxh, hhf] at hxf
            simp only [Option.some.injEq] at hxf
            exact hne hxf.symm
        · simp only [Option.some.injEq] at hp
          subst hp
          exact ⟨Nat.ne_of_gt hh, by rw [hw]; simp⟩
      obtain ⟨-, -, hother, -, ⟨ev, hevs⟩, hman⟩ :=
        refresh_good_plugin_shape env (renv.g_build_filename path e.filename) x loader s1
      refine ⟨?_, ?_, ?_, ?_⟩
      · rcases hman with ⟨-, hman⟩ | ⟨id, flag, -, hman⟩
        · rw [hman, hm]; exact hview
        · rw [hman, index_good_plugin_eq s1.manager s1.world x id _ hx.2]
          simp only [lookup_handle_insert, hm]
          rw [if_neg (fun heq => hne heq.symm)]
          exact hview
      · rw [hother h (fun hxh => hx.1 hxh.symm), hw1]
        exact hstate
      · intro id0 hmem
        rcases hman with ⟨-, hman⟩ | ⟨id, flag, -, hman⟩
        · rw [hman, hm]; exact hmem
        · rw [hman, index_good_plugin_eq s1.manager s1.world x id _ hx.2]
          simp only [hm]
          split_ifs with hseen
          · exact hmem
          · rw [lookup_list_insert]
            by_cases hid : id0 = id
            · rw [if_pos hid]
              exact List.mem_cons_of_mem x (hid ▸ hmem)
            · rw [if_neg hid]
              exact hmem
      · intro ev0 hev0
        rw [hevs, hev]
        exact List.mem_append_left ev hev0

theorem refresh_files_keeps (env : Env) (renv : RefreshEnv) (path : Str) (f : Str) (h : Nat)
    (files : List GPluginFileTreeEntry) (s : RefreshState)
    (hinv : index_inv s.manager s.world s.next)
    (hview : lookup_handle s.manager.plugins_filename_view f = some h)
    (hstate : (s.world h).state = GPluginPluginState.LOADED) :
    index_inv (refresh_files env renv path files s).manager
        (refresh_files env renv path files s).world (refresh_files env renv path files s).next ∧
      lookup_handle (refresh_files env renv path files s).manager.plugins_filename_view f =
        some h ∧
      ((refresh_files env renv path files s).world h).state = GPluginPluginState.LOADED ∧
      (∀ id, h ∈ lookup_list s.manager.plugins id →
        h ∈ lookup_list (refresh_files env renv path files s).manager.plugins id) ∧
      (∀ ev, ev ∈ s.events → ev ∈ (refresh_files env renv path files s).events) := by
  induction files generalizing s with
  | nil => exact ⟨hinv, hview, hstate, fun _ hm => hm, fun _ hm => hm⟩
  | cons e files ih =>
    obtain ⟨h1, h2, h3, h4⟩ := refresh_file_keeps env renv path e s f h hinv hview hstate
    obtain ⟨k0, k1, k2, k3, k4⟩ := ih (refresh_file env renv path e s)
      (refresh_file_inv env renv path e s hinv) h1 h2
    exact ⟨k0, k1, k2, fun id hm => k3 id (h3 id hm), fun ev hm => k4 ev (h4 ev hm)⟩

theorem refresh_pass_keeps (env : Env) (renv : RefreshEnv) (f : Str) (h : Nat)
    (root : GPluginFileTree) (s : RefreshState)
    (hinv : index_inv s.manager s.world s.next)
    (hview : lookup_handle s.manager.plugins_filename_view f = some h)
    (hstate : (s.world h).state = GPluginPluginState.LOADED) :
    index_inv (refresh_pass env renv root s).manager
        (refresh_pass env renv root s).world (refresh_pass env renv root s).next ∧
      lookup_handle (refresh_pass env renv root s).manager.plugins_filename_view f = some h ∧
      ((refresh_pass env renv root s).world h).state = GPluginPluginState.LOADED ∧
      (∀ id, h ∈ lookup_list s.manager.plugins id →
        h ∈ lookup_list (refresh_pass env renv root s).manager.plugins id) ∧
      (∀ ev, ev ∈ s.events → ev ∈ (refresh_pass env renv root s).events) := by
  induction root generalizing s with
  | nil => exact ⟨hinv, hview, hstate, fun _ hm => hm, fun _ hm => hm⟩
  | cons d root ih =>
    obtain ⟨dir, files⟩ := d
    obtain ⟨h0, h1, h2, h3, h4⟩ :=
      refresh_files_keeps env renv dir.filename f h files s hinv hview hstate
    obtain ⟨k0, k1, k2, k3, k4⟩ := ih (refresh_files env renv dir.filename files s) h0 h1 h2
    exact ⟨k0, k1, k2, fun id hm => k3 id (h3 id hm), fun ev hm => k4 ev (h4 ev hm)⟩

theorem refresh_loop_keeps (env : Env) (renv : RefreshEnv) (root : GPluginFileTree) (f : Str)
    (h : Nat) (fuel : Nat) :
    ∀ (s : RefreshState) (r : RefreshState × List (List Event)),
      index_inv s.manager s.world s.next →
      lookup_handle s.manager.plugins_filename_view f = some h →
      (s.world h).state = GPluginPluginState.LOADED →
      refresh_loop env renv root fuel s = some r →
      lookup_handle r.1.manager.plugins_filename_view f = some h ∧
        (r.1.world h).state = GPluginPluginState.LOADED ∧
        (∀ id, h ∈ lookup_list s.manager.plugins id → h ∈ lookup_list r.1.manager.plugins id) := by
  induction fuel with
  | zero => intro s r _ _ _ hr; simp [refresh_loop] at hr
  | succ fuel ih =>
    intro s r hinv hview hstate hr
    rw [refresh_loop] at hr
    obtain ⟨h0, h1, h2, h3, -⟩ := refresh_pass_keeps env renv f h root
      { s with
        manager := { s.manager with refresh_needed := false }
        error_messages := []
        events := [] }
      (index_inv_flag _ _ _ false hinv) hview hstate
    change index_inv (refresh_round env renv root s).manager (refresh_round env renv root s).world
      (refresh_round env renv root s).next at h0
    change lookup_handle (refresh_round env renv root s).manager.plugins_filename_view f =
      some h at h1
    change ((refresh_round env renv root s).world h).state = GPluginPluginState.LOADED at h2
    change ∀ id, h ∈ lookup_list s.manager.plugins id →
      h ∈ lookup_list (refresh_round env renv root s).manager.plugins id at h3
    split_ifs at hr with hflag
    · cases hl : refresh_loop env renv root fuel (refresh_round env renv root s) with
      | none => rw [hl] at hr; simp at hr
      | some r' =>
        rw [hl] at hr
        obtain ⟨s2, passes⟩ := r'
        simp only [Option.some.injEq] at hr
        subst hr
        obtain ⟨k1, k2, k3⟩ := ih _ (s2, passes) h0 h1 h2 hl
        exact ⟨k1, k2, fun id hm => k3 id (h3 id hm)⟩
    · simp only [Option.some.injEq] at hr
      subst hr
      exact ⟨h1, h2, h3⟩

theorem refresh_file_loads (env : Env) (renv : RefreshEnv) (path : Str)
    (e : GPluginFileTreeEntry) (s : RefreshState) (pre post : List Nat) (l : Nat)
    (info : GPluginPluginInfo) (id : Str)
    (hinv : index_inv s.manager s.world s.next)
    (hskip : refresh_skips s (renv.g_build_filename path e.filename) = false)
    (hloaders : lookup_list s.manager.loaders_by_extension e.extension = pre ++ l :: post)
    (hpre : ∀ x ∈ pre,
      (renv.query s.world x (renv.g_build_filename path e.filename)).is_plugin = false)
    (hquery : renv.query s.world l (renv.g_build_filename path e.filename) =
      QueryResult.plugin info)
    (hid : info.id = some id) (hloq : info.load_on_query = true)
    (hload : env.load
      (gplugin_loader_query_plugin renv s.world s.next l
        (renv.g_build_filename path e.filename)).2.2.1 l s.next = none) :
    lookup_handle (refresh_file env renv path e s).manager.plugins_filename_view
        (renv.g_build_filename path e.filename) = some s.next ∧
      ((refresh_file env renv path e s).world s.next).state = GPluginPluginState.LOADED ∧
      (s.next ∈ lookup_list (refresh_file env renv path e s).manager.plugins id ↔
        ¬ ∃ x ∈ lookup_list s.manager.plugins id,
          (s.world x).filename = some (renv.g_build_filename path e.filename)) ∧
      Event.loader_load l s.next ∈ (refresh_file env renv path e s).events := by
  obtain ⟨s1, hq, hm, hev, hn, hw⟩ := query_loop_first renv
    (renv.g_build_filename path e.filename) l post info pre s
    (lookup_handle s.manager.plugins_filename_view (renv.g_build_filename path e.filename)) none
    hpre hquery
  have hload1 : env.load s1.world l s.next = none := by
    rw [hw]
    simpa [gplugin_loader_query_plugin, hquery] using hload
  have hf1 : (s1.world s.next).filename = some (renv.g_build_filename path e.filename) := by
    rw [hw]; simp
  have hid1 : id_of s1.world s.next = some id := by
    simp [id_of, hw, hid]
  have hloq1 : load_on_query_of s1.world s.next = true := by
    simp [load_on_query_of, hw, hloq]
  have hret : (gplugin_loader_load_plugin env s1.world l s.next).ret = true := by
    simp [gplugin_loader_load_plugin, hload1]
  have hr : refresh_file env renv path e s =
      { s1 with
        manager := index_good_plugin s1.manager s1.world s.next id
        world := (gplugin_loader_load_plugin env s1.world l s.next).world
        events := s1.events ++ (gplugin_loader_load_plugin env s1.world l s.next).events } := by
    unfold refresh_file
    simp only [hskip, Bool.false_eq_true, if_false, hloaders, hq]
    simp [refresh_good_plugin, hid1, hloq1, hret]
  rw [hr, index_good_plugin_eq s1.manager s1.world s.next id _ hf1]
  simp only [hm]
  have hold : ∀ x ∈ lookup_list s.manager.plugins id, x ≠ s.next ∧ s1.world x = s.world x := by
    intro x hx
    have hlt := (hinv.2.1 id x hx).1
    refine ⟨Nat.ne_of_lt hlt, ?_⟩
    rw [hw]
    simp [Nat.ne_of_lt hlt]
  refine ⟨by simp [lookup_handle_insert], ?_, ?_, ?_⟩
  · simp [gplugin_loader_load_plugin, hload1, gplugin_plugin_set_state]
  · by_cases hseen : (lookup_list s.manager.plugins id).any
        (fun splugin => decide ((s1.world splugin).filename =
          some (renv.g_build_filename path e.filename))) = true
    · rw [if_pos hseen]
      rw [List.any_eq_true] at hseen
      obtain ⟨x, hx, hxf⟩ := hseen
      constructor
      · intro hmem
        exact absurd rfl (hold s.next hmem).1
      · intro hno
        exfalso
        apply hno
        refine ⟨x, hx, ?_⟩
        rw [← (hold x hx).2]
        simpa using hxf
    · rw [if_neg hseen]
      constructor
      · intro _ hex
        obtain ⟨x, hx, hxf⟩ := hex
        apply hseen
        rw [List.any_eq_true]
        exact ⟨x, hx, by rw [(hold x hx).2]; simpa using hxf⟩
      · intro _
        simp [lookup_list_insert]
  · simp [gplugin_loader_load_plugin, hload1]

/-- C16, as the code behaves: when a pass of `gplugin_manager_refresh` reaches a
file that it does not skip, and the first loader of the file's extension whose
`query` gives a plugin gives one with a non-null id and `load_on_query` true,
and that loader's `load` succeeds on the new plugin, then after the loop body
for the file, at the end of the pass and after every later pass of the same
refresh, the filename view holds the new plugin for the file and the plugin is
in state `loaded`; the loader's `load` is invoked for it in the pass in which
it was queried; and the plugin is in the sequence of its id in the identifier
index exactly when that sequence held no plugin with the same filename before
(a plugin queried earlier from the same file keeps the place). -/
theorem refresh_load_on_query (env : Env) (renv : RefreshEnv) (path : Str)
    (e : GPluginFileTreeEntry) (s : RefreshState) (pre post : List Nat) (l : Nat)
    (info : GPluginPluginInfo) (id : Str)
    (hinv : index_inv s.manager s.world s.next)
    (hskip : refresh_skips s (renv.g_build_filename path e.filename) = false)
    (hloaders : lookup_list s.manager.loaders_by_extension e.extension = pre ++ l :: post)
    (hpre : ∀ x ∈ pre,
      (renv.query s.world x (renv.g_build_filename path e.filename)).is_plugin = false)
    (hquery : renv.query s.world l (renv.g_build_filename path e.filename) =
      QueryResult.plugin info)
    (hid : info.id = some id) (hloq : info.load_on_query = true)
    (hload : env.load
      (gplugin_loader_query_plugin renv s.world s.next l
        (renv.g_build_filename path e.filename)).2.2.1 l s.next = none) :
    (s.next ∈ lookup_list (refresh_file env renv path e s).manager.plugins id ↔
        ¬ ∃ x ∈ lookup_list s.manager.plugins id,
          (s.world x).filename = some (renv.g_build_filename path e.filename)) ∧
      ∀ (rest : List GPluginFileTreeEntry) (dirs : GPluginFileTree),
        indexed_loaded (renv.g_build_filename path e.filename) id s.next
            (¬ ∃ x ∈ lookup_list s.manager.plugins id,
              (s.world x).filename = some (renv.g_build_filename path e.filename))
            (refresh_pass env renv dirs
              (refresh_files env renv path rest (refresh_file env renv path e s))) ∧
          Event.loader_load l s.next ∈
            (refresh_pass env renv dirs
              (refresh_files env renv path rest (refresh_file env renv path e s))).events ∧
          ∀ (root : GPluginFileTree) (fuel : Nat) (r : RefreshState × List (List Event)),
            refresh_loop env renv root fuel
                (refresh_pass env renv dirs
                  (refresh_files env renv path rest (refresh_file env renv path e s))) =
              some r →
            indexed_loaded (renv.g_build_filename path e.filename) id s.next
              (¬ ∃ x ∈ lookup_list s.manager.plugins id,
                (s.world x).filename = some (renv.g_build_filename path e.filename)) r.1 := by
  obtain ⟨hview, hstate, hlisted, hevent⟩ :=
    refresh_file_loads env renv path e s pre post l info id hinv hskip hloaders hpre hquery hid
      hloq hload
  refine ⟨hlisted, ?_⟩
  intro rest dirs
  obtain ⟨a0, a1, a2, a3, a4⟩ := refresh_files_keeps env renv path
    (renv.g_build_filename path e.filename) s.next rest (refresh_file env renv path e s)
    (refresh_file_inv env renv path e s hinv) hview hstate
  obtain ⟨b0, b1, b2, b3, b4⟩ := refresh_pass_keeps env renv
    (renv.g_build_filename path e.filename) s.next dirs
    (refresh_files env renv path rest (refresh_file env renv path e s)) a0 a1 a2
  refine ⟨⟨b1, b2, fun hno => b3 id (a3 id (hlisted.mpr hno))⟩, b4 _ (a4 _ hevent), ?_⟩
  intro root fuel r hr
  obtain ⟨c1, c2, c3⟩ := refresh_loop_keeps env renv root
    (renv.g_build_filename path e.filename) s.next fuel _ r b0 b1 b2 hr
  exact ⟨c1, c2, fun hno => c3 id (b3 id (a3 id (hlisted.mpr hno)))⟩

/-- The file `c.so` of the fixture, reached with an empty index: the plugin
`demo/c` gets the handle `0`, is loaded by loader `0` and is listed under its
id. -/
theorem refresh_load_on_query_witness :
    refresh_skips ⟨so_manager, empty_world, 0, 0, [], []⟩
        (requery_renv.g_build_filename "/p/".toList "c.so".toList) = false ∧
      (0 ∈ lookup_list
          (refresh_file demo_env requery_renv "/p/".toList ⟨"c.so".toList, "so".toList⟩
            ⟨so_manager, empty_world, 0, 0, [], []⟩).manager.plugins "demo/c".toList ↔
        ¬ ∃ x ∈ lookup_list so_manager.plugins "demo/c".toList,
          (empty_world x).filename =
            some (requery_renv.g_build_filename "/p/".toList "c.so".toList)) ∧
      Event.loader_load 0 0 ∈
        (refresh_file demo_env requery_renv "/p/".toList ⟨"c.so".toList, "so".toList⟩
          ⟨so_manager, empty_world, 0, 0, [], []⟩).events := by
  have h := refresh_load_on_query demo_env requery_renv "/p/".toList
    ⟨"c.so".toList, "so".toList⟩ ⟨so_manager, empty_world, 0, 0, [], []⟩ [] [] 0
    (demo_info_loq "demo/c" "1.0" [] true) "demo/c".toList
    (by simp [index_inv, so_manager, gplugin_manager_register_loader, empty_manager,
      lookup_handle, lookup_list])
    (by decide) (by decide) (by simp) (by decide) (by decide) (by decide) (by decide)
  exact ⟨by decide, h.1, (h.2 [] []).2.1⟩

/-! ### The search paths -/

theorem strcmp_eq_zero (a b : Str) : strcmp a b = 0 ↔ a = b := by
  induction a generalizing b with
  | nil => cases b <;> simp [strcmp]
  | cons x a ih =>
    cases b with
    | nil => simp [strcmp]
    | cons y b =>
      by_cases hxy : x = y
      · simp [strcmp, hxy, ih]
      · by_cases hlt : x.toNat < y.toNat <;> simp [strcmp, hxy, hlt]

theorem compare_paths_eq_zero (penv : PathEnv) (a b : Str) :
    gplugin_manager_compare_paths penv a b = 0 ↔
      penv.g_utf8_collate_key_for_filename a = penv.g_utf8_collate_key_for_filename b := by
  unfold gplugin_manager_compare_paths
  exact strcmp_eq_zero _ _

theorem g_str_has_suffix_char (path : Str) (c : Char) :
    g_str_has_suffix path [c] = true ↔ path.getLast? = some c := by
  unfold g_str_has_suffix
  rw [List.isSuffixOf_iff_suffix]
  constructor
  · rintro ⟨t, rfl⟩
    simp
  · intro h
    obtain ⟨t, rfl⟩ : ∃ t, path = t ++ [c] := by
      rcases List.eq_nil_or_concat path with rfl | ⟨t, d, rfl⟩
      · simp at h
      · have hd : d = c := by simpa [Option.or] using h
        exact ⟨t, by rw [hd]; simp⟩
    exact ⟨t, rfl⟩

theorem normalize_path_cases (penv : PathEnv) (path : Str) :
    (path.getLast? = some penv.G_DIR_SEPARATOR →
        gplugin_manager_normalize_path penv path = path) ∧
      (path.getLast? ≠ some penv.G_DIR_SEPARATOR →
        gplugin_manager_normalize_path penv path = path ++ [penv.G_DIR_SEPARATOR]) ∧
      (gplugin_manager_normalize_path penv path).getLast? = some penv.G_DIR_SEPARATOR := by
  unfold gplugin_manager_normalize_path
  by_cases h : path.getLast? = some penv.G_DIR_SEPARATOR
  · have hs := (g_str_has_suffix_char path penv.G_DIR_SEPARATOR).mpr h
    simp [hs, h]
  · have hs : g_str_has_suffix path [penv.G_DIR_SEPARATOR] ≠ true :=
      fun hs => h ((g_str_has_suffix_char path penv.G_DIR_SEPARATOR).mp hs)
    simp [hs, h]

theorem normalize_path_idem (penv : PathEnv) (path : Str) :
    gplugin_manager_normalize_path penv (gplugin_manager_normalize_path penv path) =
      gplugin_manager_normalize_path penv path :=
  (normalize_path_cases penv _).1 (normalize_path_cases penv path).2.2

theorem find_custom_eq_none (penv : PathEnv) (paths : List Str) (normalized : Str) :
    g_queue_find_custom paths normalized (gplugin_manager_compare_paths penv) = none ↔
      ∀ x ∈ paths, penv.g_utf8_collate_key_for_filename x ≠
        penv.g_utf8_collate_key_for_filename normalized := by
  unfold g_queue_find_custom
  simp [List.find?_eq_none, compare_paths_eq_zero]

theorem find_custom_eq_some (penv : PathEnv) (paths : List Str) (normalized x : Str)
    (h : g_queue_find_custom paths normalized (gplugin_manager_compare_paths penv) = some x) :
    ∃ pre post, paths = pre ++ x :: post ∧
      penv.g_utf8_collate_key_for_filename x =
        penv.g_utf8_collate_key_for_filename normalized ∧
      (∀ y ∈ pre, penv.g_utf8_collate_key_for_filename y ≠
        penv.g_utf8_collate_key_for_filename normalized) ∧
      paths.eraseP (fun element =>
        decide (gplugin_manager_compare_paths penv element normalized = 0)) = pre ++ post := by
  unfold g_queue_find_custom at h
  induction paths with
  | nil => simp at h
  | cons y paths ih =>
    by_cases hy : gplugin_manager_compare_paths penv y normalized = 0
    · simp only [List.find?_cons, hy, decide_True, Option.some.injEq] at h
      subst h
      exact ⟨[], paths, rfl, (compare_paths_eq_zero penv _ _).mp hy, by simp,
        by simp [List.eraseP_cons, hy]⟩
    · simp only [List.find?_cons, hy, decide_False] at h
      obtain ⟨pre, post, h1, h2, h3, h4⟩ := ih h
      refine ⟨y :: pre, post, by rw [h1]; rfl, h2, ?_, ?_⟩
      · intro z hz
        rcases List.mem_cons.mp hz with rfl | hz
        · exact fun hk => hy ((compare_paths_eq_zero penv _ _).mpr hk)
        · exact h3 z hz
      · simp [List.eraseP_cons, hy, h4]


/-- C22 fails as stated: when the manager already stores `foo/`, appending
`foo` stores nothing and removing `foo` removes the stored path, so the list
is empty afterwards and not the list `[foo/]` it was before. -/
theorem append_remove_path_counterexample :
    gplugin_manager_get_paths (paths_manager ["foo/"]) = ["foo/".toList] ∧
      gplugin_manager_get_paths
        (gplugin_manager_remove_path demo_path_env
          (gplugin_manager_append_path demo_path_env (paths_manager ["foo/"])
            (some "foo".toList))
          (some "foo".toList)) = [] := by
  decide

/-- C22, as the code behaves: when no stored path matches `p` (none has the
collation key of the normalized `p`), `gplugin_manager_append_path` for `p`
followed by `gplugin_manager_remove_path` for `p` leaves
`gplugin_manager_get_paths` as it was, and in fact the whole manager. -/
theorem append_remove_path (penv : PathEnv) (manager : GPluginManager) (p : Str)
    (h : ∀ x ∈ gplugin_manager_get_paths manager, path_matches penv p x = false) :
    gplugin_manager_get_paths
        (gplugin_manager_remove_path penv (gplugin_manager_append_path penv manager (some p))
          (some p)) = gplugin_manager_get_paths manager ∧
      gplugin_manager_remove_path penv (gplugin_manager_append_path penv manager (some p))
        (some p) = manager := by
  have hnone : g_queue_find_custom manager.paths (gplugin_manager_normalize_path penv p)
      (gplugin_manager_compare_paths penv) = none := by
    rw [find_custom_eq_none]
    intro x hx
    have := h x hx
    simp only [path_matches, decide_eq_false_iff_not, compare_paths_eq_zero] at this
    exact this
  have happ : gplugin_manager_append_path penv manager (some p) =
      { manager with paths := manager.paths ++ [gplugin_manager_normalize_path penv p] } := by
    simp [gplugin_manager_append_path, hnone]
  have hself : gplugin_manager_compare_paths penv (gplugin_manager_normalize_path penv p)
      (gplugin_manager_normalize_path penv p) = 0 := (compare_paths_eq_zero penv _ _).mpr rfl
  have hfind : g_queue_find_custom (manager.paths ++ [gplugin_manager_normalize_path penv p])
      (gplugin_manager_normalize_path penv p) (gplugin_manager_compare_paths penv) =
      some (gplugin_manager_normalize_path penv p) := by
    unfold g_queue_find_custom at hnone ⊢
    rw [List.find?_append, hnone]
    simp [hself]
  have herase : (manager.paths ++ [gplugin_manager_normalize_path penv p]).eraseP
      (fun element => decide (gplugin_manager_compare_paths penv element
        (gplugin_manager_normalize_path penv p) = 0)) = manager.paths := by
    rw [List.eraseP_append_right]
    · simp [List.eraseP_cons, hself]
    · intro x hx
      have := h x hx
      simpa [path_matches] using this
  have hr : gplugin_manager_remove_path penv
      { manager with paths := manager.paths ++ [gplugin_manager_normalize_path penv p] }
      (some p) = manager := by
    simp [gplugin_manager_remove_path, hfind, herase]
  rw [happ, hr]
  exact ⟨rfl, rfl⟩

/-- The test `test_gplugin_manager_paths_single`: on an empty list, appending
`foo` and removing `foo` gives the empty list. -/
theorem append_remove_path_witness :
    (∀ x ∈ gplugin_manager_get_paths (paths_manager []),
        path_matches demo_path_env "foo".toList x = false) ∧
      gplugin_manager_get_paths
        (gplugin_manager_remove_path demo_path_env
          (gplugin_manager_append_path demo_path_env (paths_manager []) (some "foo".toList))
          (some "foo".toList)) = [] :=
  ⟨by decide, (append_remove_path demo_path_env (paths_manager []) "foo".toList (by decide)).1⟩


theorem append_path_paths (penv : PathEnv) (manager : GPluginManager) (p : Str) :
    ((∀ x ∈ manager.paths, path_matches penv p x = false) ∧
        (gplugin_manager_append_path penv manager (some p)).paths =
          manager.paths ++ [gplugin_manager_normalize_path penv p]) ∨
      ((∃ x ∈ manager.paths, path_matches penv p x = true) ∧
        gplugin_manager_append_path penv manager (some p) = manager) := by
  cases hf : g_queue_find_custom manager.paths (gplugin_manager_normalize_path penv p)
      (gplugin_manager_compare_paths penv) with
  | none =>
    left
    refine ⟨?_, by simp [gplugin_manager_append_path, hf]⟩
    intro x hx
    have := (find_custom_eq_none penv _ _).mp hf x hx
    simpa [path_matches, compare_paths_eq_zero] using this
  | some x =>
    right
    obtain ⟨pre, post, h1, h2, -, -⟩ := find_custom_eq_some penv _ _ x hf
    refine ⟨⟨x, by rw [h1]; simp, ?_⟩, by simp [gplugin_manager_append_path, hf]⟩
    simpa [path_matches, compare_paths_eq_zero] using h2

theorem prepend_path_paths (penv : PathEnv) (manager : GPluginManager) (p : Str) :
    ((∀ x ∈ manager.paths, path_matches penv p x = false) ∧
        (gplugin_manager_prepend_path penv manager (some p)).paths =
          gplugin_manager_normalize_path penv p :: manager.paths) ∨
      ((∃ x ∈ manager.paths, path_matches penv p x = true) ∧
        gplugin_manager_prepend_path penv manager (some p) = manager) := by
  cases hf : g_queue_find_custom manager.paths (gplugin_manager_normalize_path penv p)
      (gplugin_manager_compare_paths penv) with
  | none =>
    left
    refine ⟨?_, by simp [gplugin_manager_prepend_path, hf]⟩
    intro x hx
    have := (find_custom_eq_none penv _ _).mp hf x hx
    simpa [path_matches, compare_paths_eq_zero] using this
  | some x =>
    right
    obtain ⟨pre, post, h1, h2, -, -⟩ := find_custom_eq_some penv _ _ x hf
    refine ⟨⟨x, by rw [h1]; simp, ?_⟩, by simp [gplugin_manager_prepend_path, hf]⟩
    simpa [path_matches, compare_paths_eq_zero] using h2

theorem path_matches_self (penv : PathEnv) (p : Str) :
    path_matches penv p (gplugin_manager_normalize_path penv p) = true := by
  simp [path_matches, compare_paths_eq_zero]

/-- C23 fails as stated: when the manager already stores `q/`, appending `p`
and then `q` gives the list `[q/, p/]`, in which the stored form of `q` comes
before that of `p`. -/
theorem append_path_order_counterexample :
    "p".toList ≠ "q".toList ∧
      gplugin_manager_get_paths
        (gplugin_manager_append_path demo_path_env
          (gplugin_manager_append_path demo_path_env (paths_manager ["q/"]) (some "p".toList))
          (some "q".toList)) = ["q/".toList, "p/".toList] := by
  decide

/-- C23, as the code behaves: when no stored path matches `q` and the
normalized forms of `p` and `q` have different collation keys, then after
`gplugin_manager_append_path` for `p` and then for `q` the list ends with the
normalized `q`, and a path matching `p` stands at an earlier position; when no
stored path matched `p` either, the list is the old one followed by the
normalized `p` and the normalized `q`. -/
theorem append_path_order (penv : PathEnv) (manager : GPluginManager) (p q : Str)
    (hq : ∀ x ∈ gplugin_manager_get_paths manager, path_matches penv q x = false)
    (hne : penv.g_utf8_collate_key_for_filename (gplugin_manager_normalize_path penv p) ≠
      penv.g_utf8_collate_key_for_filename (gplugin_manager_normalize_path penv q)) :
    (∃ pre x post,
        gplugin_manager_get_paths
            (gplugin_manager_append_path penv
              (gplugin_manager_append_path penv manager (some p)) (some q)) =
          pre ++ x :: post ++ [gplugin_manager_normalize_path penv q] ∧
        path_matches penv p x = true) ∧
      ((∀ x ∈ gplugin_manager_get_paths manager, path_matches penv p x = false) →
        gplugin_manager_get_paths
            (gplugin_manager_append_path penv
              (gplugin_manager_append_path penv manager (some p)) (some q)) =
          gplugin_manager_get_paths manager ++
            [gplugin_manager_normalize_path penv p, gplugin_manager_normalize_path penv q]) := by
  unfold gplugin_manager_get_paths at *
  have hnq : path_matches penv q (gplugin_manager_normalize_path penv p) = false := by
    simpa [path_matches, compare_paths_eq_zero] using hne
  rcases append_path_paths penv manager p with ⟨hp, h1⟩ | ⟨⟨x, hx, hxp⟩, h1⟩
  · have hq1 : ∀ x ∈ (gplugin_manager_append_path penv manager (some p)).paths,
        path_matches penv q x = false := by
      intro x hx
      rw [h1] at hx
      rcases List.mem_append.mp hx with hx | hx
      · exact hq x hx
      · simp only [List.mem_singleton] at hx
        rw [hx]; exact hnq
    rcases append_path_paths penv (gplugin_manager_append_path penv manager (some p)) q
      with ⟨-, h2⟩ | ⟨⟨y, hy, hyq⟩, -⟩
    · rw [h2, h1]
      exact ⟨⟨manager.paths, gplugin_manager_normalize_path penv p, [], by simp,
        path_matches_self penv p⟩, fun _ => by simp⟩
    · rw [hq1 y hy] at hyq
      simp at hyq
  · rw [h1]
    rcases append_path_paths penv manager q with ⟨-, h2⟩ | ⟨⟨y, hy, hyq⟩, -⟩
    · rw [h2]
      obtain ⟨pre, post, hsplit⟩ := List.append_of_mem hx
      refine ⟨⟨pre, x, post, by rw [hsplit], hxp⟩, ?_⟩
      intro hp
      rw [hp x hx] at hxp
      simp at hxp
    · rw [hq y hy] at hyq
      simp at hyq

/-- The test `test_gplugin_manager_paths_multiple_fifo`: on an empty list,
appending `foo` and then `bar` gives `[foo/, bar/]`. -/
theorem append_path_order_witness :
    (∀ x ∈ gplugin_manager_get_paths (paths_manager []),
        path_matches demo_path_env "bar".toList x = false) ∧
      gplugin_manager_get_paths
          (gplugin_manager_append_path demo_path_env
            (gplugin_manager_append_path demo_path_env (paths_manager []) (some "foo".toList))
            (some "bar".toList)) = ["foo/".toList, "bar/".toList] :=
  ⟨by decide,
    (append_path_order demo_path_env (paths_manager []) "foo".toList "bar".toList (by decide)
      (by decide)).2 (by decide)⟩


theorem not_matches_key (penv : PathEnv) (p : Str) (paths : List Str)
    (h : ∀ x ∈ paths, path_matches penv p x = false) :
    penv.g_utf8_collate_key_for_filename (gplugin_manager_normalize_path penv p) ∉
      paths.map penv.g_utf8_collate_key_for_filename := by
  intro hmem
  obtain ⟨x, hx, hk⟩ := List.mem_map.mp hmem
  have := h x hx
  simp only [path_matches, decide_eq_false_iff_not, compare_paths_eq_zero] at this
  exact this hk

/-- C24: calling `gplugin_manager_append_path` for `p` twice gives the same
manager as calling it once; `gplugin_manager_append_path` and
`gplugin_manager_prepend_path` change the list only by storing the normalized
path when no stored path has its collation key, so a list whose collation
keys are pairwise different stays so, and such a list has no duplicates. -/
theorem append_path_idempotent (penv : PathEnv) (manager : GPluginManager) (p : Str) :
    gplugin_manager_append_path penv (gplugin_manager_append_path penv manager (some p))
        (some p) = gplugin_manager_append_path penv manager (some p) ∧
      (paths_distinct penv manager →
        paths_distinct penv (gplugin_manager_append_path penv manager (some p)) ∧
          paths_distinct penv (gplugin_manager_prepend_path penv manager (some p)) ∧
          (gplugin_manager_get_paths manager).Nodup) := by
  constructor
  · rcases append_path_paths penv manager p with ⟨-, h1⟩ | ⟨-, h1⟩
    · rcases append_path_paths penv (gplugin_manager_append_path penv manager (some p)) p
        with ⟨h2, -⟩ | ⟨-, h2⟩
      · have := h2 (gplugin_manager_normalize_path penv p) (by rw [h1]; simp)
        rw [path_matches_self] at this
        simp at this
      · exact h2
    · rw [h1, h1]
  · intro hd
    unfold paths_distinct at *
    refine ⟨?_, ?_, List.Nodup.of_map _ hd⟩
    · rcases append_path_paths penv manager p with ⟨h0, h1⟩ | ⟨-, h1⟩
      · rw [h1, List.map_append, List.nodup_append]
        refine ⟨hd, by simp, ?_⟩
        intro a ha hb
        simp only [List.map_cons, List.map_nil, List.mem_singleton] at hb
        rw [hb] at ha
        exact not_matches_key penv p manager.paths h0 ha
      · rw [h1]; exact hd
    · rcases prepend_path_paths penv manager p with ⟨h0, h1⟩ | ⟨-, h1⟩
      · rw [h1, List.map_cons, List.nodup_cons]
        exact ⟨not_matches_key penv p manager.paths h0, hd⟩
      · rw [h1]; exact hd

/-- The test `test_gplugin_manager_paths_duplicate`: appending `foo` twice to
the empty list gives a list of length 1. -/
theorem append_path_idempotent_witness :
    paths_distinct demo_path_env (paths_manager []) ∧
      (gplugin_manager_get_paths
        (gplugin_manager_append_path demo_path_env
          (gplugin_manager_append_path demo_path_env (paths_manager []) (some "foo".toList))
          (some "foo".toList))).length = 1 ∧
      paths_distinct demo_path_env
        (gplugin_manager_append_path demo_path_env (paths_manager []) (some "foo".toList)) := by
  have h := append_path_idempotent demo_path_env (paths_manager []) "foo".toList
  have hd : paths_distinct demo_path_env (paths_manager []) := by
    simp [paths_distinct, paths_manager]
  refine ⟨hd, ?_, (h.2 hd).1⟩
  rw [h.1]
  decide

theorem remove_path_paths (penv : PathEnv) (manager : GPluginManager) (p : Str) :
    ((∀ x ∈ manager.paths, path_matches penv p x = false) ∧
        gplugin_manager_remove_path penv manager (some p) = manager) ∨
      ∃ pre x post, manager.paths = pre ++ x :: post ∧
        (∀ y ∈ pre, path_matches penv p y = false) ∧ path_matches penv p x = true ∧
        (gplugin_manager_remove_path penv manager (some p)).paths = pre ++ post := by
  cases hf : g_queue_find_custom manager.paths (gplugin_manager_normalize_path penv p)
      (gplugin_manager_compare_paths penv) with
  | none =>
    left
    refine ⟨?_, by simp [gplugin_manager_remove_path, hf]⟩
    intro x hx
    have := (find_custom_eq_none penv _ _).mp hf x hx
    simpa [path_matches, compare_paths_eq_zero] using this
  | some x =>
    right
    obtain ⟨pre, post, h1, h2, h3, h4⟩ := find_custom_eq_some penv _ _ x hf
    refine ⟨pre, x, post, h1, ?_, ?_, ?_⟩
    · intro y hy
      simpa [path_matches, compare_paths_eq_zero] using h3 y hy
    · simpa [path_matches, compare_paths_eq_zero] using h2
    · simp [gplugin_manager_remove_path, hf, h4]

/-- C26: `gplugin_manager_remove_path` for `p` either finds no stored path
that matches the normalized `p` and leaves the manager as it is, or removes
exactly the first stored path that matches and keeps all other entries in
their order; removing `p` and removing the normalized `p` (with the separator
appended when `p` does not end with it) are the same. -/
theorem remove_path_first_match (penv : PathEnv) (manager : GPluginManager) (p : Str) :
    (((∀ x ∈ gplugin_manager_get_paths manager, path_matches penv p x = false) ∧
          gplugin_manager_remove_path penv manager (some p) = manager) ∨
        ∃ pre x post, gplugin_manager_get_paths manager = pre ++ x :: post ∧
          (∀ y ∈ pre, path_matches penv p y = false) ∧ path_matches penv p x = true ∧
          gplugin_manager_get_paths (gplugin_manager_remove_path penv manager (some p)) =
            pre ++ post) ∧
      gplugin_manager_remove_path penv manager
          (some (gplugin_manager_normalize_path penv p)) =
        gplugin_manager_remove_path penv manager (some p) ∧
      (p.getLast? ≠ some penv.G_DIR_SEPARATOR →
        gplugin_manager_remove_path penv manager (some (p ++ [penv.G_DIR_SEPARATOR])) =
          gplugin_manager_remove_path penv manager (some p)) := by
  refine ⟨remove_path_paths penv manager p, ?_, ?_⟩
  · simp only [gplugin_manager_remove_path, normalize_path_idem]
  · intro h
    rw [← (normalize_path_cases penv p).2.1 h]
    simp only [gplugin_manager_remove_path, normalize_path_idem]

/-- The test `test_gplugin_manager_add_multiple_mixed_trailing_slashes`:
after appending `/home/user1/.plugins` and `/home/user2/.plugins/`, removing
`/home/user1/.plugins/` leaves exactly the second path. -/
theorem remove_path_first_match_witness :
    "/home/user1/.plugins".toList.getLast? ≠ some demo_path_env.G_DIR_SEPARATOR ∧
      gplugin_manager_get_paths
        (gplugin_manager_remove_path demo_path_env
          (gplugin_manager_append_path demo_path_env
            (gplugin_manager_append_path demo_path_env (paths_manager [])
              (some "/home/user1/.plugins".toList))
            (some "/home/user2/.plugins/".toList))
          (some "/home/user1/.plugins".toList)) = ["/home/user2/.plugins/".toList] := by
  have h := (remove_path_first_match demo_path_env
    (gplugin_manager_append_path demo_path_env
      (gplugin_manager_append_path demo_path_env (paths_manager [])
        (some "/home/user1/.plugins".toList))
      (some "/home/user2/.plugins/".toList))
    "/home/user1/.plugins".toList).2.2 (by decide)
  refine ⟨by decide, ?_⟩
  rw [← h]
  decide


theorem append_path_normalized (penv : PathEnv) (manager : GPluginManager) (p : Option Str)
    (h : paths_normalized penv manager) :
    paths_normalized penv (gplugin_manager_append_path penv manager p) := by
  cases p with
  | none => exact h
  | some p =>
    rcases append_path_paths penv manager p with ⟨-, h1⟩ | ⟨-, h1⟩
    · intro x hx
      rw [h1] at hx
      rcases List.mem_append.mp hx with hx | hx
      · exact h x hx
      · simp only [List.mem_singleton] at hx
        rw [hx]; exact (normalize_path_cases penv p).2.2
    · rw [h1]; exact h

theorem prepend_path_normalized (penv : PathEnv) (manager : GPluginManager) (p : Option Str)
    (h : paths_normalized penv manager) :
    paths_normalized penv (gplugin_manager_prepend_path penv manager p) := by
  cases p with
  | none => exact h
  | some p =>
    rcases prepend_path_paths penv manager p with ⟨-, h1⟩ | ⟨-, h1⟩
    · intro x hx
      rw [h1] at hx
      rcases List.mem_cons.mp hx with hx | hx
      · rw [hx]; exact (normalize_path_cases penv p).2.2
      · exact h x hx
    · rw [h1]; exact h

theorem remove_path_normalized (penv : PathEnv) (manager : GPluginManager) (p : Option Str)
    (h : paths_normalized penv manager) :
    paths_normalized penv (gplugin_manager_remove_path penv manager p) := by
  cases p with
  | none => exact h
  | some p =>
    rcases remove_path_paths penv manager p with ⟨-, h1⟩ | ⟨pre, x, post, h1, -, -, h2⟩
    · rw [h1]; exact h
    · intro y hy
      rw [h2] at hy
      apply h y
      rw [h1]
      rcases List.mem_append.mp hy with hy | hy
      · exact List.mem_append_left _ hy
      · exact List.mem_append_right _ (List.mem_cons_of_mem x hy)

/-- C25: every stored search path ends with the directory separator. This
holds for a manager without paths and is preserved by
`gplugin_manager_append_path`, `gplugin_manager_prepend_path`,
`gplugin_manager_remove_path`, `gplugin_manager_remove_paths`,
`gplugin_manager_add_default_paths` and `gplugin_manager_add_app_paths` for
every argument. The path that is stored is the argument itself when it ends
with the separator, and the argument with one separator appended otherwise. -/
theorem paths_end_with_separator (penv : PathEnv) (manager : GPluginManager)
    (h : paths_normalized penv manager) :
    paths_normalized penv empty_manager ∧
      (∀ p, paths_normalized penv (gplugin_manager_append_path penv manager p)) ∧
      (∀ p, paths_normalized penv (gplugin_manager_prepend_path penv manager p)) ∧
      (∀ p, paths_normalized penv (gplugin_manager_remove_path penv manager p)) ∧
      paths_normalized penv (gplugin_manager_remove_paths manager) ∧
      paths_normalized penv (gplugin_manager_add_default_paths penv manager) ∧
      (∀ pfx appname,
        paths_normalized penv (gplugin_manager_add_app_paths penv manager pfx appname)) ∧
      (∀ p : Str, (∀ x ∈ gplugin_manager_get_paths manager, path_matches penv p x = false) →
        gplugin_manager_get_paths (gplugin_manager_append_path penv manager (some p)) =
            gplugin_manager_get_paths manager ++ [gplugin_manager_normalize_path penv p] ∧
          gplugin_manager_get_paths (gplugin_manager_prepend_path penv manager (some p)) =
            gplugin_manager_normalize_path penv p :: gplugin_manager_get_paths manager) ∧
      (∀ p : Str,
        (p.getLast? = some penv.G_DIR_SEPARATOR →
          gplugin_manager_normalize_path penv p = p) ∧
        (p.getLast? ≠ some penv.G_DIR_SEPARATOR →
          gplugin_manager_normalize_path penv p = p ++ [penv.G_DIR_SEPARATOR])) := by
  refine ⟨?_, fun p => append_path_normalized penv manager p h,
    fun p => prepend_path_normalized penv manager p h,
    fun p => remove_path_normalized penv manager p h, ?_, ?_, ?_, ?_, ?_⟩
  · intro x hx
    simp [empty_manager] at hx
  · intro x hx
    simp [gplugin_manager_remove_paths] at hx
  · exact prepend_path_normalized penv _ _ (prepend_path_normalized penv _ _ h)
  · intro pfx appname
    cases appname with
    | none => exact h
    | some appname =>
      exact prepend_path_normalized penv _ _ (prepend_path_normalized penv _ _ h)
  · intro p hp
    unfold gplugin_manager_get_paths at *
    constructor
    · rcases append_path_paths penv manager p with ⟨-, h1⟩ | ⟨⟨x, hx, hxp⟩, -⟩
      · exact h1
      · rw [hp x hx] at hxp; simp at hxp
    · rcases prepend_path_paths penv manager p with ⟨-, h1⟩ | ⟨⟨x, hx, hxp⟩, -⟩
      · exact h1
      · rw [hp x hx] at hxp; simp at hxp
  · intro p
    exact ⟨(normalize_path_cases penv p).1, (normalize_path_cases penv p).2.1⟩

/-- The test `test_gplugin_manager_add_app_paths` with the prefix `/usr/local`:
both stored paths end with `/`. -/
theorem paths_end_with_separator_witness :
    paths_normalized demo_path_env (paths_manager []) ∧
      gplugin_manager_get_paths
          (gplugin_manager_add_app_paths demo_path_env (paths_manager [])
            (some "/usr/local".toList) (some "foo".toList)) =
        ["/home/user/.config/foo/plugins/".toList, "/usr/local/lib/foo/".toList] ∧
      paths_normalized demo_path_env
        (gplugin_manager_add_app_paths demo_path_env (paths_manager [])
          (some "/usr/local".toList) (some "foo".toList)) := by
  have hd : paths_normalized demo_path_env (paths_manager []) := by
    simp [paths_normalized, paths_manager]
  exact ⟨hd, by decide,
    (paths_end_with_separator demo_path_env (paths_manager []) hd).2.2.2.2.2.2.1
      (some "/usr/local".toList) (some "foo".toList)⟩


/-! ### The normalized id -/

theorem id_valid_chars_iff (c : Nat) :
    c ∈ id_valid_chars ↔
      ('A'.toNat ≤ c ∧ c ≤ 'Z'.toNat) ∨ ('a'.toNat ≤ c ∧ c ≤ 'z'.toNat) ∨
        ('0'.toNat ≤ c ∧ c ≤ '9'.toNat) ∨ c = '-'.toNat := by
  have hv : id_valid_chars =
      (List.range 26).map (fun i => 65 + i) ++ (List.range 26).map (fun i => 97 + i) ++
        (List.range 10).map (fun i => 48 + i) ++ [45] := by decide
  have hA : 'A'.toNat = 65 := by decide
  have hZ : 'Z'.toNat = 90 := by decide
  have ha : 'a'.toNat = 97 := by decide
  have hz : 'z'.toNat = 122 := by decide
  have h0 : '0'.toNat = 48 := by decide
  have h9 : '9'.toNat = 57 := by decide
  have hm : '-'.toNat = 45 := by decide
  rw [hv, hA, hZ, ha, hz, h0, h9, hm]
  simp only [List.mem_append, List.mem_map, List.mem_range, List.mem_singleton]
  constructor
  · rintro (((⟨i, hi, rfl⟩ | ⟨i, hi, rfl⟩) | ⟨i, hi, rfl⟩) | rfl) <;> omega
  · rintro (⟨h1, h2⟩ | ⟨h1, h2⟩ | ⟨h1, h2⟩ | rfl)
    · exact Or.inl (Or.inl (Or.inl ⟨c - 65, by omega, by omega⟩))
    · exact Or.inl (Or.inl (Or.inr ⟨c - 97, by omega, by omega⟩))
    · exact Or.inl (Or.inr ⟨c - 48, by omega, by omega⟩)
    · exact Or.inr rfl

theorem g_strcanon_valid (string valid_chars : List Nat) (substitutor : Nat)
    (h : substitutor ∈ valid_chars) :
    (∀ c ∈ g_strcanon string valid_chars substitutor, c ∈ valid_chars) ∧
      g_strcanon (g_strcanon string valid_chars substitutor) valid_chars substitutor =
        g_strcanon string valid_chars substitutor := by
  have hall : ∀ c ∈ g_strcanon string valid_chars substitutor, c ∈ valid_chars := by
    intro c hc
    obtain ⟨d, -, rfl⟩ := List.mem_map.mp hc
    by_cases hd : d ∈ valid_chars
    · simp [hd]
    · simp [hd, h]
  refine ⟨hall, ?_⟩
  conv_rhs => rw [← List.map_id (g_strcanon string valid_chars substitutor)]
  unfold g_strcanon at hall ⊢
  apply List.map_congr_left
  intro c hc
  simp [hall c hc]

/-- C27: for an info whose id is not `NULL`, `gplugin_info_get_id_normalized`
returns a string with as many `gchar`s as the id, in which every `gchar` of
the id that is one of `A`-`Z`, `a`-`z`, `0`-`9` and `-` stands unchanged at its
position and every other one is replaced by `-`; the result consists of
`gchar`s of that set only and `g_strcanon` maps it to itself. For a `NULL` id
the function returns `NULL`. -/
theorem id_normalized_spec (info : GPluginPluginInfo) :
    (info.id = none → gplugin_info_get_id_normalized info = none) ∧
      (∀ id, info.id = some id →
        ∃ r, gplugin_info_get_id_normalized info = some r ∧
          r.length = (gchars id).length ∧
          (∀ (i : Nat) (c : Nat), (gchars id)[i]? = some c →
            r[i]? = some
              (if ('A'.toNat ≤ c ∧ c ≤ 'Z'.toNat) ∨ ('a'.toNat ≤ c ∧ c ≤ 'z'.toNat) ∨
                  ('0'.toNat ≤ c ∧ c ≤ '9'.toNat) ∨ c = '-'.toNat then c
                else '-'.toNat)) ∧
          (∀ c ∈ r, ('A'.toNat ≤ c ∧ c ≤ 'Z'.toNat) ∨ ('a'.toNat ≤ c ∧ c ≤ 'z'.toNat) ∨
            ('0'.toNat ≤ c ∧ c ≤ '9'.toNat) ∨ c = '-'.toNat) ∧
          g_strcanon r id_valid_chars '-'.toNat = r) := by
  constructor
  · intro h
    simp [gplugin_info_get_id_normalized, h]
  · intro id h
    have hsub : '-'.toNat ∈ id_valid_chars := (id_valid_chars_iff _).mpr (Or.inr (Or.inr (Or.inr rfl)))
    obtain ⟨hall, hidem⟩ := g_strcanon_valid (gchars id) id_valid_chars '-'.toNat hsub
    refine ⟨g_strcanon (gchars id) id_valid_chars '-'.toNat, by
      simp [gplugin_info_get_id_normalized, h], by simp [g_strcanon], ?_, ?_, hidem⟩
    · intro i c hc
      simp only [g_strcanon, List.getElem?_map, hc, Option.map_some', id_valid_chars_iff]
    · intro c hc
      exact (id_valid_chars_iff c).mp (hall c hc)

/-- The id `gplugin/é_x`: the slash, the two `gchar`s of `é` and the
underscore are replaced, everything else is kept. -/
theorem id_normalized_spec_witness :
    (demo_info "gplugin/é_x" "1" []).id = some "gplugin/é_x".toList ∧
      gplugin_info_get_id_normalized (demo_info "gplugin/é_x" "1" []) =
        some (gchars "gplugin----x".toList) ∧
      ∃ r, gplugin_info_get_id_normalized (demo_info "gplugin/é_x" "1" []) = some r ∧
        r.length = 12 := by
  obtain ⟨r, h1, h2, -⟩ :=
    (id_normalized_spec (demo_info "gplugin/é_x" "1" [])).2 "gplugin/é_x".toList rfl
  exact ⟨rfl, by decide, r, h1, h2.trans (by decide)⟩


/-! ### Plugins that share an id -/

/-- C21 at a failing input: a refresh indexes `hi.so` (`demo/lib`, priority
`10`, plugin `0`), `lo.so` (`demo/lib`, priority `0`, plugin `1`) and `x.so`
(`demo/x`, plugin `2`, which depends on `demo/lib`). The sequence of
`demo/lib` is then `[1, 0]`; `gplugin_manager_find_plugin` returns plugin `1`,
whose priority is `0`, and `gplugin_manager_get_plugin_dependencies` selects
plugin `1` for `demo/x`, although plugin `0` has the higher priority. -/
theorem find_plugin_ignores_priority :
    ((gplugin_manager_refresh demo_env priority_renv priority_tree 5 so_manager empty_world
        0).map (fun r =>
          (gplugin_manager_find_plugins r.manager "demo/lib".toList,
            priority_of r.world (some 0), priority_of r.world (some 1)))) =
        some ([1, 0], some 10, some 0) ∧
      ((gplugin_manager_refresh demo_env priority_renv priority_tree 5 so_manager empty_world
        0).map (fun r =>
          (gplugin_manager_find_plugin r.manager "demo/lib".toList,
            priority_of r.world (gplugin_manager_find_plugin r.manager "demo/lib".toList)))) =
        some (some 1, some 0) ∧
      ((gplugin_manager_refresh demo_env priority_renv priority_tree 5 so_manager empty_world
        0).map (fun r =>
          gplugin_manager_get_plugin_dependencies demo_env r.manager r.world 2)) =
        some ([1], none) := by
  decide


/-! ### Discovery: no plugin is stored twice -/

theorem filenames_distinct_congr (manager : GPluginManager) (w w' : World)
    (hw : ∀ id, ∀ h ∈ lookup_list manager.plugins id, (w' h).filename = (w h).filename)
    (h : filenames_distinct manager w) : filenames_distinct manager w' := by
  intro id
  have : (lookup_list manager.plugins id).map (fun h => (w' h).filename) =
      (lookup_list manager.plugins id).map (fun h => (w h).filename) :=
    List.map_congr_left (fun x hx => hw id x hx)
  rw [this]
  exact h id

theorem filenames_distinct_insert (manager : GPluginManager) (w : World) (plugin : Nat)
    (id : Str) (flag : Bool) (h : filenames_distinct manager w) :
    filenames_distinct { index_good_plugin manager w plugin id with refresh_needed := flag }
      w := by
  intro id'
  unfold index_good_plugin
  simp only
  by_cases hseen : (lookup_list manager.plugins id).any
      (fun splugin => decide ((w splugin).filename = (w plugin).filename)) = true
  · rw [if_pos hseen]
    exact h id'
  · rw [if_neg hseen, lookup_list_insert]
    by_cases hid : id' = id
    · rw [if_pos hid, List.map_cons, List.nodup_cons]
      refine ⟨?_, h id⟩
      intro hmem
      obtain ⟨x, hx, hxf⟩ := List.mem_map.mp hmem
      apply hseen
      rw [List.any_eq_true]
      exact ⟨x, hx, by simpa using hxf⟩
    · rw [if_neg hid]
      exact h id'

theorem refresh_good_plugin_distinct (env : Env) (filename : Str) (plugin : Nat)
    (loader : Option Nat) (s : RefreshState) (h : filenames_distinct s.manager s.world) :
    filenames_distinct (refresh_good_plugin env filename plugin loader s).manager
      (refresh_good_plugin env filename plugin loader s).world := by
  obtain ⟨-, hfields, -, -, -, hm⟩ := refresh_good_plugin_shape env filename plugin loader s
  apply filenames_distinct_congr _ s.world _ (fun _ x _ => (hfields x).1)
  rcases hm with ⟨-, hm⟩ | ⟨id, flag, -, hm⟩
  · rw [hm]; exact h
  · rw [hm]
    exact filenames_distinct_insert s.manager s.world plugin id flag h

theorem refresh_file_distinct (env : Env) (renv : RefreshEnv) (path : Str)
    (e : GPluginFileTreeEntry) (s : RefreshState) (hinv : index_inv s.manager s.world s.next)
    (h : filenames_distinct s.manager s.world) :
    filenames_distinct (refresh_file env renv path e s).manager
      (refresh_file env renv path e s).world := by
  unfold refresh_file
  simp only
  split_ifs with hskip
  · exact h
  · obtain ⟨hm, -, hcases⟩ := query_loop_spec renv (renv.g_build_filename path e.filename)
      (lookup_list s.manager.loaders_by_extension e.extension) s
      (lookup_handle s.manager.plugins_filename_view (renv.g_build_filename path e.filename)) none
    generalize query_loop renv (renv.g_build_filename path e.filename)
      (lookup_list s.manager.loaders_by_extension e.extension) s
      (lookup_handle s.manager.plugins_filename_view (renv.g_build_filename path e.filename))
      none = r at hm hcases
    obtain ⟨plugin, loader, s1⟩ := r
    simp only at hm hcases
    have h1 : filenames_distinct s1.manager s1.world := by
      rw [hm]
      rcases hcases with ⟨hw, -, -⟩ | ⟨l, info, -, -, -, -, hw⟩
      · rw [hw]; exact h
      · rw [hw]
        apply filenames_distinct_congr _ s.world _ _ h
        intro id x hx
        have hlt := (hinv.2.1 id x hx).1
        simp [Nat.ne_of_lt hlt]
    cases plugin with
    | none => exact h1
    | some x => exact refresh_good_plugin_distinct env _ x loader s1 h1

theorem refresh_files_distinct (env : Env) (renv : RefreshEnv) (path : Str)
    (files : List GPluginFileTreeEntry) (s : RefreshState)
    (hinv : index_inv s.manager s.world s.next) (h : filenames_distinct s.manager s.world) :
    filenames_distinct (refresh_files env renv path files s).manager
      (refresh_files env renv path files s).world := by
  induction files generalizing s with
  | nil => exact h
  | cons e files ih =>
    exact ih _ (refresh_file_inv env renv path e s hinv)
      (refresh_file_distinct env renv path e s hinv h)

theorem refresh_pass_distinct (env : Env) (renv : RefreshEnv) (root : GPluginFileTree)
    (s : RefreshState) (hinv : index_inv s.manager s.world s.next)
    (h : filenames_distinct s.manager s.world) :
    filenames_distinct (refresh_pass env renv root s).manager
      (refresh_pass env renv root s).world := by
  induction root generalizing s with
  | nil => exact h
  | cons d root ih =>
    obtain ⟨dir, files⟩ := d
    exact ih _ (refresh_files_inv env renv dir.filename files s hinv)
      (refresh_files_distinct env renv dir.filename files s hinv h)

theorem refresh_loop_distinct (env : Env) (renv : RefreshEnv) (root : GPluginFileTree)
    (fuel : Nat) :
    ∀ (s : RefreshState) (r : RefreshState × List (List Event)),
      index_inv s.manager s.world s.next → filenames_distinct s.manager s.world →
      refresh_loop env renv root fuel s = some r →
      filenames_distinct r.1.manager r.1.world := by
  induction fuel with
  | zero => intro s r _ _ h; simp [refresh_loop] at h
  | succ fuel ih =>
    intro s r hinv hd h
    rw [refresh_loop] at h
    have h0 := refresh_round_inv env renv root s hinv
    have h1 : filenames_distinct (refresh_round env renv root s).manager
        (refresh_round env renv root s).world :=
      refresh_pass_distinct env renv root _ (index_inv_flag _ _ _ false hinv) hd
    split_ifs at h with hflag
    · cases hr : refresh_loop env renv root fuel (refresh_round env renv root s) with
      | none => rw [hr] at h; simp at h
      | some r' =>
        rw [hr] at h
        obtain ⟨s2, passes⟩ := r'
        simp only [Option.some.injEq] at h
        subst h
        exact ih _ (s2, passes) h0 h1 hr
    · simp only [Option.some.injEq] at h
      subst h
      exact h1

/-- C28: no sequence of the identifier index ever holds two plugins with the
same filename. This holds for the empty manager, and when it holds (and the
two indexes are consistent) before a `gplugin_manager_refresh` that returns,
it holds afterwards, and the indexes are consistent again, so it holds after
any sequence of such calls, also when a pass queries a file again whose
earlier plugin is in state `load_failed`; in particular no plugin is stored
twice in a sequence. -/
theorem refresh_no_duplicate (env : Env) (renv : RefreshEnv) (root : GPluginFileTree)
    (fuel : Nat) (manager : GPluginManager) (w : World) (next : Nat) (r : RefreshResult)
    (hinv : index_inv manager w next) (hd : filenames_distinct manager w)
    (h : gplugin_manager_refresh env renv root fuel manager w next = some r) :
    filenames_distinct empty_manager w ∧ filenames_distinct r.manager r.world ∧
      index_inv r.manager r.world r.next ∧
      ∀ id, (gplugin_manager_find_plugins r.manager id).Nodup := by
  unfold gplugin_manager_refresh at h
  cases hl : refresh_loop env renv root fuel
      ⟨{ manager with refresh_needed := true }, w, next, 0, [], []⟩ with
  | none => rw [hl] at h; simp at h
  | some x =>
    rw [hl] at h
    obtain ⟨s, passes⟩ := x
    simp only [Option.some.injEq] at h
    subst h
    have h1 := refresh_loop_distinct env renv root fuel _ _ (index_inv_flag _ _ _ true hinv) hd hl
    refine ⟨?_, h1, refresh_loop_inv env renv root fuel _ _ (index_inv_flag _ _ _ true hinv) hl,
      fun id => List.Nodup.of_map _ (h1 id)⟩
    intro id
    simp [empty_manager, lookup_list]

/-- The file `c.so` is refreshed twice, first with a load that fails and then
with one that succeeds: the second refresh queries the file again, and the
sequence of `demo/c` still holds one plugin. -/
theorem refresh_no_duplicate_witness :
    ∃ r1 r2, gplugin_manager_refresh refusing_env requery_renv requery_tree 5 so_manager
          empty_world 0 = some r1 ∧
      gplugin_manager_refresh demo_env requery_renv requery_tree 5 r1.manager r1.world r1.next =
        some r2 ∧
      filenames_distinct r2.manager r2.world ∧
      gplugin_manager_find_plugins r2.manager "demo/c".toList = [0] ∧ r2.next = 2 := by
  obtain ⟨r1, h1⟩ : ∃ r1, gplugin_manager_refresh refusing_env requery_renv requery_tree 5
      so_manager empty_world 0 = some r1 := Option.isSome_iff_exists.mp (by decide)
  have hsome : ((gplugin_manager_refresh refusing_env requery_renv requery_tree 5 so_manager
      empty_world 0).bind (fun r =>
        gplugin_manager_refresh demo_env requery_renv requery_tree 5 r.manager r.world
          r.next)).isSome = true := by decide
  have hval : ((gplugin_manager_refresh refusing_env requery_renv requery_tree 5 so_manager
      empty_world 0).bind (fun r =>
        gplugin_manager_refresh demo_env requery_renv requery_tree 5 r.manager r.world
          r.next)).map (fun r => (gplugin_manager_find_plugins r.manager "demo/c".toList,
            r.next)) = some ([0], 2) := by decide
  rw [h1] at hsome hval
  obtain ⟨r2, h2⟩ := Option.isSome_iff_exists.mp hsome
  rw [h2] at hval
  simp only [Option.map_some', Option.some.injEq, Prod.mk.injEq] at hval
  have hinv0 : index_inv so_manager empty_world 0 := by
    simp [index_inv, so_manager, gplugin_manager_register_loader, empty_manager, lookup_handle,
      lookup_list]
  have hd0 : filenames_distinct so_manager empty_world := by
    intro id
    simp [so_manager, gplugin_manager_register_loader, empty_manager, lookup_list]
  obtain ⟨-, hd1, hinv1, -⟩ := refresh_no_duplicate refusing_env requery_renv requery_tree 5
    so_manager empty_world 0 r1 hinv0 hd0 h1
  exact ⟨r1, r2, h1, h2,
    (refresh_no_duplicate demo_env requery_renv requery_tree 5 r1.manager r1.world r1.next r2
      hinv1 hd1 h2).2.1, hval.1, hval.2⟩


/-! ### The dependency pattern on constructed atoms -/

theorem matchOpVersion_constructed (op v : Str) (hop : op ∈ dependency_ops) (hv : v ≠ [])
    (hv0 : v.head? ≠ some '=') (hnl : ∀ c ∈ v, isNewline c = false) :
    matchOpVersion (op ++ v) dependency_ops = some (op, v) := by
  obtain ⟨d, r, rfl⟩ := List.exists_cons_of_ne_nil hv
  have hd : d ≠ '=' := by simpa using hv0
  have e : (('=' : Char) == d) = false := by simpa using Ne.symm hd
  have hm : matchVersion (d :: r) = some (d :: r) :=
    matchVersion_no_newline (d :: r) (by simp) hnl
  simp only [dependency_ops, List.mem_cons, List.mem_singleton, List.not_mem_nil, or_false] at hop
  rcases hop with rfl | rfl | rfl | rfl | rfl | rfl <;>
    simp [matchOpVersion, dependency_ops, List.isPrefixOf, hm, e]

/-- C30: for a non-empty identifier without operator and newline characters,
an operator among `<`, `<=`, `=`, `==`, `>=`, `>` and a non-empty version
without newline characters that does not begin with `=`, the dependency
pattern matches the concatenation of the three and its groups are exactly the
identifier, the operator and the version; it matches the identifier alone
with the identifier as `id` and with empty operator and version. -/
theorem dependency_pattern_roundtrip (id op v : Str) (hid : id ≠ [])
    (hidc : ∀ c ∈ id, isOperatorChar c = false ∧ isNewline c = false)
    (hop : op ∈ dependency_ops) (hv : v ≠ []) (hv0 : v.head? ≠ some '=')
    (hnl : ∀ c ∈ v, isNewline c = false) :
    dependency_regex_match (id ++ op ++ v) = some (id, op, v) ∧
      dependency_regex_match id = some (id, [], []) := by
  obtain ⟨c, cs, rfl⟩ := List.exists_cons_of_ne_nil hid
  have hc := hidc c (List.mem_cons_self c cs)
  have hcs : ∀ x ∈ cs, isOperatorChar x = false ∧ isNewline x = false :=
    fun x hx => hidc x (List.mem_cons_of_mem c hx)
  have hm := matchOpVersion_constructed op v hop hv hv0 hnl
  have hopne : op ≠ [] := by
    intro h0
    rw [h0] at hop
    revert hop
    decide
  obtain ⟨o, os, rfl⟩ := List.exists_cons_of_ne_nil hopne
  constructor
  · have hscan := matchAfterId_scan cs [c] o (os ++ v) (o :: os) v hcs hm
    simp only [List.cons_append, List.append_assoc, dependency_regex_match, hc.2,
      Bool.false_eq_true, if_false]
    simpa using hscan
  · simp only [dependency_regex_match, hc.2, Bool.false_eq_true, if_false]
    simpa using matchAfterId_plain cs [c] hcs

/-- The atoms `demo/lib>=2.0` and `demo/lib`. -/
theorem dependency_pattern_roundtrip_witness :
    dependency_regex_match ("demo/lib".toList ++ ">=".toList ++ "2.0".toList) =
        some ("demo/lib".toList, ">=".toList, "2.0".toList) ∧
      dependency_regex_match "demo/lib".toList = some ("demo/lib".toList, [], []) :=
  dependency_pattern_roundtrip "demo/lib".toList ">=".toList "2.0".toList (by decide)
    (by decide) (by decide) (by decide) (by decide) (by decide)


/-! ### Termination of the load driver -/

theorem load_dependencies_loop_returns (env : Env) (manager : GPluginManager) (fuel : Nat)
    (P : World → Prop)
    (hstep : ∀ w q o, P w → gplugin_manager_load_plugin env manager fuel w q = some o →
      P o.world)
    (l : List Nat) :
    ∀ w, P w →
      (∀ q ∈ l, ∀ w', P w' → ∃ o, gplugin_manager_load_plugin env manager fuel w' q = some o) →
      ∃ r, load_dependencies_loop (gplugin_manager_load_plugin env manager fuel) w l = some r := by
  induction l with
  | nil => intro w _ _; exact ⟨_, rfl⟩
  | cons q l ih =>
    intro w hw hall
    obtain ⟨o, ho⟩ := hall q (List.mem_cons_self q l) w hw
    rw [load_dependencies_loop, ho]
    simp only
    split_ifs with hret
    · exact ⟨_, rfl⟩
    · obtain ⟨r, hr⟩ := ih o.world (hstep w q o hw ho)
        (fun x hx => hall x (List.mem_cons_of_mem q hx))
      rw [hr]
      exact ⟨_, rfl⟩

theorem load_plugin_returns (env : Env) (manager : GPluginManager) (w : World)
    (R : Nat → Prop) (rank : Nat → Nat)
    (hclosed : ∀ r q, R r →
      q ∈ (gplugin_manager_get_plugin_dependencies env manager w r).1 →
      R q ∧ rank q < rank r)
    (fuel : Nat) :
    ∀ (w' : World) (q : Nat), (∀ x, (w' x).info = (w x).info) → R q → rank q < fuel →
      ∃ o, gplugin_manager_load_plugin env manager fuel w' q = some o := by
  induction fuel with
  | zero => intro w' q _ _ h; omega
  | succ fuel ih =>
    intro w' q hinfo hq hrank
    rw [gplugin_manager_load_plugin]
    split_ifs with hst
    · exact ⟨_, rfl⟩
    · cases hi : (w' q).info with
      | none => exact ⟨_, rfl⟩
      | some info =>
        simp only
        have hdeps := get_plugin_dependencies_congr env manager w w' hinfo q
        have hdep : ∃ d, gplugin_manager_load_dependencies env manager
            (gplugin_manager_load_plugin env manager fuel) w' q = some d := by
          unfold gplugin_manager_load_dependencies
          rw [hdeps]
          generalize hg : gplugin_manager_get_plugin_dependencies env manager w q = g
          obtain ⟨deps, err⟩ := g
          cases err with
          | some e => exact ⟨_, rfl⟩
          | none =>
            simp only
            apply load_dependencies_loop_returns env manager fuel
              (fun v => ∀ x, (v x).info = (w x).info)
            · intro v x o hv ho y
              rw [((load_plugin_frame env manager fuel v x o ho).2.2.2.2.1 y).1]
              exact hv y
            · exact hinfo
            · intro x hx v hv
              have hx' : x ∈ (gplugin_manager_get_plugin_dependencies env manager w q).1 := by
                rw [hg]; exact hx
              obtain ⟨hRx, hlt⟩ := hclosed q x hq hx'
              exact ih v x hv hRx (by omega)
        obtain ⟨d, hd⟩ := hdep
        rw [hd]
        simp only
        split_ifs <;> exact ⟨_, rfl⟩

/-- C29: when the plugins reachable from `p` through the relation `q is
selected by dependency resolution for an entry of r` (a set `R` that holds `p`
and is closed under the relation) carry a rank that decreases along the
relation, which is what the relation being acyclic on them means,
`gplugin_manager_load_plugin` for `p` returns; a recursion depth of the rank of
`p` plus one, the number of plugins on the longest dependency chain from `p`,
suffices, and so does every larger one. -/
theorem load_plugin_terminates (env : Env) (manager : GPluginManager) (w : World) (p : Nat)
    (R : Nat → Prop) (rank : Nat → Nat) (hp : R p)
    (hclosed : ∀ r q, R r →
      q ∈ (gplugin_manager_get_plugin_dependencies env manager w r).1 →
      R q ∧ rank q < rank r) :
    ∀ fuel, rank p < fuel → ∃ o, gplugin_manager_load_plugin env manager fuel w p = some o :=
  fun fuel hfuel =>
    load_plugin_returns env manager w R rank hclosed fuel w p (fun _ => rfl) hp hfuel


/-- The plugin `demo/p` with its two dependencies, which have none: with the
ranks `1` for `demo/p` and `0` for the others, a depth of `2` suffices. -/
theorem load_plugin_terminates_witness :
    ∃ o, gplugin_manager_load_plugin demo_env two_dependencies_manager 2
      two_dependencies_world 0 = some o := by
  apply load_plugin_terminates demo_env two_dependencies_manager two_dependencies_world 0
    (fun _ => True) (fun q => if q = 0 then 1 else 0) trivial
  · intro r q _ hq
    refine ⟨trivial, ?_⟩
    match r, hq with
    | 0, hq =>
      have hd : (gplugin_manager_get_plugin_dependencies demo_env two_dependencies_manager
          two_dependencies_world 0).1 = [2, 1] := by decide
      rw [hd] at hq
      simp only [List.mem_cons, List.mem_singleton, List.not_mem_nil, or_false] at hq
      rcases hq with rfl | rfl <;> simp
    | 1, hq =>
      have hd : (gplugin_manager_get_plugin_dependencies demo_env two_dependencies_manager
          two_dependencies_world 1).1 = [] := by decide
      rw [hd] at hq
      simp at hq
    | 2, hq =>
      have hd : (gplugin_manager_get_plugin_dependencies demo_env two_dependencies_manager
          two_dependencies_world 2).1 = [] := by decide
      rw [hd] at hq
      simp at hq
    | r + 3, hq =>
      have hd : (gplugin_manager_get_plugin_dependencies demo_env two_dependencies_manager
          two_dependencies_world (r + 3)).1 = [] := by
        simp [gplugin_manager_get_plugin_dependencies, two_dependencies_world, demo_world]
      rw [hd] at hq
      simp at hq
  · decide

end GPlugin
